import Mathlib

/-!
# Underwater scene: scene manager, camera path animator and bubble spawner

A shallow embedding of `src/underwater` (C++).  Conventions of the embedding:

* `float` values are exact rationals (`ℚ`); rounding, infinities and NaN are
  outside the model.  Division by zero follows `ℚ` (`x / 0 = 0`).
* The C library functions the code calls (`sin`, `cos`, `tan`, `sqrt`,
  `atan2`) and the constant `RAND_MAX` are fields of `CLib`, and every
  definition that needs one takes the `CLib` as an argument.
* `rand()` reads a stream of draws threaded through the code as `Rng`.
* GLM functions (`mix`, `min`, `dot`, `cross`, `length`, `normalize`,
  `lookAt`, `perspective`) are written out from their GLM definitions.
* `std::sort` is an argument of `UnderwaterScene.render`; theorems assume only
  its contract (`SortPermutes`, `SortOrders`).
-/

namespace Underwater

/-! ## Numeric environment -/

/-- The C library as used by the scene code. -/
structure CLib where
  sin : ℚ → ℚ
  cos : ℚ → ℚ
  tan : ℚ → ℚ
  sqrt : ℚ → ℚ
  atan2 : ℚ → ℚ → ℚ
  RAND_MAX : ℕ

/-- The state of the global `rand()` generator: the stream of values it will
return and the number of values already taken. -/
structure Rng where
  draws : ℕ → ℕ
  pos : ℕ

/-- One call of `rand()`. -/
def Rng.rand (r : Rng) : ℕ × Rng :=
  (r.draws r.pos, { r with pos := r.pos + 1 })

/-- The expression `static_cast<float>(rand()) / RAND_MAX`. -/
def Rng.randUnit (lib : CLib) (r : Rng) : ℚ × Rng :=
  (((r.rand).1 : ℚ) / (lib.RAND_MAX : ℚ), (r.rand).2)

/-! ## GLM vectors and matrices -/

/-- The type `glm::vec3`. -/
@[ext] structure Vec3 where
  x : ℚ
  y : ℚ
  z : ℚ
  deriving DecidableEq

instance : Inhabited Vec3 := ⟨⟨0, 0, 0⟩⟩

instance : Add Vec3 := ⟨fun a b => ⟨a.x + b.x, a.y + b.y, a.z + b.z⟩⟩

instance : Sub Vec3 := ⟨fun a b => ⟨a.x - b.x, a.y - b.y, a.z - b.z⟩⟩

/-- Vector times scalar, `v * s`. -/
instance : HMul Vec3 ℚ Vec3 := ⟨fun a s => ⟨a.x * s, a.y * s, a.z * s⟩⟩

/-- The one-argument constructor `glm::vec3(s)`. -/
def Vec3.splat (s : ℚ) : Vec3 := ⟨s, s, s⟩

/-- The function `glm::dot`. -/
def dot (a b : Vec3) : ℚ := a.x * b.x + a.y * b.y + a.z * b.z

/-- The function `glm::cross`. -/
def cross (a b : Vec3) : Vec3 :=
  ⟨a.y * b.z - b.y * a.z, a.z * b.x - b.z * a.x, a.x * b.y - b.x * a.y⟩

/-- The function `glm::length`: `sqrt(dot(v, v))`. -/
def length (lib : CLib) (v : Vec3) : ℚ := lib.sqrt (dot v v)

/-- The function `glm::normalize`: `v * inversesqrt(dot(v, v))`. -/
def normalize (lib : CLib) (v : Vec3) : Vec3 := v * (1 / lib.sqrt (dot v v))

/-- The scalar `glm::mix(x, y, a)`: `x * (1 - a) + y * a`. -/
def mixF (x y a : ℚ) : ℚ := x * (1 - a) + y * a

/-- The function `glm::mix` on `vec3` with a scalar weight. -/
def mix (x y : Vec3) (a : ℚ) : Vec3 := ⟨mixF x.x y.x a, mixF x.y y.y a, mixF x.z y.z a⟩

/-- The function `glm::min`: `(y < x) ? y : x`. -/
def glmMin (x y : ℚ) : ℚ := if y < x then y else x

/-- The type `glm::mat4`, indexed row then column. -/
abbrev Mat4 := Matrix (Fin 4) (Fin 4) ℚ

/-- The function `glm::lookAt` (right-handed). -/
def lookAt (lib : CLib) (eye center up : Vec3) : Mat4 :=
  let f := normalize lib (center - eye)
  let s := normalize lib (cross f up)
  let u := cross s f
  !![s.x, s.y, s.z, -(dot s eye);
     u.x, u.y, u.z, -(dot u eye);
     -f.x, -f.y, -f.z, dot f eye;
     0, 0, 0, 1]

/-- The function `glm::radians`. -/
def radians (degrees : ℚ) : ℚ := degrees * (1745329251994329576923690768489 / 10 ^ 32)

/-- The function `glm::perspective` (right-handed, depth range `[-1, 1]`). -/
def perspective (lib : CLib) (fovy aspect zNear zFar : ℚ) : Mat4 :=
  let tanHalfFovy := lib.tan (fovy / 2)
  !![1 / (aspect * tanHalfFovy), 0, 0, 0;
     0, 1 / tanHalfFovy, 0, 0;
     0, 0, -(zFar + zNear) / (zFar - zNear), -(2 * zFar * zNear) / (zFar - zNear);
     0, 0, -1, 0]

/-! ## Camera (`underwater_camera.h`, `underwater_camera.cpp`) -/

/-- The struct `UnderwaterCamera::Keyframe`. -/
structure Keyframe where
  time : ℚ
  position : Vec3
  target : Vec3
  deriving DecidableEq

instance : Inhabited Keyframe := ⟨⟨0, default, default⟩⟩

/-- The class `UnderwaterCamera`. -/
structure UnderwaterCamera where
  position : Vec3 := ⟨0, 0, 0⟩
  target : Vec3 := ⟨0, 0, 0⟩
  up : Vec3 := ⟨0, 1, 0⟩
  viewMatrix : Mat4 := 1
  projectionMatrix : Mat4 := 1
  keyframes : List Keyframe := []
  animationTime : ℚ := 0
  animating : Bool := true
  currentKeyframe : ℤ := 0

/-- The constructor `UnderwaterCamera(fov, ratio, near, far)`. -/
def UnderwaterCamera.create (lib : CLib) (fov ratio near far : ℚ) : UnderwaterCamera :=
  { projectionMatrix := perspective lib (radians fov) ratio near far }

/-- The method `UnderwaterCamera::addKeyframe`. -/
def UnderwaterCamera.addKeyframe (cam : UnderwaterCamera) (time : ℚ) (pos tgt : Vec3) :
    UnderwaterCamera :=
  { cam with keyframes := cam.keyframes ++ [⟨time, pos, tgt⟩] }

/-- The method `UnderwaterCamera::resetAnimation`. -/
def UnderwaterCamera.resetAnimation (cam : UnderwaterCamera) : UnderwaterCamera :=
  { cam with animationTime := 0, currentKeyframe := 0 }

/-- The element `keyframes[i]`.  Every read in `interpolateKeyframes` is in
bounds (`scanSegment_le`), so the default value is never returned there. -/
def kf (keyframes : List Keyframe) (i : ℕ) : Keyframe := keyframes.getD i default

/-- The segment search of `interpolateKeyframes`,
`while (i < keyframes.size() - 1 && keyframes[i + 1].time < animationTime) i++;`
started at index `i`.  The first argument bounds the number of iterations; the
loop runs at most `keyframes.size() - 1` times. -/
def scanSegment (keyframes : List Keyframe) (animationTime : ℚ) : ℕ → ℕ → ℕ
  | 0, i => i
  | n + 1, i =>
    if i < keyframes.length - 1 ∧ (kf keyframes (i + 1)).time < animationTime then
      scanSegment keyframes animationTime n (i + 1)
    else i

/-- The smooth step `t * t * (3 - 2 * t)`. -/
def smoothstep (t : ℚ) : ℚ := t * t * (3 - 2 * t)

/-- The method `UnderwaterCamera::interpolateKeyframes`.  For a zero `duration`
the rational division gives 0, where the C++ float division gives an infinity or
NaN: a pose read from this definition is meaningful only for a segment whose two
keyframes have different times. -/
def UnderwaterCamera.interpolateKeyframes (cam : UnderwaterCamera) : UnderwaterCamera :=
  if cam.keyframes.length < 2 then
    if ¬ cam.keyframes.isEmpty then
      { cam with position := (kf cam.keyframes 0).position,
                 target := (kf cam.keyframes 0).target }
    else cam
  else
    let i := scanSegment cam.keyframes cam.animationTime (cam.keyframes.length - 1) 0
    let looped : Bool := decide (i ≥ cam.keyframes.length - 1)
    let animationTime := if looped then 0 else cam.animationTime
    let i := if looped then 0 else i
    let kf1 := kf cam.keyframes i
    let kf2 := kf cam.keyframes (i + 1)
    let duration := kf2.time - kf1.time
    let t := (animationTime - kf1.time) / duration
    let t := t * t * (3 - 2 * t)
    { cam with animationTime := animationTime,
               position := mix kf1.position kf2.position t,
               target := mix kf1.target kf2.target t }

/-- The method `UnderwaterCamera::update`; its scene argument is unused. -/
def UnderwaterCamera.update (lib : CLib) (cam : UnderwaterCamera) (dt : ℚ) : UnderwaterCamera :=
  let cam :=
    if cam.animating ∧ ¬ cam.keyframes.isEmpty then
      UnderwaterCamera.interpolateKeyframes { cam with animationTime := cam.animationTime + dt }
    else cam
  { cam with viewMatrix := lookAt lib cam.position cam.target cam.up }

/-- The index found by the search of `interpolateKeyframes`. -/
def segmentIndex (cam : UnderwaterCamera) (T : ℚ) : ℕ :=
  scanSegment cam.keyframes T (cam.keyframes.length - 1) 0

/-- The pose `interpolateKeyframes` writes for segment `i` at time `T`. -/
def segmentPose (kfs : List Keyframe) (i : ℕ) (T : ℚ) : Vec3 × Vec3 :=
  let w := smoothstep ((T - (kf kfs i).time) / ((kf kfs (i + 1)).time - (kf kfs i).time))
  (mix (kf kfs i).position (kf kfs (i + 1)).position w,
   mix (kf kfs i).target (kf kfs (i + 1)).target w)

/-- The local parameter `t = (time - time[i]) / (time[i+1] - time[i])` of
segment `i` at time `T`. -/
def localParam (kfs : List Keyframe) (i : ℕ) (T : ℚ) : ℚ :=
  (T - (kf kfs i).time) / ((kf kfs (i + 1)).time - (kf kfs i).time)

/-- Segment choice by "first keyframe whose time exceeds the animation time":
keyframe `i + 1` exists, its time is above `T`, and no keyframe before it has a
time above `T`. -/
def FirstExceeding (kfs : List Keyframe) (T : ℚ) (i : ℕ) : Prop :=
  i + 1 < kfs.length ∧ T < (kf kfs (i + 1)).time ∧ ∀ j, j ≤ i → (kf kfs j).time ≤ T

/-- Segment choice of the code: keyframe `i + 1` exists, its time is not below
`T`, and every keyframe from index 1 up to `i` has a time below `T`. -/
def FirstNotBefore (kfs : List Keyframe) (T : ℚ) (i : ℕ) : Prop :=
  i + 1 < kfs.length ∧ T ≤ (kf kfs (i + 1)).time ∧
    ∀ j, 1 ≤ j → j ≤ i → (kf kfs j).time < T

/-- The time of the last keyframe. -/
def lastTime (kfs : List Keyframe) : ℚ := (kf kfs (kfs.length - 1)).time

/-- A rational square root for examples: exact at the squares of the naturals
and linear between consecutive squares, so strictly increasing on the
non-negative rationals. -/
def sampleSqrt (x : ℚ) : ℚ :=
  (Nat.sqrt ⌊x⌋₊ : ℚ) + (x - (Nat.sqrt ⌊x⌋₊ : ℚ) ^ 2) / (2 * (Nat.sqrt ⌊x⌋₊ : ℚ) + 1)

/-- A C library for evaluating the definitions on examples: the square root is
`sampleSqrt` and the trigonometric functions are low-order polynomials. -/
def sampleLib : CLib where
  sin := fun x => x - x ^ 3 / 6
  cos := fun x => 1 - x ^ 2 / 2
  tan := fun x => x + x ^ 3 / 3
  sqrt := sampleSqrt
  atan2 := fun y x => y / (1 + x)
  RAND_MAX := 2147483647

/-- The pose of `out` is a keyframe interpolation at time `T`: for a segment
`i` selected by `pick`, position and look-target are each
the linear interpolation between keyframes `i` and `i + 1` with the same weight
`t ^ 2 * (3 - 2 * t)`, where `t = (T - time[i]) / (time[i+1] - time[i])`. -/
def InterpolatesAt (pick : List Keyframe → ℚ → ℕ → Prop) (kfs : List Keyframe) (T : ℚ)
    (out : UnderwaterCamera) : Prop :=
  ∃ i, pick kfs T i ∧
    out.position = mix (kf kfs i).position (kf kfs (i + 1)).position
      (localParam kfs i T ^ 2 * (3 - 2 * localParam kfs i T)) ∧
    out.target = mix (kf kfs i).target (kf kfs (i + 1)).target
      (localParam kfs i T ^ 2 * (3 - 2 * localParam kfs i T))

/-- A camera built as `initScene` builds it: the constructor, then one
`addKeyframe` call per keyframe of the list. -/
def cameraOf (lib : CLib) (kfs : List Keyframe) : UnderwaterCamera :=
  kfs.foldl (fun c k => c.addKeyframe k.time k.position k.target)
    (UnderwaterCamera.create lib 60 1 (1 / 10) 200)

/-- A camera with keyframes at `t = 0` (position `A`, target `TA`) and `t = 10`
(position `B`, target `TB`). -/
def twoKeyCamera (A TA B TB : Vec3) : UnderwaterCamera :=
  cameraOf sampleLib [⟨0, A, TA⟩, ⟨10, B, TB⟩]

/-- The camera with keyframes at `t = 0` (position `(0,0,0)`) and `t = 10`
(position `(10,0,0)`), at animation time 0. -/
def sampleCamera : UnderwaterCamera :=
  twoKeyCamera ⟨0, 0, 0⟩ ⟨0, 0, -1⟩ ⟨10, 0, 0⟩ ⟨10, 0, -1⟩

/-- A camera whose keyframe times are 0, 5, 5, 10 (ascending, one time
repeated), at animation time 0. -/
def repeatedTimeCamera : UnderwaterCamera :=
  cameraOf sampleLib [⟨0, ⟨0, 0, 0⟩, ⟨0, 0, -1⟩⟩, ⟨5, ⟨1, 0, 0⟩, ⟨1, 0, -1⟩⟩,
    ⟨5, ⟨2, 0, 0⟩, ⟨2, 0, -1⟩⟩, ⟨10, ⟨3, 0, 0⟩, ⟨3, 0, -1⟩⟩]

/-- A camera whose keyframe times are 0, 20, 10 (not ascending), at animation
time 0. -/
def unsortedCamera : UnderwaterCamera :=
  cameraOf sampleLib [⟨0, ⟨0, 0, 0⟩, ⟨0, 0, -1⟩⟩, ⟨20, ⟨1, 0, 0⟩, ⟨1, 0, -1⟩⟩,
    ⟨10, ⟨2, 0, 0⟩, ⟨2, 0, -1⟩⟩]

/-- A camera whose first keyframe is at `t = 5` and whose second is at
`t = 10`, at animation time 0. -/
def lateStartCamera : UnderwaterCamera :=
  cameraOf sampleLib [⟨5, ⟨0, 0, 0⟩, ⟨0, 0, -1⟩⟩, ⟨10, ⟨10, 0, 0⟩, ⟨10, 0, -1⟩⟩]

/-- The updates of a frame sequence applied in order. -/
def UnderwaterCamera.updates (lib : CLib) (cam : UnderwaterCamera) (dts : List ℚ) :
    UnderwaterCamera :=
  dts.foldl (fun c dt => c.update lib dt) cam

/-! ## Scene objects (`underwater_object.h`) -/

/-- The data members of the abstract class `UnderwaterObject`.  The raw pointer
`parent` is the address of the parent object, `none` for `nullptr`.  `addr` is
the address of the object itself where the program takes it (`fish.get()` in
`initScene`); an object whose address is never taken carries 0, which no
`parent` pointer holds. -/
structure UnderwaterObject where
  position : Vec3 := ⟨0, 0, 0⟩
  rotation : Vec3 := ⟨0, 0, 0⟩
  scale : Vec3 := ⟨1, 1, 1⟩
  modelMatrix : Mat4 := 1
  parent : Option ℕ := none
  translucent : Bool := false
  addr : ℕ := 0

/-- The effect of one call of the virtual method `update(scene, dt)`: the state
of the object after the call, the returned flag (`false` asks for removal), the
objects the call appended to `scene.objects` in order, and the state of `rand()`
after the call.  Appending is the only change an `update` of this repository
makes to the scene. -/
structure UpdateResult (α : Type) where
  self : α
  keep : Bool
  spawned : List α
  rng : Rng

/-- The class `UnderwaterScene` (`underwater_scene.h`) over the type `α` of its
objects; `objects` is the `std::list` in iteration order.  The keyboard and
cursor members belong to the input layer; `update` and `render` do not touch
them. -/
structure UnderwaterScene (α : Type) where
  camera : UnderwaterCamera
  objects : List α := []
  lightDirection : Vec3 := ⟨3 / 10, 9 / 10, 2 / 10⟩
  sunColor : Vec3 := ⟨1, 95 / 100, 85 / 100⟩
  lightColor : Vec3 := ⟨1, 1, 9 / 10⟩
  ambientColor : Vec3 := ⟨1 / 10, 15 / 100, 2 / 10⟩
  pointLightPos : Vec3 := ⟨0, -8, 0⟩
  pointLightColor : Vec3 := ⟨2 / 10, 8 / 10, 1⟩
  pointLightIntensity : ℚ := 8
  spotLightPos : Vec3 := ⟨0, -5, 10⟩
  spotLightDir : Vec3 := ⟨0, -(3 / 10), -1⟩
  spotLightColor : Vec3 := ⟨1, 1, 9 / 10⟩
  spotLightCutoff : ℚ := 85 / 100
  spotLightIntensity : ℚ := 10
  fogColor : Vec3 := ⟨0, 2 / 10, 4 / 10⟩
  fogDensity : ℚ := 6 / 1000
  globalTime : ℚ := 0

/-- The virtual interface of `UnderwaterObject` for an object type `α`: access
to the base-class data, `isTranslucent()` and `update(scene, dt)`.  The
`render(scene)` method issues drawing work only; the render pass below records
the order of its calls. -/
structure ObjectClass (α : Type) where
  base : α → UnderwaterObject
  isTranslucent : α → Bool
  update : Rng → UnderwaterScene α → ℚ → α → UpdateResult α

/-! ## Scene manager (`underwater_scene.cpp`) -/

/-- Lines 8 to 48 of `UnderwaterScene::update`: global time, camera, point
light, spotlight and fog. -/
def UnderwaterScene.updateEnvironment {α : Type} (lib : CLib) (s : UnderwaterScene α) (dt : ℚ) :
    UnderwaterScene α :=
  let globalTime := s.globalTime + dt
  let camera := s.camera.update lib dt
  let pointLightPos : Vec3 :=
    ⟨lib.sin (globalTime * (5 / 10)) * 15,
     -8 + lib.sin (globalTime * (7 / 10)) * 2,
     lib.cos (globalTime * (3 / 10)) * 15⟩
  let pointLightIntensity := 12 + lib.sin (globalTime * 2) * 5
  let pointLightColor : Vec3 :=
    { s.pointLightColor with y := 7 / 10 + lib.sin (globalTime * (8 / 10)) * (3 / 10) }
  let spotLightPos := camera.position + (⟨5 / 10, -(3 / 10), 0⟩ : Vec3)
  let spotLightDir := normalize lib (camera.target - camera.position)
  let spotLightIntensity := 18 + lib.sin (globalTime * 10) * 2
  let cameraY := camera.position.y
  let fogDensity : ℚ :=
    if cameraY > 0 then 5 / 10000
    else glmMin (4 / 1000 + (-cameraY) * (5 / 10000)) (15 / 1000)
  let fogColor : Vec3 :=
    if cameraY > 0 then ⟨4 / 10, 6 / 10, 85 / 100⟩
    else mix ⟨0, 3 / 10, 5 / 10⟩ ⟨0, 1 / 10, 25 / 100⟩ (glmMin ((-cameraY) / 15) 1)
  { s with globalTime := globalTime, camera := camera, pointLightPos := pointLightPos,
           pointLightIntensity := pointLightIntensity, pointLightColor := pointLightColor,
           spotLightPos := spotLightPos, spotLightDir := spotLightDir,
           spotLightIntensity := spotLightIntensity, fogDensity := fogDensity,
           fogColor := fogColor }

/-- One entry of the log of an update pass: the object `update` was called on,
as it was before the call, and what the call did. -/
abbrev UpdateCall (α : Type) := α × UpdateResult α

/-- The loop of `UnderwaterScene::update`,
`while (i != end(objects)) { if (!obj->update(*this, dt)) i = erase(i); else ++i; }`.
The list is `done ++ todo` with the iterator at the head of `todo`; `done` holds
the visited objects that were kept.  A call sees the scene with the list as it is
when the call starts, and what it appends lands behind `todo`, where the loop
reaches it in the same pass.  The first argument bounds the number of `update`
calls; the result is `none` when it is used up before the iterator reaches the
end.  Returned: the final list, the state of `rand()` and the log of calls. -/
def updateObjects {α : Type} (cls : ObjectClass α) (dt : ℚ) (env : UnderwaterScene α) :
    ℕ → Rng → List α → List α → Option (List α × Rng × List (UpdateCall α))
  | _, rng, done, [] => some (done, rng, [])
  | 0, _, _, _ :: _ => none
  | fuel + 1, rng, done, obj :: rest =>
    let r := cls.update rng { env with objects := done ++ obj :: rest } dt obj
    match updateObjects cls dt env fuel r.rng (if r.keep then done ++ [r.self] else done)
        (rest ++ r.spawned) with
    | none => none
    | some (objs, rng', log) => some (objs, rng', (obj, r) :: log)

/-- The method `UnderwaterScene::update`, with the bound on the number of object
updates, returning the scene, the state of `rand()` and the log of the object
updates made. -/
def UnderwaterScene.update {α : Type} (cls : ObjectClass α) (lib : CLib) (fuel : ℕ) (rng : Rng)
    (s : UnderwaterScene α) (dt : ℚ) :
    Option (UnderwaterScene α × Rng × List (UpdateCall α)) :=
  let env := s.updateEnvironment lib dt
  match updateObjects cls dt env fuel rng [] env.objects with
  | none => none
  | some (objs, rng', log) => some ({ env with objects := objs }, rng', log)

/-- The objects a log says were kept, in call order, in their state after the
call. -/
def keptObjects {α : Type} (log : List (UpdateCall α)) : List α :=
  log.filterMap (fun c => if c.2.keep then some c.2.self else none)

/-- The objects a log says were appended to the scene, in order. -/
def spawnedObjects {α : Type} (log : List (UpdateCall α)) : List α :=
  log.flatMap (fun c => c.2.spawned)

/-- The square of the Euclidean distance between an object's position and the
camera position. -/
def sqDistToCamera {α : Type} (cls : ObjectClass α) (s : UnderwaterScene α) (o : α) : ℚ :=
  dot ((cls.base o).position - s.camera.position) ((cls.base o).position - s.camera.position)

/-- The distance `glm::length(o->position - camPos)` the render pass sorts by. -/
def distToCamera {α : Type} (cls : ObjectClass α) (lib : CLib) (s : UnderwaterScene α)
    (o : α) : ℚ :=
  length lib ((cls.base o).position - s.camera.position)

/-- The method `UnderwaterScene::render`, returning the objects in the order
their `render` is called.  `stdSort comp l` stands for `std::sort` over the
vector `l` with comparator `comp`. -/
def UnderwaterScene.render {α : Type} (cls : ObjectClass α) (lib : CLib)
    (stdSort : (α → α → Bool) → List α → List α) (s : UnderwaterScene α) : List α :=
  let opaqueObjects := s.objects.filter (fun obj => !cls.isTranslucent obj)
  let translucentObjects := s.objects.filter (fun obj => cls.isTranslucent obj)
  let camPos := s.camera.position
  let translucentObjects := stdSort
    (fun a b =>
      let distA := length lib ((cls.base a).position - camPos)
      let distB := length lib ((cls.base b).position - camPos)
      decide (distA > distB))
    translucentObjects
  opaqueObjects ++ translucentObjects

/-- A comparator that `std::sort` accepts: a strict weak ordering. -/
def StrictWeak {α : Type} (comp : α → α → Bool) : Prop :=
  (∀ a, comp a a = false) ∧
  (∀ a b c, comp a b = true → comp b c = true → comp a c = true) ∧
  (∀ a b c, comp a b = false → comp b c = false → comp a c = false)

/-- Contract of `std::sort`, first half: the output is a rearrangement of the
input. -/
def SortPermutes {α : Type} (stdSort : (α → α → Bool) → List α → List α) : Prop :=
  ∀ comp l, (stdSort comp l).Perm l

/-- Contract of `std::sort`, second half: for a strict weak ordering `comp`, no
element of the output is ordered by `comp` before an element that precedes it. -/
def SortOrders {α : Type} (stdSort : (α → α → Bool) → List α → List α) : Prop :=
  ∀ comp, StrictWeak comp → ∀ l, (stdSort comp l).Pairwise (fun a b => comp b a = false)

/-- An implementation of `std::sort`: insertion sort. -/
def insertionSortBy {α : Type} (comp : α → α → Bool) (l : List α) : List α :=
  l.insertionSort (fun a b => comp b a = false)

/-! ## Bubbles (`bubble.h`, `bubble.cpp`) -/

/-- The class `Bubble`; mesh, texture and shader handles are left out. -/
structure Bubble extends UnderwaterObject where
  velocity : Vec3 := ⟨0, 0, 0⟩
  riseSpeed : ℚ := 2
  wobbleFreq : ℚ := 3
  wobbleAmp : ℚ := 3 / 10
  wobblePhase : ℚ := 0
  age : ℚ := 0
  lifetime : ℚ := 10
  transparency : ℚ := 6 / 10

/-- The constructor `Bubble()`. -/
def Bubble.create (lib : CLib) (rng : Rng) : Bubble × Rng :=
  let u1 := rng.randUnit lib
  let u2 := u1.2.randUnit lib
  let u3 := u2.2.randUnit lib
  ({ translucent := true,
     scale := ⟨1 / 10, 1 / 10, 1 / 10⟩,
     wobblePhase := u1.1 * (628 / 100),
     wobbleFreq := 2 + u2.1 * 4,
     riseSpeed := 15 / 10 + u3.1 * 2 }, u3.2)

/-- The method `Bubble::setRiseSpeed`. -/
def Bubble.setRiseSpeed (b : Bubble) (speed : ℚ) : Bubble := { b with riseSpeed := speed }

/-- The method `Bubble::setSize`. -/
def Bubble.setSize (b : Bubble) (size : ℚ) : Bubble := { b with scale := Vec3.splat size }

/-- The method `Bubble::setLifetime`. -/
def Bubble.setLifetime (b : Bubble) (life : ℚ) : Bubble := { b with lifetime := life }

/-- The method `Bubble::update`, returning the bubble and the returned flag.
`generateModelMatrix` stands for `UnderwaterObject::generateModelMatrix`, which
the header declares and whose definition is not among the sources: it maps the
base-class data to the new `modelMatrix`. -/
def Bubble.update (lib : CLib) (generateModelMatrix : UnderwaterObject → Mat4)
    (b : Bubble) (dt : ℚ) : Bubble × Bool :=
  let b := { b with age := b.age + dt }
  if b.age > b.lifetime ∨ b.position.y > 5 then (b, false)
  else
    let b := { b with wobblePhase := b.wobblePhase + b.wobbleFreq * dt }
    let velocity : Vec3 :=
      ⟨lib.sin b.wobblePhase * b.wobbleAmp,
       b.riseSpeed,
       lib.cos (b.wobblePhase * (7 / 10)) * b.wobbleAmp * (5 / 10)⟩
    let b := { b with velocity := velocity }
    let b := { b with position := b.position + b.velocity * dt }
    let growthFactor := 1 + b.age * (2 / 100)
    let b := { b with scale := Vec3.splat (1 / 10 * growthFactor) }
    let b :=
      if b.age > b.lifetime * (8 / 10) then
        { b with transparency :=
            6 / 10 * (1 - (b.age - b.lifetime * (8 / 10)) / (b.lifetime * (2 / 10))) }
      else b
    let b := { b with modelMatrix := generateModelMatrix b.toUnderwaterObject }
    (b, true)

/-! ## Bubble generator (`bubble_generator.h`, `bubble_generator.cpp`) -/

/-- The class `BubbleGenerator`. -/
structure BubbleGenerator extends UnderwaterObject where
  spawnTimer : ℚ := 0
  spawnRate : ℚ := 5 / 100
  bubblesPerSpawn : ℤ := 3
  spawnRadius : ℚ := 30
  maxBubbles : ℤ := 5000

/-- The constructor `BubbleGenerator()`. -/
def BubbleGenerator.create : BubbleGenerator := { position := ⟨0, -9, 0⟩ }

/-- The method `BubbleGenerator::setSpawnRate`. -/
def BubbleGenerator.setSpawnRate (g : BubbleGenerator) (rate : ℚ) : BubbleGenerator :=
  { g with spawnRate := rate }

/-- The method `BubbleGenerator::setBubblesPerSpawn`. -/
def BubbleGenerator.setBubblesPerSpawn (g : BubbleGenerator) (count : ℤ) : BubbleGenerator :=
  { g with bubblesPerSpawn := count }

/-- The method `BubbleGenerator::setSpawnRadius`. -/
def BubbleGenerator.setSpawnRadius (g : BubbleGenerator) (radius : ℚ) : BubbleGenerator :=
  { g with spawnRadius := radius }

/-- The body of the spawn loop of `BubbleGenerator::update`: the bubble one
iteration constructs and pushes. -/
def BubbleGenerator.spawnOne (lib : CLib) (g : BubbleGenerator) (rng : Rng) : Bubble × Rng :=
  let made := Bubble.create lib rng
  let bubble := made.1
  let u1 := made.2.randUnit lib
  let angle := u1.1 * (628 / 100)
  let u2 := u1.2.randUnit lib
  let dist := u2.1 * g.spawnRadius
  let bubble := { bubble with
    position := g.position + (⟨lib.cos angle * dist, 0, lib.sin angle * dist⟩ : Vec3) }
  let u3 := u2.2.randUnit lib
  let size := 5 / 100 + u3.1 * (15 / 100)
  let bubble := bubble.setSize size
  let u4 := u3.2.randUnit lib
  let lifetime := 8 + u4.1 * 6
  let bubble := bubble.setLifetime lifetime
  (bubble, u4.2)

/-- The loop `for (int i = 0; i < bubblesPerSpawn; i++)` of
`BubbleGenerator::update` with `n` iterations left: the bubbles pushed, in
order. -/
def BubbleGenerator.spawnLoop (lib : CLib) (g : BubbleGenerator) :
    ℕ → Rng → List Bubble × Rng
  | 0, rng => ([], rng)
  | n + 1, rng =>
    let one := g.spawnOne lib rng
    let more := BubbleGenerator.spawnLoop lib g n one.2
    (one.1 :: more.1, more.2)

/-- The method `BubbleGenerator::update`: the generator after the call, the
bubbles pushed to `scene.objects` and the state of `rand()`.  The return value
is `true` on every path. -/
def BubbleGenerator.update (lib : CLib) (rng : Rng) (g : BubbleGenerator) (dt : ℚ) :
    BubbleGenerator × List Bubble × Rng :=
  let g := { g with spawnTimer := g.spawnTimer + dt }
  if g.spawnTimer ≥ g.spawnRate then
    let g := { g with spawnTimer := 0 }
    let pushed := g.spawnLoop lib g.bubblesPerSpawn.toNat rng
    (g, pushed.1, pushed.2)
  else (g, [], rng)

/-- The generator driven by a sequence of frames, the bubbles pushed to the
scene by each `update` call in turn. -/
def BubbleGenerator.run (lib : CLib) : Rng → BubbleGenerator → List ℚ → List (List Bubble)
  | _, _, [] => []
  | rng, g, dt :: dts =>
    let r := g.update lib rng dt
    r.2.1 :: BubbleGenerator.run lib r.2.2 r.1 dts

/-- The objects of the particle system: bubbles and their generator. -/
inductive ParticleObject where
  | bubble (b : Bubble)
  | generator (g : BubbleGenerator)

/-- The virtual interface of `UnderwaterObject` as `Bubble` and
`BubbleGenerator` implement it; neither overrides `isTranslucent`. -/
def particleClass (lib : CLib) (generateModelMatrix : UnderwaterObject → Mat4) :
    ObjectClass ParticleObject where
  base
    | .bubble b => b.toUnderwaterObject
    | .generator g => g.toUnderwaterObject
  isTranslucent
    | .bubble b => b.translucent
    | .generator g => g.translucent
  update rng _ dt
    | .bubble b =>
      let r := b.update lib generateModelMatrix dt
      { self := .bubble r.1, keep := r.2, spawned := [], rng := rng }
    | .generator g =>
      let r := g.update lib rng dt
      { self := .generator r.1, keep := true, spawned := r.2.1.map .bubble, rng := r.2.2 }

/-- An object whose `update` appends nothing to the scene, whatever the scene
and the frame. -/
def Inert {α : Type} (cls : ObjectClass α) (o : α) : Prop :=
  ∀ rng sc dt, (cls.update rng sc dt o).spawned = []

/-- A stream of `rand()` values for evaluating the definitions on examples. -/
def sampleRng : Rng := { draws := fun n => (n * 7919 + 13) % 2147483648, pos := 0 }

/-- A model-matrix function for evaluating the definitions on examples: the
translation to the object's position. -/
def sampleModelMatrix (o : UnderwaterObject) : Mat4 :=
  !![1, 0, 0, o.position.x;
     0, 1, 0, o.position.y;
     0, 0, 1, o.position.z;
     0, 0, 0, 1]

/-- A scene for examples: the sample camera, a bubble generator with spawn
interval 1 and a bubble of age 19/2 and lifetime 10. -/
def sampleScene : UnderwaterScene ParticleObject :=
  { camera := sampleCamera,
    objects := [.generator (BubbleGenerator.create.setSpawnRate 1),
                .bubble { (Bubble.create sampleLib sampleRng).1 with age := 19 / 2 }] }

/-- A bubble at position `p`, for examples. -/
def bubbleAt (p : Vec3) : ParticleObject :=
  .bubble { (Bubble.create sampleLib sampleRng).1 with position := p }

/-- A scene for examples: the camera at the origin and three translucent
bubbles at distances 5, 10 and 2 from it. -/
def threeBubbleScene : UnderwaterScene ParticleObject :=
  { camera := sampleCamera,
    objects := [bubbleAt ⟨5, 0, 0⟩, bubbleAt ⟨0, 10, 0⟩, bubbleAt ⟨0, 0, 2⟩] }

/-! ## Fog and lights: the expressions of `UnderwaterScene::update` by name -/

/-- The underwater fog density of `UnderwaterScene::update` as a function of the
depth: `glm::min(0.004f + depth * 0.0005f, 0.015f)`. -/
def underwaterFogDensity (depth : ℚ) : ℚ := glmMin (4 / 1000 + depth * (5 / 10000)) (15 / 1000)

/-- The blend fraction of `UnderwaterScene::update` as a function of the depth:
`glm::min(depth / 15.0f, 1.0f)`. -/
def fogDepthFactor (depth : ℚ) : ℚ := glmMin (depth / 15) 1

/-- A C library for examples whose `sin` and `cos` lie on the unit circle: the
rational parametrisation of the circle by `t = x / 2`. -/
def circleLib : CLib :=
  { sampleLib with
    sin := fun x => 2 * (x / 2) / (1 + (x / 2) ^ 2),
    cos := fun x => (1 - (x / 2) ^ 2) / (1 + (x / 2) ^ 2) }

/-- The sample scene with another previous point-light colour. -/
def sampleSceneRedLight : UnderwaterScene ParticleObject :=
  { sampleScene with pointLightColor := ⟨1, 8 / 10, 1⟩ }

/-! ## Transform composer (`UnderwaterObject::generateModelMatrix`) -/

/-- The matrix `glm::translate(glm::mat4(1), v)`. -/
def translate (v : Vec3) : Mat4 :=
  !![1, 0, 0, v.x;
     0, 1, 0, v.y;
     0, 0, 1, v.z;
     0, 0, 0, 1]

/-- The matrix `glm::scale(glm::mat4(1), v)`. -/
def scaleMatrix (v : Vec3) : Mat4 :=
  !![v.x, 0, 0, 0;
     0, v.y, 0, 0;
     0, 0, v.z, 0;
     0, 0, 0, 1]

/-- Rotation by the angle `a` about the x axis. -/
def rotateX (lib : CLib) (a : ℚ) : Mat4 :=
  !![1, 0, 0, 0;
     0, lib.cos a, -lib.sin a, 0;
     0, lib.sin a, lib.cos a, 0;
     0, 0, 0, 1]

/-- Rotation by the angle `a` about the y axis. -/
def rotateY (lib : CLib) (a : ℚ) : Mat4 :=
  !![lib.cos a, 0, lib.sin a, 0;
     0, 1, 0, 0;
     -lib.sin a, 0, lib.cos a, 0;
     0, 0, 0, 1]

/-- Rotation by the angle `a` about the z axis. -/
def rotateZ (lib : CLib) (a : ℚ) : Mat4 :=
  !![lib.cos a, -lib.sin a, 0, 0;
     lib.sin a, lib.cos a, 0, 0;
     0, 0, 1, 0;
     0, 0, 0, 1]

/-- Modelled from the spec: the local matrix of `generateModelMatrix`, whose
definition is not among the sources (only its declaration in
`underwater_object.h` and its callers are).  The spec gives
`Local = Translate(p) · RotateZ(r.z) · RotateY(r.y) · RotateX(r.x) · Scale(s)`. -/
def localMatrix (lib : CLib) (o : UnderwaterObject) : Mat4 :=
  translate o.position * rotateZ lib o.rotation.z * rotateY lib o.rotation.y *
    rotateX lib o.rotation.x * scaleMatrix o.scale

/-- Modelled from the spec: `UnderwaterObject::generateModelMatrix`, whose
definition is not among the sources.  The spec: "If a parent reference is
present and valid, `World = ParentWorld · Local`; otherwise `World = Local`".
`parentWorld` is the parent's `modelMatrix` as the `parent` pointer gives it when
the function is called, `none` when there is no valid parent. -/
def generateModelMatrix (lib : CLib) (parentWorld : Option Mat4) (o : UnderwaterObject) : Mat4 :=
  match parentWorld with
  | some world => world * localMatrix lib o
  | none => localMatrix lib o

/-- The world position a matrix gives the local origin: its translation
column. -/
def worldPosition (m : Mat4) : Vec3 := ⟨m 0 3, m 1 3, m 2 3⟩

/-! ## Target-seeking yaw (`fish.cpp`, `fish1.cpp`) -/

/-- The loop `while (yawDiff > 3.14159f) yawDiff -= 6.28318f;` in exact
arithmetic: the constants are the decimal literals and the subtraction is not
rounded, so every pass lowers `yawDiff` by a full turn and the loop ends for
every argument.  `wrapDownFloat32` is the loop in binary32 arithmetic. -/
def wrapDown (yawDiff : ℚ) : ℚ :=
  if yawDiff > 314159 / 100000 then wrapDown (yawDiff - 628318 / 100000) else yawDiff
termination_by Int.toNat ⌈(yawDiff - 314159 / 100000) / (628318 / 100000)⌉
decreasing_by
  have h : (0 : ℚ) < (yawDiff - 314159 / 100000) / (628318 / 100000) := by
    apply div_pos <;> linarith
  have e : (yawDiff - 628318 / 100000 - 314159 / 100000) / (628318 / 100000) =
      (yawDiff - 314159 / 100000) / (628318 / 100000) - 1 := by
    field_simp
    ring
  rw [e, Int.ceil_sub_one]
  have := Int.ceil_pos.mpr h
  omega

/-- The loop `while (yawDiff < -3.14159f) yawDiff += 6.28318f;` in exact
arithmetic, as `wrapDown`.  `wrapUpFloat32` is the loop in binary32
arithmetic. -/
def wrapUp (yawDiff : ℚ) : ℚ :=
  if yawDiff < -(314159 / 100000) then wrapUp (yawDiff + 628318 / 100000) else yawDiff
termination_by Int.toNat ⌈(-(314159 / 100000) - yawDiff) / (628318 / 100000)⌉
decreasing_by
  have h : (0 : ℚ) < (-(314159 / 100000) - yawDiff) / (628318 / 100000) := by
    apply div_pos <;> linarith
  have e : (-(314159 / 100000) - (yawDiff + 628318 / 100000)) / (628318 / 100000) =
      (-(314159 / 100000) - yawDiff) / (628318 / 100000) - 1 := by
    field_simp
    ring
  rw [e, Int.ceil_sub_one]
  have := Int.ceil_pos.mpr h
  omega

/-- The normalisation of the angle difference: the two loops in sequence. -/
def normalizeYaw (yawDiff : ℚ) : ℚ := wrapUp (wrapDown yawDiff)

/-- The smooth turn of `Fish::update` and `Fish1::update`,
`yawDiff = targetYaw - currentYaw; (normalise); currentYaw += yawDiff * turnSpeed * dt;`,
returning the new `currentYaw`. -/
def yawStep (turnSpeed dt targetYaw currentYaw : ℚ) : ℚ :=
  currentYaw + normalizeYaw (targetYaw - currentYaw) * turnSpeed * dt

/-- Rounding to the nearest integer, a tie going to the even one. -/
def roundHalfEven (q : ℚ) : ℤ :=
  if q - ⌊q⌋ < 1 / 2 then ⌊q⌋
  else if 1 / 2 < q - ⌊q⌋ then ⌊q⌋ + 1
  else if ⌊q⌋ % 2 = 0 then ⌊q⌋ else ⌊q⌋ + 1

/-- The binary32 number nearest to `x`, a tie going to the even significand: `x`
is rounded to a multiple of `2 ^ (e - 23)`, where `2 ^ e ≤ |x| < 2 ^ (e + 1)`.
The exponent range is not bounded (no overflow to infinity, no subnormal
numbers). -/
def roundFloat32 (x : ℚ) : ℚ :=
  if x = 0 then 0
  else (roundHalfEven (x / 2 ^ (Int.log 2 |x| - 23)) : ℚ) * 2 ^ (Int.log 2 |x| - 23)

/-- The literal `3.14159f`. -/
def piFloat32 : ℚ := roundFloat32 (314159 / 100000)

/-- The literal `6.28318f`. -/
def twoPiFloat32 : ℚ := roundFloat32 (628318 / 100000)

/-- The loop `while (yawDiff > 3.14159f) yawDiff -= 6.28318f;` in binary32
arithmetic.  The first argument bounds the number of iterations; the result is
`none` when the loop has not exited within that many. -/
def wrapDownFloat32 : ℕ → ℚ → Option ℚ
  | 0, yawDiff => if yawDiff > piFloat32 then none else some yawDiff
  | fuel + 1, yawDiff =>
    if yawDiff > piFloat32 then wrapDownFloat32 fuel (roundFloat32 (yawDiff - twoPiFloat32))
    else some yawDiff

/-- The loop `while (yawDiff < -3.14159f) yawDiff += 6.28318f;` in binary32
arithmetic, with a bound on the number of iterations as in `wrapDownFloat32`. -/
def wrapUpFloat32 : ℕ → ℚ → Option ℚ
  | 0, yawDiff => if yawDiff < -piFloat32 then none else some yawDiff
  | fuel + 1, yawDiff =>
    if yawDiff < -piFloat32 then wrapUpFloat32 fuel (roundFloat32 (yawDiff + twoPiFloat32))
    else some yawDiff

/-- The two loops in sequence in binary32 arithmetic, each with the same bound
on its number of iterations. -/
def normalizeYawFloat32 (fuel : ℕ) (yawDiff : ℚ) : Option ℚ :=
  (wrapDownFloat32 fuel yawDiff).bind (wrapUpFloat32 fuel)

/-- The smooth turn of `Fish::update` and `Fish1::update` in binary32
arithmetic,
`float yawDiff = targetYaw - currentYaw; (normalise); currentYaw += yawDiff * turnSpeed * dt;`,
returning the new `currentYaw`; `none` when a loop has not exited within `fuel`
iterations. -/
def yawStepFloat32 (fuel : ℕ) (turnSpeed dt targetYaw currentYaw : ℚ) : Option ℚ :=
  (normalizeYawFloat32 fuel (roundFloat32 (targetYaw - currentYaw))).map fun yawDiff =>
    roundFloat32 (currentYaw + roundFloat32 (roundFloat32 (yawDiff * turnSpeed) * dt))

/-! ## Fish (`fish.h`, `fish.cpp`) -/

/-- The class `Fish`; mesh, texture and shader handles are left out. -/
structure Fish extends UnderwaterObject where
  velocity : Vec3 := ⟨0, 0, 0⟩
  swimDirection : Vec3 := ⟨0, 0, 1⟩
  swimSpeed : ℚ := 5
  turnSpeed : ℚ := 15 / 10
  timeSinceLastTurn : ℚ := 0
  timeUntilNextTurn : ℚ := 3
  targetYaw : ℚ := 0
  currentYaw : ℚ := 0
  schoolId : ℤ := 0
  schoolCenter : Vec3 := ⟨0, 0, 0⟩
  schoolRadius : ℚ := 15
  tailPhase : ℚ := 0
  tailSpeed : ℚ := 10
  tailAmplitude : ℚ := 2 / 10
  age : ℚ := 0
  lifetime : ℚ := -1

/-- The constructor `Fish()`. -/
def Fish.create (lib : CLib) (rng : Rng) : Fish × Rng :=
  let u1 := rng.randUnit lib
  let u2 := u1.2.randUnit lib
  let u3 := u2.2.randUnit lib
  ({ scale := ⟨5 / 10, 5 / 10, 5 / 10⟩,
     currentYaw := u1.1 * (628 / 100),
     targetYaw := u1.1 * (628 / 100),
     timeUntilNextTurn := 2 + u2.1 * 4,
     tailPhase := u3.1 * (628 / 100) }, u3.2)

/-- The method `Fish::setTarget`. -/
def Fish.setTarget (lib : CLib) (f : Fish) (target : Vec3) : Fish :=
  { f with targetYaw := lib.atan2 (target.x - f.position.x) (target.z - f.position.z) }

/-- The method `Fish::setSpeed`. -/
def Fish.setSpeed (f : Fish) (speed : ℚ) : Fish := { f with swimSpeed := speed }

/-- The method `Fish::setSchool`. -/
def Fish.setSchool (f : Fish) (id : ℤ) (center : Vec3) : Fish :=
  { f with schoolId := id, schoolCenter := center }

/-- The block `if (timeSinceLastTurn >= timeUntilNextTurn) { ... }` of
`Fish::update`: the choice of a new target direction. -/
def Fish.chooseTarget (lib : CLib) (rng : Rng) (f : Fish) : Fish × Rng :=
  if f.timeSinceLastTurn ≥ f.timeUntilNextTurn then
    let u1 := rng.randUnit lib
    let f := { f with timeSinceLastTurn := 0, timeUntilNextTurn := 3 + u1.1 * 4 }
    let toCenter := f.schoolCenter - f.position
    let distToCenter := length lib toCenter
    if distToCenter > f.schoolRadius then
      ({ f with targetYaw := lib.atan2 toCenter.x toCenter.z }, u1.2)
    else
      let u2 := u1.2.randUnit lib
      ({ f with targetYaw := f.currentYaw + (u2.1 - 5 / 10) * 2 }, u2.2)
  else (f, rng)

/-- The method `Fish::update`: the fish after the call, the returned flag and
the state of `rand()`.  `generateModelMatrix` is as for `Bubble.update`.  A
guarded assignment `if (c) field = v;` is written `field := if c then v else field`. -/
def Fish.update (lib : CLib) (generateModelMatrix : UnderwaterObject → Mat4) (rng : Rng)
    (f : Fish) (dt : ℚ) : Fish × Bool × Rng :=
  let f := { f with age := f.age + dt }
  if f.lifetime > 0 ∧ f.age > f.lifetime then (f, false, rng)
  else
    let f := { f with tailPhase := f.tailPhase + f.swimSpeed * dt * 2 }
    let f := { f with timeSinceLastTurn := f.timeSinceLastTurn + dt }
    let chosen := f.chooseTarget lib rng
    let f := chosen.1
    let f := { f with currentYaw := yawStep f.turnSpeed dt f.targetYaw f.currentYaw }
    let f := { f with swimDirection := ⟨lib.sin f.currentYaw, 0, lib.cos f.currentYaw⟩ }
    let f := { f with velocity := f.swimDirection * f.swimSpeed }
    let f := { f with position := f.position + f.velocity * dt }
    let targetY := f.schoolCenter.y + lib.sin (f.tailPhase * (3 / 10)) * 1
    let f := { f with position :=
      { f.position with y := f.position.y + (targetY - f.position.y) * dt * (5 / 10) } }
    let f := { f with position :=
      { f.position with y := if f.position.y < -8 then -8 else f.position.y } }
    let f := { f with position :=
      { f.position with y := if f.position.y > -2 then -2 else f.position.y } }
    let f := { f with rotation :=
      ⟨lib.sin (f.tailPhase * (5 / 10)) * (5 / 100), f.currentYaw,
       lib.sin f.tailPhase * (15 / 100)⟩ }
    let f := { f with modelMatrix := generateModelMatrix f.toUnderwaterObject }
    (f, true, chosen.2)

/-! ## Fish1 (`fish1.h`, `fish1.cpp`) -/

/-- The class `Fish1`; mesh, texture and shader handles are left out. -/
structure Fish1 extends UnderwaterObject where
  speed : ℚ := 3
  turnSpeed : ℚ := 1
  direction : Vec3 := ⟨0, 0, -1⟩
  swimPhase : ℚ := 0
  tailSwayAmount : ℚ := 15 / 100
  schoolId : ℤ := 0
  schoolCenter : Vec3 := ⟨0, 0, 0⟩
  schoolRadius : ℚ := 20
  turnTimer : ℚ := 0
  nextTurnTime : ℚ := 3
  targetYaw : ℚ := 0
  currentYaw : ℚ := 0

/-- The constructor `Fish1()`. -/
def Fish1.create (lib : CLib) (rng : Rng) : Fish1 × Rng :=
  let u1 := rng.randUnit lib
  let u2 := u1.2.randUnit lib
  let angle := u2.1 * (628 / 100)
  let u3 := u2.2.randUnit lib
  ({ scale := ⟨3 / 10, 3 / 10, 3 / 10⟩,
     swimPhase := u1.1 * (628 / 100),
     currentYaw := angle,
     targetYaw := angle,
     direction := ⟨lib.sin angle, 0, lib.cos angle⟩,
     nextTurnTime := 3 + u3.1 * 4 }, u3.2)

/-- The method `Fish1::setSpeed`. -/
def Fish1.setSpeed (f : Fish1) (s : ℚ) : Fish1 := { f with speed := s }

/-- The method `Fish1::setSchool`. -/
def Fish1.setSchool (f : Fish1) (id : ℤ) (center : Vec3) : Fish1 :=
  { f with schoolId := id, schoolCenter := center }

/-- The block `if (turnTimer >= nextTurnTime) { ... }` of `Fish1::update`. -/
def Fish1.chooseTarget (lib : CLib) (rng : Rng) (f : Fish1) : Fish1 × Rng :=
  if f.turnTimer ≥ f.nextTurnTime then
    let u1 := rng.randUnit lib
    let f := { f with turnTimer := 0, nextTurnTime := 3 + u1.1 * 4 }
    let toCenter := f.schoolCenter - f.position
    let distToCenter := length lib toCenter
    if distToCenter > f.schoolRadius then
      ({ f with targetYaw := lib.atan2 toCenter.x toCenter.z }, u1.2)
    else
      let u2 := u1.2.randUnit lib
      ({ f with targetYaw := f.currentYaw + (u2.1 - 5 / 10) * 2 }, u2.2)
  else (f, rng)

/-- The method `Fish1::update`: the fish after the call and the state of
`rand()`; the return value is `true` on every path. -/
def Fish1.update (lib : CLib) (generateModelMatrix : UnderwaterObject → Mat4) (rng : Rng)
    (f : Fish1) (dt : ℚ) : Fish1 × Rng :=
  let f := { f with swimPhase := f.swimPhase + f.speed * dt * 2 }
  let f := { f with turnTimer := f.turnTimer + dt }
  let chosen := f.chooseTarget lib rng
  let f := chosen.1
  let f := { f with currentYaw := yawStep f.turnSpeed dt f.targetYaw f.currentYaw }
  let f := { f with direction := ⟨lib.sin f.currentYaw, 0, lib.cos f.currentYaw⟩ }
  let f := { f with position := f.position + f.direction * f.speed * dt }
  let targetY := f.schoolCenter.y + lib.sin (f.swimPhase * (3 / 10)) * 1
  let f := { f with position :=
    { f.position with y := f.position.y + (targetY - f.position.y) * dt * (5 / 10) } }
  let f := { f with rotation :=
    ⟨lib.sin (f.swimPhase * (5 / 10)) * (5 / 100), -f.currentYaw,
     lib.sin f.swimPhase * f.tailSwayAmount⟩ }
  let f := { f with modelMatrix := generateModelMatrix f.toUnderwaterObject }
  (f, chosen.2)

/-! ## The remaining entity classes -/

/-- The function `glm::clamp(x, lo, hi)`: `min(max(x, lo), hi)`. -/
def glmClamp (x lo hi : ℚ) : ℚ := glmMin (if x < lo then lo else x) hi

/-- The class `FishFin` (`fish_fin.h`). -/
structure FishFin extends UnderwaterObject where
  flapPhase : ℚ := 0
  flapSpeed : ℚ := 8
  flapAmplitude : ℚ := 3 / 10
  localOffset : Vec3 := ⟨0, 1 / 10, 0⟩

/-- The constructor `FishFin()`. -/
def FishFin.create (lib : CLib) (rng : Rng) : FishFin × Rng :=
  let u1 := rng.randUnit lib
  ({ scale := ⟨15 / 100, 8 / 100, 15 / 100⟩, flapPhase := u1.1 * (628 / 100) }, u1.2)

/-- The method `FishFin::setFlapSpeed`. -/
def FishFin.setFlapSpeed (f : FishFin) (speed : ℚ) : FishFin := { f with flapSpeed := speed }

/-- The method `FishFin::setLocalOffset`. -/
def FishFin.setLocalOffset (f : FishFin) (offset : Vec3) : FishFin :=
  { f with localOffset := offset }

/-- The method `FishFin::update`; the return value is `true` on every path. -/
def FishFin.update (lib : CLib) (generateModelMatrix : UnderwaterObject → Mat4)
    (f : FishFin) (dt : ℚ) : FishFin :=
  let f := { f with flapPhase := f.flapPhase + f.flapSpeed * dt }
  let f := { f with rotation :=
    { f.rotation with
      z := lib.sin f.flapPhase * f.flapAmplitude,
      x := lib.cos (f.flapPhase * (5 / 10)) * f.flapAmplitude * (3 / 10) } }
  let f := { f with position := f.localOffset }
  { f with modelMatrix := generateModelMatrix f.toUnderwaterObject }

/-- The class `Jellyfish` (`jellyfish.h`). -/
structure Jellyfish extends UnderwaterObject where
  velocity : Vec3 := ⟨0, 0, 0⟩
  horizontalDrift : Vec3 := ⟨0, 0, 0⟩
  verticalVelocity : ℚ := 0
  pulsePhase : ℚ := 0
  pulseSpeed : ℚ := 25 / 10
  pulseAmplitude : ℚ := 35 / 100
  baseScale : Vec3 := ⟨1, 1, 1⟩
  propulsionStrength : ℚ := 4
  sinkRate : ℚ := 12 / 10
  dragFactor : ℚ := 92 / 100
  transparency : ℚ := 75 / 100
  minY : ℚ := -9
  maxY : ℚ := 8

/-- The constructor `Jellyfish()`. -/
def Jellyfish.create (lib : CLib) (rng : Rng) : Jellyfish × Rng :=
  let u1 := rng.randUnit lib
  let u2 := u1.2.randUnit lib
  let u3 := u2.2.randUnit lib
  let u4 := u3.2.randUnit lib
  ({ translucent := true,
     baseScale := ⟨15 / 10, 15 / 10, 15 / 10⟩,
     scale := ⟨15 / 10, 15 / 10, 15 / 10⟩,
     pulsePhase := u1.1 * (628 / 100),
     pulseSpeed := 12 / 10 + u2.1 * (6 / 10),
     horizontalDrift := ⟨(u3.1 - 5 / 10) * (3 / 10), 0, (u4.1 - 5 / 10) * (3 / 10)⟩ }, u4.2)

/-- The method `Jellyfish::setDriftDirection`. -/
def Jellyfish.setDriftDirection (j : Jellyfish) (dir : Vec3) : Jellyfish :=
  { j with horizontalDrift := (⟨dir.x, 0, dir.z⟩ : Vec3) * (3 / 10 : ℚ) }

/-- The method `Jellyfish::setTransparency`. -/
def Jellyfish.setTransparency (j : Jellyfish) (alpha : ℚ) : Jellyfish :=
  { j with transparency := alpha }

/-- The method `Jellyfish::update`; the return value is `true` on every path.
`abs` is the absolute value.  A guarded block `if (c) { a = v; b = w; }` is
written `a := if c then v else a, b := if c then w else b`, both conditions
taken on the state before the block. -/
def Jellyfish.update (lib : CLib) (generateModelMatrix : UnderwaterObject → Mat4)
    (j : Jellyfish) (dt : ℚ) : Jellyfish :=
  let j := { j with pulsePhase := j.pulsePhase + j.pulseSpeed * dt }
  let pulse := lib.sin j.pulsePhase
  let bellWidth := 1 + pulse * j.pulseAmplitude
  let bellHeight := 1 - pulse * j.pulseAmplitude * (6 / 10)
  let j := { j with scale :=
    ⟨j.baseScale.x * bellWidth, j.baseScale.y * bellHeight, j.baseScale.z * bellWidth⟩ }
  let pulseDerivative := lib.cos j.pulsePhase * j.pulseSpeed
  let j := { j with verticalVelocity :=
    if pulseDerivative < 0 then
      j.verticalVelocity + j.propulsionStrength * dt * (-pulseDerivative) * (5 / 10)
    else j.verticalVelocity }
  let j := { j with verticalVelocity := j.verticalVelocity - j.sinkRate * dt }
  let j := { j with verticalVelocity := j.verticalVelocity * j.dragFactor }
  let j := { j with verticalVelocity := glmClamp j.verticalVelocity (-2) 3 }
  let j := { j with position :=
    ⟨j.position.x + j.horizontalDrift.x * dt,
     j.position.y + j.verticalVelocity * dt,
     j.position.z + j.horizontalDrift.z * dt⟩ }
  let j := { j with position :=
    ⟨j.position.x + lib.sin (j.pulsePhase * (2 / 10)) * (1 / 100),
     j.position.y,
     j.position.z + lib.cos (j.pulsePhase * (25 / 100)) * (1 / 100)⟩ }
  let j := { j with
    position := { j.position with y := if j.position.y > j.maxY then j.maxY else j.position.y },
    verticalVelocity := if j.position.y > j.maxY then -(5 / 10) else j.verticalVelocity }
  let j := { j with
    position := { j.position with y := if j.position.y < j.minY then j.minY else j.position.y },
    verticalVelocity := if j.position.y < j.minY then 1 else j.verticalVelocity }
  let boundX : ℚ := 70
  let boundZ : ℚ := 70
  let j := { j with
    horizontalDrift :=
      { j.horizontalDrift with
        x := if |j.position.x| > boundX then -j.horizontalDrift.x else j.horizontalDrift.x },
    position :=
      { j.position with
        x := if |j.position.x| > boundX then glmClamp j.position.x (-boundX) boundX
             else j.position.x } }
  let j := { j with
    horizontalDrift :=
      { j.horizontalDrift with
        z := if |j.position.z| > boundZ then -j.horizontalDrift.z else j.horizontalDrift.z },
    position :=
      { j.position with
        z := if |j.position.z| > boundZ then glmClamp j.position.z (-boundZ) boundZ
             else j.position.z } }
  let j := { j with rotation :=
    ⟨15708 / 10000 + pulse * (1 / 10),
     lib.sin (j.pulsePhase * (1 / 10)) * (15 / 100),
     lib.sin (j.pulsePhase * (3 / 10)) * (8 / 100)⟩ }
  { j with modelMatrix := generateModelMatrix j.toUnderwaterObject }

/-- The class `Seaweed` (`seaweed.h`). -/
structure Seaweed extends UnderwaterObject where
  swayPhase : ℚ := 0
  swaySpeed : ℚ := 15 / 10
  swayAmplitude : ℚ := 2 / 10
  baseRotation : Vec3 := ⟨0, 0, 0⟩

/-- The constructor `Seaweed()`. -/
def Seaweed.create (lib : CLib) (rng : Rng) : Seaweed × Rng :=
  let u1 := rng.randUnit lib
  let u2 := u1.2.randUnit lib
  ({ scale := ⟨5 / 10, 5 / 10, 5 / 10⟩,
     swayPhase := u1.1 * (628 / 100),
     swaySpeed := 3 / 10 + u2.1 * (3 / 10),
     swayAmplitude := 5 / 100,
     baseRotation := ⟨0, 0, 0⟩ }, u2.2)

/-- The method `Seaweed::update`; the return value is `true` on every path. -/
def Seaweed.update (lib : CLib) (generateModelMatrix : UnderwaterObject → Mat4)
    (w : Seaweed) (dt : ℚ) : Seaweed :=
  let w := { w with swayPhase := w.swayPhase + w.swaySpeed * dt }
  let w := { w with rotation :=
    { w.rotation with
      x := lib.sin w.swayPhase * w.swayAmplitude,
      z := lib.sin (w.swayPhase * (7 / 10) + 1) * w.swayAmplitude * (5 / 10) } }
  { w with modelMatrix := generateModelMatrix w.toUnderwaterObject }

/-- The class `SeaweedInstanced` (`seaweed_instanced.h`); the four vectors are
lists of length `instanceCount`, and the buffer handle is left out. -/
structure SeaweedInstanced extends UnderwaterObject where
  instanceMatrices : List Mat4 := []
  instancePositions : List Vec3 := []
  swayPhases : List ℚ := []
  swaySpeeds : List ℚ := []
  instanceCount : ℕ := 0
  globalTime : ℚ := 0
  swayAmplitude : ℚ := 8 / 100

/-- The body of the loop of `SeaweedInstanced::updateInstanceMatrices` for
index `i`. -/
def SeaweedInstanced.instanceMatrix (lib : CLib) (w : SeaweedInstanced) (i : ℕ) : Mat4 :=
  let model : Mat4 := 1
  let model := model * translate (w.instancePositions.getD i default)
  let heightScale : ℚ := 8 / 100 + (((i * 17) % 100 : ℕ) : ℚ) / 100 * (12 / 100)
  let model := model * scaleMatrix ⟨heightScale * (6 / 10), heightScale, heightScale * (6 / 10)⟩
  let swayX := lib.sin (w.swayPhases.getD i 0) * w.swayAmplitude
  let swayZ := lib.sin (w.swayPhases.getD i 0 * (7 / 10) + 1) * w.swayAmplitude * (5 / 10)
  let model := model * rotateX lib swayX
  let model := model * rotateZ lib swayZ
  let yRot : ℚ := (((i * 31) % 628 : ℕ) : ℚ) / 100
  model * rotateY lib yRot

/-- The method `SeaweedInstanced::updateInstanceMatrices`; the upload to the
GPU buffer is left out. -/
def SeaweedInstanced.updateInstanceMatrices (lib : CLib) (w : SeaweedInstanced) :
    SeaweedInstanced :=
  { w with instanceMatrices := (List.range w.instanceCount).map (w.instanceMatrix lib) }

/-- The loop of the constructor `SeaweedInstanced(count)` with `n` instances
left: positions, phases and speeds drawn in turn. -/
def SeaweedInstanced.drawInstances (lib : CLib) :
    ℕ → Rng → (List Vec3 × List ℚ × List ℚ) × Rng
  | 0, rng => (([], [], []), rng)
  | n + 1, rng =>
    let u1 := rng.randUnit lib
    let x := (u1.1 - 5 / 10) * 400
    let u2 := u1.2.randUnit lib
    let z := (u2.1 - 5 / 10) * 400
    let u3 := u2.2.randUnit lib
    let u4 := u3.2.randUnit lib
    let more := SeaweedInstanced.drawInstances lib n u4.2
    (((⟨x, -15, z⟩ : Vec3) :: more.1.1, (u3.1 * (628 / 100)) :: more.1.2.1,
      (3 / 10 + u4.1 * (4 / 10)) :: more.1.2.2), more.2)

/-- The constructor `SeaweedInstanced(count)`. -/
def SeaweedInstanced.create (lib : CLib) (count : ℕ) (rng : Rng) : SeaweedInstanced × Rng :=
  let drawn := SeaweedInstanced.drawInstances lib count rng
  (SeaweedInstanced.updateInstanceMatrices lib
    { instanceCount := count,
      instancePositions := drawn.1.1,
      swayPhases := drawn.1.2.1,
      swaySpeeds := drawn.1.2.2 }, drawn.2)

/-- The method `SeaweedInstanced::update`; the return value is `true` on every
path. -/
def SeaweedInstanced.update (lib : CLib) (w : SeaweedInstanced) (dt : ℚ) : SeaweedInstanced :=
  let w := { w with globalTime := w.globalTime + dt }
  let w := { w with swayPhases :=
    (List.zipWith (fun phase speed => phase + speed * dt) w.swayPhases w.swaySpeeds) }
  w.updateInstanceMatrices lib

/-- The class `Rock` (`rock.h`). -/
structure Rock extends UnderwaterObject

/-- The constructor `Rock()`; `glm::pi<float>()` is written as a decimal. -/
def Rock.create (lib : CLib) (rng : Rng) : Rock × Rng :=
  let u1 := rng.randUnit lib
  let s := 3 / 10 + u1.1 * (4 / 10)
  let u2 := u1.2.randUnit lib
  ({ scale := ⟨s, s * (8 / 10), s⟩,
     rotation := ⟨0, u2.1 * (314159265358979323846 / 10 ^ 20) * 2, 0⟩ }, u2.2)

/-- The method `Rock::update`; the return value is `true` on every path. -/
def Rock.update (generateModelMatrix : UnderwaterObject → Mat4) (r : Rock) : Rock :=
  { r with modelMatrix := generateModelMatrix r.toUnderwaterObject }

/-- The class `Ground` (`ground.h`). -/
structure Ground extends UnderwaterObject

/-- The constructor `Ground()`. -/
def Ground.create : Ground := { position := ⟨0, -15, 0⟩, scale := ⟨5, 1, 5⟩ }

/-- The method `Ground::update`; the return value is `true` on every path. -/
def Ground.update (generateModelMatrix : UnderwaterObject → Mat4) (g : Ground) : Ground :=
  { g with modelMatrix := generateModelMatrix g.toUnderwaterObject }

/-- The class `Skybox` (`skybox.h`); the vertex array handles are left out. -/
structure Skybox extends UnderwaterObject

/-- The constructor `Skybox()`. -/
def Skybox.create : Skybox := {}

/-- The method `Skybox::update`: nothing changes; the return value is `true`. -/
def Skybox.update (k : Skybox) : Skybox := k

/-- The class `WaterSurface` (`water_surface.h`). -/
structure WaterSurface extends UnderwaterObject where
  waveHeight : ℚ := 3 / 10
  waveFrequency : ℚ := 15 / 100
  sunDirection : Vec3 := ⟨5 / 10, 8 / 10, 3 / 10⟩
  sunColor : Vec3 := ⟨1, 95 / 100, 8 / 10⟩
  waterColor : Vec3 := ⟨0, 4 / 10, 6 / 10⟩

/-- The constructor `WaterSurface()`. -/
def WaterSurface.create : WaterSurface :=
  { translucent := true, scale := ⟨500, 1, 500⟩, position := ⟨0, 0, 0⟩ }

/-- The method `WaterSurface::setWaveParams`. -/
def WaterSurface.setWaveParams (w : WaterSurface) (height frequency : ℚ) : WaterSurface :=
  { w with waveHeight := height, waveFrequency := frequency }

/-- The method `WaterSurface::setSunDirection`. -/
def WaterSurface.setSunDirection (lib : CLib) (w : WaterSurface) (dir : Vec3) : WaterSurface :=
  { w with sunDirection := normalize lib dir }

/-- The method `WaterSurface::setSunColor`. -/
def WaterSurface.setSunColor (w : WaterSurface) (color : Vec3) : WaterSurface :=
  { w with sunColor := color }

/-- The method `WaterSurface::update`, reading the camera of the scene; the
return value is `true` on every path. -/
def WaterSurface.update (generateModelMatrix : UnderwaterObject → Mat4)
    (camera : UnderwaterCamera) (w : WaterSurface) : WaterSurface :=
  let w := { w with position := { w.position with x := camera.position.x } }
  let w := { w with position := { w.position with z := camera.position.z } }
  { w with modelMatrix := generateModelMatrix w.toUnderwaterObject }

/-! ## Rendering state (`render` of every class) -/

/-- The capabilities the code toggles with `glEnable` and `glDisable`. -/
inductive GLCap where
  | GL_CULL_FACE
  | GL_BLEND
  | GL_DEPTH_TEST
  deriving DecidableEq

/-- The depth functions the code sets. -/
inductive GLDepthFunc where
  | GL_LESS
  | GL_LEQUAL
  deriving DecidableEq

/-- The blend factors the code sets. -/
inductive GLBlendFactor where
  | GL_ONE
  | GL_ZERO
  | GL_SRC_ALPHA
  | GL_ONE_MINUS_SRC_ALPHA
  deriving DecidableEq

/-- The part of the global OpenGL state that the `render` methods set. -/
structure GLState where
  cullFace : Bool
  blend : Bool
  depthTest : Bool
  depthFunc : GLDepthFunc
  blendSrc : GLBlendFactor
  blendDst : GLBlendFactor

/-- The call `glEnable(cap)`. -/
def glEnable (cap : GLCap) (g : GLState) : GLState :=
  match cap with
  | .GL_CULL_FACE => { g with cullFace := true }
  | .GL_BLEND => { g with blend := true }
  | .GL_DEPTH_TEST => { g with depthTest := true }

/-- The call `glDisable(cap)`. -/
def glDisable (cap : GLCap) (g : GLState) : GLState :=
  match cap with
  | .GL_CULL_FACE => { g with cullFace := false }
  | .GL_BLEND => { g with blend := false }
  | .GL_DEPTH_TEST => { g with depthTest := false }

/-- The call `glBlendFunc(src, dst)`. -/
def glBlendFunc (src dst : GLBlendFactor) (g : GLState) : GLState :=
  { g with blendSrc := src, blendDst := dst }

/-- The call `glDepthFunc(f)`. -/
def glDepthFunc (f : GLDepthFunc) (g : GLState) : GLState := { g with depthFunc := f }

/-- The state the constructor of `UnderwaterWindow` sets up. -/
def windowGLState : GLState :=
  { cullFace := true, blend := true, depthTest := true, depthFunc := .GL_LEQUAL,
    blendSrc := .GL_SRC_ALPHA, blendDst := .GL_ONE_MINUS_SRC_ALPHA }

/-- The method `Skybox::render`.  In every `render`, `draw` stands for the
drawing work between the state changes: `shader->use()`, the `setUniform` calls
and `mesh->render()` of the ppgso library, or the vertex-array calls. -/
def Skybox.render (draw : GLState → GLState) (g : GLState) : GLState :=
  let g := glDepthFunc .GL_LEQUAL g
  let g := glDisable .GL_CULL_FACE g
  let g := draw g
  let g := glDepthFunc .GL_LESS g
  glEnable .GL_CULL_FACE g

/-- The method `Ground::render`. -/
def Ground.render (draw : GLState → GLState) (g : GLState) : GLState :=
  let g := glDisable .GL_CULL_FACE g
  let g := draw g
  glEnable .GL_CULL_FACE g

/-- The method `WaterSurface::render`. -/
def WaterSurface.render (draw : GLState → GLState) (g : GLState) : GLState :=
  let g := glEnable .GL_BLEND g
  let g := glBlendFunc .GL_SRC_ALPHA .GL_ONE_MINUS_SRC_ALPHA g
  let g := draw g
  glDisable .GL_BLEND g

/-- The method `Fish::render`. -/
def Fish.render (draw : GLState → GLState) (g : GLState) : GLState := draw g

/-- The method `Fish1::render`. -/
def Fish1.render (draw : GLState → GLState) (g : GLState) : GLState := draw g

/-- The method `FishFin::render`. -/
def FishFin.render (draw : GLState → GLState) (g : GLState) : GLState := draw g

/-- The method `Seaweed::render`. -/
def Seaweed.render (draw : GLState → GLState) (g : GLState) : GLState :=
  let g := glDisable .GL_CULL_FACE g
  let g := draw g
  glEnable .GL_CULL_FACE g

/-- The method `SeaweedInstanced::render`: the common uniforms, then one
`setUniform` and `mesh->render()` per instance. -/
def SeaweedInstanced.render (draw : GLState → GLState) (w : SeaweedInstanced) (g : GLState) :
    GLState :=
  let g := glDisable .GL_CULL_FACE g
  let g := draw g
  let g := (List.range w.instanceCount).foldl (fun g _ => draw g) g
  glEnable .GL_CULL_FACE g

/-- The method `Rock::render`. -/
def Rock.render (draw : GLState → GLState) (g : GLState) : GLState := draw g

/-- The method `Jellyfish::render`. -/
def Jellyfish.render (draw : GLState → GLState) (g : GLState) : GLState :=
  let g := glEnable .GL_BLEND g
  let g := glBlendFunc .GL_SRC_ALPHA .GL_ONE_MINUS_SRC_ALPHA g
  let g := glDisable .GL_CULL_FACE g
  let g := draw g
  let g := glEnable .GL_CULL_FACE g
  glDisable .GL_BLEND g

/-- The method `Bubble::render`. -/
def Bubble.render (draw : GLState → GLState) (g : GLState) : GLState :=
  let g := glEnable .GL_BLEND g
  let g := glBlendFunc .GL_SRC_ALPHA .GL_ONE_MINUS_SRC_ALPHA g
  let g := draw g
  glDisable .GL_BLEND g

/-- The method `BubbleGenerator::render`: the generator draws nothing. -/
def BubbleGenerator.render (g : GLState) : GLState := g

/-! ## The objects of the scene -/

/-- An object of the scene: one of the twelve classes derived from
`UnderwaterObject`. -/
inductive SceneObject where
  | skybox (k : Skybox)
  | ground (g : Ground)
  | waterSurface (w : WaterSurface)
  | fish (f : Fish)
  | fish1 (f : Fish1)
  | fishFin (f : FishFin)
  | seaweed (w : Seaweed)
  | seaweedInstanced (w : SeaweedInstanced)
  | rock (r : Rock)
  | jellyfish (j : Jellyfish)
  | bubble (b : Bubble)
  | bubbleGenerator (g : BubbleGenerator)

/-- The base-class part of an object. -/
def SceneObject.base : SceneObject → UnderwaterObject
  | .skybox k => k.toUnderwaterObject
  | .ground g => g.toUnderwaterObject
  | .waterSurface w => w.toUnderwaterObject
  | .fish f => f.toUnderwaterObject
  | .fish1 f => f.toUnderwaterObject
  | .fishFin f => f.toUnderwaterObject
  | .seaweed w => w.toUnderwaterObject
  | .seaweedInstanced w => w.toUnderwaterObject
  | .rock r => r.toUnderwaterObject
  | .jellyfish j => j.toUnderwaterObject
  | .bubble b => b.toUnderwaterObject
  | .bubbleGenerator g => g.toUnderwaterObject

/-- The read `parent->modelMatrix` in a scene holding `objs`: the matrix of the
object at the address the pointer holds; `none` for `nullptr` and for a pointer
to an object that is no longer in the scene. -/
def resolveParent (objs : List SceneObject) (parent : Option ℕ) : Option Mat4 :=
  match parent with
  | none => none
  | some a => (objs.find? (fun o => decide (o.base.addr = a))).map (fun o => o.base.modelMatrix)

/-- The call `generateModelMatrix()` of an object in the scene `sc`. -/
def sceneModelMatrix (lib : CLib) (sc : UnderwaterScene SceneObject) (o : UnderwaterObject) :
    Mat4 :=
  generateModelMatrix lib (resolveParent sc.objects o.parent) o

/-- The virtual dispatch of `update(scene, dt)` over the twelve classes. -/
def SceneObject.update (lib : CLib) (rng : Rng) (sc : UnderwaterScene SceneObject) (dt : ℚ) :
    SceneObject → UpdateResult SceneObject
  | .skybox k => { self := .skybox k.update, keep := true, spawned := [], rng := rng }
  | .ground g =>
    { self := .ground (g.update (sceneModelMatrix lib sc)), keep := true, spawned := [],
      rng := rng }
  | .waterSurface w =>
    { self := .waterSurface (w.update (sceneModelMatrix lib sc) sc.camera), keep := true,
      spawned := [], rng := rng }
  | .fish f =>
    let r := f.update lib (sceneModelMatrix lib sc) rng dt
    { self := .fish r.1, keep := r.2.1, spawned := [], rng := r.2.2 }
  | .fish1 f =>
    let r := f.update lib (sceneModelMatrix lib sc) rng dt
    { self := .fish1 r.1, keep := true, spawned := [], rng := r.2 }
  | .fishFin f =>
    { self := .fishFin (f.update lib (sceneModelMatrix lib sc) dt), keep := true,
      spawned := [], rng := rng }
  | .seaweed w =>
    { self := .seaweed (w.update lib (sceneModelMatrix lib sc) dt), keep := true,
      spawned := [], rng := rng }
  | .seaweedInstanced w =>
    { self := .seaweedInstanced (w.update lib dt), keep := true, spawned := [], rng := rng }
  | .rock r =>
    { self := .rock (r.update (sceneModelMatrix lib sc)), keep := true, spawned := [],
      rng := rng }
  | .jellyfish j =>
    { self := .jellyfish (j.update lib (sceneModelMatrix lib sc) dt), keep := true,
      spawned := [], rng := rng }
  | .bubble b =>
    let r := b.update lib (sceneModelMatrix lib sc) dt
    { self := .bubble r.1, keep := r.2, spawned := [], rng := rng }
  | .bubbleGenerator g =>
    let r := g.update lib rng dt
    { self := .bubbleGenerator r.1, keep := true, spawned := r.2.1.map .bubble, rng := r.2.2 }

/-- The virtual interface of `UnderwaterObject` over the twelve classes; no
class overrides `isTranslucent`. -/
def sceneClass (lib : CLib) : ObjectClass SceneObject where
  base := SceneObject.base
  isTranslucent := fun o => o.base.translucent
  update := SceneObject.update lib

/-- The virtual dispatch of `render(scene)` over the twelve classes, as a change
of the OpenGL state. -/
def SceneObject.render (draw : GLState → GLState) : SceneObject → GLState → GLState
  | .skybox _ => Skybox.render draw
  | .ground _ => Ground.render draw
  | .waterSurface _ => WaterSurface.render draw
  | .fish _ => Fish.render draw
  | .fish1 _ => Fish1.render draw
  | .fishFin _ => FishFin.render draw
  | .seaweed _ => Seaweed.render draw
  | .seaweedInstanced w => w.render draw
  | .rock _ => Rock.render draw
  | .jellyfish _ => Jellyfish.render draw
  | .bubble _ => Bubble.render draw
  | .bubbleGenerator _ => BubbleGenerator.render

/-! ## Sample values for the entity classes -/

/-- A jellyfish at the origin with pulse phase 0 and vertical velocity 1, for
examples. -/
def pausedJellyfish : Jellyfish := { pulsePhase := 0, verticalVelocity := 1 }

/-- A scene holding the jellyfish `pausedJellyfish` only. -/
def jellyScene : UnderwaterScene SceneObject :=
  { camera := sampleCamera, objects := [.jellyfish pausedJellyfish] }

/-- A bubble generator set to 5001 bubbles per spawn. -/
def largeBatchGenerator : BubbleGenerator := BubbleGenerator.create.setBubblesPerSpawn 5001

/-- The state culling enabled, blending disabled that opaque objects expect. -/
def opaqueGLState : GLState := { windowGLState with blend := false }

/-- A C library for examples whose `atan2` matches its `sin` and `cos` on the
unit circle wherever the square root is exact: the angle parameter is twice the
tangent of the half angle, `2 * y / (sqrt (x² + y²) + x)`. -/
def headingLib : CLib :=
  { circleLib with atan2 := fun y x => 2 * (y / (sampleSqrt (x * x + y * y) + x)) }

/-- A fish at the origin whose school centre is `(30, 0, 40)`, at distance 50,
beyond the school radius 15, and whose turn timer has run out. -/
def homingFish : Fish :=
  { schoolCenter := ⟨30, 0, 40⟩, timeSinceLastTurn := 3, timeUntilNextTurn := 3 }

/-- A matrix whose last row is `(0, 0, 0, 1)`. -/
def IsAffine (m : Mat4) : Prop := m 3 0 = 0 ∧ m 3 1 = 0 ∧ m 3 2 = 0 ∧ m 3 3 = 1

/-- A fish at address 1, for examples. -/
def finFish : Fish := { (Fish.create sampleLib sampleRng).1 with addr := 1 }

/-- A fin whose parent pointer holds the address of `finFish`. -/
def finFin : FishFin := { (FishFin.create sampleLib sampleRng).1 with parent := some 1 }

/-- A two-level hierarchy for examples: the fish `finFish` followed by its fin
`finFin`. -/
def finScene : UnderwaterScene SceneObject :=
  { camera := sampleCamera, objects := [.fish finFish, .fishFin finFin] }

/-! ## Scene setup (`UnderwaterWindow::initScene`, `underwater_main.cpp`) -/

/-- The expression
`glm::vec3((rand()/RAND_MAX - 0.5f) * a, (rand()/RAND_MAX - 0.5f) * b, (rand()/RAND_MAX - 0.5f) * c)`
of `initScene`, the three `rand()` calls taken in the order written. -/
def randomOffset (lib : CLib) (rng : Rng) (a b c : ℚ) : Vec3 × Rng :=
  let u1 := rng.randUnit lib
  let u2 := u1.2.randUnit lib
  let u3 := u2.2.randUnit lib
  (⟨(u1.1 - 5 / 10) * a, (u2.1 - 5 / 10) * b, (u3.1 - 5 / 10) * c⟩, u3.2)

/-- A loop `for (int i = 0; i < n; i++) { ... }` of `initScene` with `n`
iterations left at index `i`: the objects its body pushes to `scene.objects`,
in order. -/
def pushLoop (body : ℕ → Rng → List SceneObject × Rng) : ℕ → ℕ → Rng → List SceneObject × Rng
  | 0, _, rng => ([], rng)
  | n + 1, i, rng =>
    let one := body i rng
    let more := pushLoop body n (i + 1) one.2
    (one.1 ++ more.1, more.2)

/-- The camera of `initScene`: the constructor with aspect ratio `1280 / 720`
and the 22 keyframes. -/
def initCamera (lib : CLib) : UnderwaterCamera :=
  ([⟨0, ⟨0, 60, 0⟩, ⟨0, 100, -50⟩⟩, ⟨4, ⟨0, 60, 0⟩, ⟨50, 90, -30⟩⟩,
    ⟨8, ⟨0, 60, 0⟩, ⟨-50, 80, -40⟩⟩, ⟨12, ⟨0, 60, 0⟩, ⟨0, 70, -60⟩⟩,
    ⟨16, ⟨0, 50, 0⟩, ⟨0, 30, -80⟩⟩, ⟨20, ⟨0, 35, 0⟩, ⟨0, -15, -100⟩⟩,
    ⟨25, ⟨0, 15, 0⟩, ⟨0, -50, -80⟩⟩, ⟨30, ⟨0, 5, 0⟩, ⟨0, -30, -60⟩⟩,
    ⟨35, ⟨0, -5, 0⟩, ⟨0, -20, -40⟩⟩, ⟨40, ⟨0, -8, 10⟩, ⟨0, -15, -30⟩⟩,
    ⟨45, ⟨0, -10, 20⟩, ⟨0, -14, -20⟩⟩, ⟨50, ⟨0, -11, 30⟩, ⟨0, -13, 0⟩⟩,
    ⟨58, ⟨30, -10, 0⟩, ⟨0, -12, 0⟩⟩, ⟨66, ⟨25, -9, -25⟩, ⟨-10, -12, 0⟩⟩,
    ⟨74, ⟨0, -10, -35⟩, ⟨0, -12, 15⟩⟩, ⟨82, ⟨-25, -9, -25⟩, ⟨10, -12, 0⟩⟩,
    ⟨90, ⟨-30, -10, 0⟩, ⟨0, -12, 0⟩⟩, ⟨98, ⟨-20, -9, 25⟩, ⟨10, -12, 0⟩⟩,
    ⟨105, ⟨0, -8, 30⟩, ⟨0, -10, 0⟩⟩, ⟨112, ⟨0, 0, 20⟩, ⟨0, 5, -30⟩⟩,
    ⟨120, ⟨0, 30, 10⟩, ⟨0, 50, -50⟩⟩, ⟨130, ⟨0, 60, 0⟩, ⟨0, 100, -50⟩⟩] : List Keyframe).foldl
    (fun c k => c.addKeyframe k.time k.position k.target)
    (UnderwaterCamera.create lib 60 (1280 / 720) (1 / 10) 500)

/-- The body of the loop over school 1: a fish, pushed, and after it its left
and right fin with `parent = fishPtr`.  The address `fish.get()` of the fish of
iteration `i` is written `i + 1`. -/
def school1Body (lib : CLib) (i : ℕ) (rng : Rng) : List SceneObject × Rng :=
  let made := Fish.create lib rng
  let off := randomOffset lib made.2 10 3 10
  let u1 := off.2.randUnit lib
  let u2 := u1.2.randUnit lib
  let fish : Fish :=
    { made.1 with position := (⟨0, -10, 0⟩ : Vec3) + off.1,
                  scale := Vec3.splat (4 / 10 + u1.1 * (2 / 10)),
                  addr := i + 1 }
  let fish := (fish.setSpeed (6 + u2.1 * 2)).setSchool 1 ⟨0, -10, 0⟩
  let madeL := FishFin.create lib u2.2
  let u3 := madeL.2.randUnit lib
  let leftFin : FishFin := { madeL.1 with parent := some (i + 1) }
  let leftFin := (leftFin.setLocalOffset ⟨-(3 / 10), 15 / 100, 0⟩).setFlapSpeed (10 + u3.1 * 4)
  let madeR := FishFin.create lib u3.2
  let u4 := madeR.2.randUnit lib
  let rightFin : FishFin := { madeR.1 with parent := some (i + 1) }
  let rightFin := (rightFin.setLocalOffset ⟨3 / 10, 15 / 100, 0⟩).setFlapSpeed (10 + u4.1 * 4)
  ([.fish fish, .fishFin leftFin, .fishFin rightFin], u4.2)

/-- The body of the loops over schools 2 and 3: a fish around `center` with
spreads `a b c`, scale `s0 + u * ds` and speed `v0 + u * dv`. -/
def fishBody (lib : CLib) (id : ℤ) (center : Vec3) (a b c s0 ds v0 dv : ℚ) (_ : ℕ) (rng : Rng) :
    List SceneObject × Rng :=
  let made := Fish.create lib rng
  let off := randomOffset lib made.2 a b c
  let u1 := off.2.randUnit lib
  let u2 := u1.2.randUnit lib
  let fish : Fish :=
    { made.1 with position := center + off.1, scale := Vec3.splat (s0 + u1.1 * ds) }
  ([.fish ((fish.setSpeed (v0 + u2.1 * dv)).setSchool id center)], u2.2)

/-- The body of the loops over the two `Fish1` schools. -/
def fish1Body (lib : CLib) (id : ℤ) (center : Vec3) (a b c s0 ds v0 dv : ℚ) (_ : ℕ) (rng : Rng) :
    List SceneObject × Rng :=
  let made := Fish1.create lib rng
  let off := randomOffset lib made.2 a b c
  let u1 := off.2.randUnit lib
  let u2 := u1.2.randUnit lib
  let fish : Fish1 :=
    { made.1 with position := center + off.1, scale := Vec3.splat (s0 + u1.1 * ds) }
  ([.fish1 ((fish.setSpeed (v0 + u2.1 * dv)).setSchool id center)], u2.2)

/-- The body of the loop over the 50 single seaweed plants. -/
def seaweedBody (lib : CLib) (_ : ℕ) (rng : Rng) : List SceneObject × Rng :=
  let made := Seaweed.create lib rng
  let u1 := made.2.randUnit lib
  let x := (u1.1 - 5 / 10) * 60
  let u2 := u1.2.randUnit lib
  let z := (u2.1 - 5 / 10) * 60
  let u3 := u2.2.randUnit lib
  let heightScale := 12 / 100 + u3.1 * (18 / 100)
  let weed : Seaweed :=
    { made.1 with position := ⟨x, -15, z⟩,
                  scale := ⟨heightScale * (7 / 10), heightScale, heightScale * (7 / 10)⟩ }
  ([.seaweed weed], u3.2)

/-- The body of the loops over the scattered rocks and rock cluster 3:
`x = x0 + (u - 0.5) * dx`, `z = z0 + (u - 0.5) * dz`, `s = s0 + u * ds`,
scale `(s, s * k, s)` and height `-14.5 + s * 0.3`. -/
def scaledRockBody (lib : CLib) (x0 dx z0 dz s0 ds k : ℚ) (_ : ℕ) (rng : Rng) :
    List SceneObject × Rng :=
  let made := Rock.create lib rng
  let u1 := made.2.randUnit lib
  let x := x0 + (u1.1 - 5 / 10) * dx
  let u2 := u1.2.randUnit lib
  let z := z0 + (u2.1 - 5 / 10) * dz
  let u3 := u2.2.randUnit lib
  let s := s0 + u3.1 * ds
  let rock : Rock :=
    { made.1 with scale := ⟨s, s * k, s⟩, position := ⟨x, -(145 / 10) + s * (3 / 10), z⟩ }
  ([.rock rock], u3.2)

/-- The body of the loops over rock clusters 1 and 2: position
`(x0 + (u - 0.5) * d, -14.6, z0 + (u - 0.5) * d)`. -/
def clusterRockBody (lib : CLib) (x0 z0 d : ℚ) (_ : ℕ) (rng : Rng) : List SceneObject × Rng :=
  let made := Rock.create lib rng
  let u1 := made.2.randUnit lib
  let x := x0 + (u1.1 - 5 / 10) * d
  let u2 := u1.2.randUnit lib
  let z := z0 + (u2.1 - 5 / 10) * d
  let rock : Rock := { made.1 with position := ⟨x, -(146 / 10), z⟩ }
  ([.rock rock], u2.2)

/-- The body of the loops over the three jellyfish groups. -/
def jellyfishBody (lib : CLib) (center : Vec3) (a b c s0 ds alpha : ℚ) (_ : ℕ) (rng : Rng) :
    List SceneObject × Rng :=
  let made := Jellyfish.create lib rng
  let off := randomOffset lib made.2 a b c
  let u1 := off.2.randUnit lib
  let sizeVar := s0 + u1.1 * ds
  let jelly : Jellyfish :=
    { made.1 with position := center + off.1, scale := Vec3.splat sizeVar }
  ([.jellyfish (jelly.setTransparency alpha)], u1.2)

/-- The objects `initScene` pushes to `scene.objects`, in order, and the state of
`rand()` afterwards. -/
def initObjects (lib : CLib) (rng : Rng) : List SceneObject × Rng :=
  let waterSurface :=
    ((WaterSurface.create.setWaveParams (5 / 10) (8 / 100)).setSunDirection lib
      ⟨3 / 10, 9 / 10, 2 / 10⟩).setSunColor ⟨1, 95 / 100, 85 / 100⟩
  let school1 := pushLoop (school1Body lib) 8 0 rng
  let school2 :=
    pushLoop (fishBody lib 2 ⟨-30, -9, -20⟩ 8 2 8 (5 / 10) (3 / 10) 5 3) 6 0 school1.2
  let school3 :=
    pushLoop (fishBody lib 3 ⟨25, -11, 15⟩ 12 2 12 (6 / 10) (2 / 10) 7 2) 7 0 school2.2
  let school4 :=
    pushLoop (fish1Body lib 4 ⟨10, -10, -40⟩ 12 4 12 (5 / 10) (3 / 10) 5 2) 6 0 school3.2
  let school5 :=
    pushLoop (fish1Body lib 5 ⟨-20, -9, -15⟩ 10 3 10 (6 / 10) (2 / 10) (45 / 10) (25 / 10)) 5 0
      school4.2
  let instanced := SeaweedInstanced.create lib 5000 school5.2
  let weeds := pushLoop (seaweedBody lib) 50 0 instanced.2
  let rocks := pushLoop (scaledRockBody lib 0 200 0 200 (4 / 10) (6 / 10) (7 / 10)) 20 0 weeds.2
  let cluster1 := pushLoop (clusterRockBody lib 15 20 15) 8 0 rocks.2
  let cluster2 := pushLoop (clusterRockBody lib (-35) (-10) 12) 6 0 cluster1.2
  let cluster3 :=
    pushLoop (scaledRockBody lib 0 60 (-50) 20 (5 / 10) (5 / 10) (6 / 10)) 10 0 cluster2.2
  let group1 := pushLoop (jellyfishBody lib ⟨-25, -7, -60⟩ 12 4 12 (9 / 10) (4 / 10) (7 / 10)) 4 0
    cluster3.2
  let group2 := pushLoop (jellyfishBody lib ⟨5, -6, -70⟩ 18 5 15 1 (6 / 10) (65 / 100)) 5 0
    group1.2
  let group3 := pushLoop (jellyfishBody lib ⟨30, -8, -55⟩ 10 4 10 (8 / 10) (5 / 10) (75 / 100)) 4 0
    group2.2
  let bubbleGen :=
    ((BubbleGenerator.create.setSpawnRate (15 / 1000)).setBubblesPerSpawn 3).setSpawnRadius 50
  ([.skybox Skybox.create, .ground Ground.create, .waterSurface waterSurface] ++
    (school1.1 ++ (school2.1 ++ (school3.1 ++ (school4.1 ++ (school5.1 ++
    ([.seaweedInstanced instanced.1] ++ (weeds.1 ++ (rocks.1 ++ (cluster1.1 ++ (cluster2.1 ++
    (cluster3.1 ++ (group1.1 ++ (group2.1 ++ (group3.1 ++
    [.bubbleGenerator bubbleGen])))))))))))))), group3.2)

/-- The method `UnderwaterWindow::initScene` on the scene `scene`: the camera
and the collection are replaced. -/
def initScene (lib : CLib) (rng : Rng) (scene : UnderwaterScene SceneObject) :
    UnderwaterScene SceneObject × Rng :=
  ({ scene with camera := initCamera lib, objects := (initObjects lib rng).1 },
    (initObjects lib rng).2)

/-- The scene states the program reaches: the one `initScene` builds, and the
one a finished `UnderwaterScene::update` leaves from a reachable one. -/
inductive Reachable (lib : CLib) : UnderwaterScene SceneObject → Prop
  | init (rng : Rng) (scene : UnderwaterScene SceneObject) :
    Reachable lib (initScene lib rng scene).1
  | update (s out : UnderwaterScene SceneObject) (fuel : ℕ) (rng rng2 : Rng) (dt : ℚ)
      (log : List (UpdateCall SceneObject)) :
    Reachable lib s → s.update (sceneClass lib) lib fuel rng dt = some (out, rng2, log) →
    Reachable lib out

/-- An object whose `update` returns `true` on every path: an object of any
class but `Bubble`, a `Fish` only without a positive lifetime. -/
def SceneObject.permanent : SceneObject → Bool
  | .fish f => decide (f.lifetime ≤ 0)
  | .bubble _ => false
  | _ => true

/-- Every parent pointer of the list holds an address in `seen` or the address,
not 0, of a permanent object earlier in the list. -/
def ParentsSeen : List ℕ → List SceneObject → Prop
  | _, [] => True
  | seen, o :: rest =>
    (∀ a, o.base.parent = some a → a ∈ seen) ∧
    ParentsSeen (if o.permanent = true ∧ o.base.addr ≠ 0 then o.base.addr :: seen else seen) rest

/-- Every object with a parent pointer comes later in the list than an object
at the address the pointer holds. -/
def ParentBefore (l : List SceneObject) : Prop :=
  ∀ (j : ℕ) (o : SceneObject) (a : ℕ), l[j]? = some o → o.base.parent = some a →
    ∃ (i : ℕ) (p : SceneObject), i < j ∧ l[i]? = some p ∧ p.base.addr = a ∧ a ≠ 0

/-! # Theorems -/

/-! ## Camera: facts about the segment search -/

theorem scanSegment_ge (kfs : List Keyframe) (T : ℚ) (n i : ℕ) :
    i ≤ scanSegment kfs T n i := by
  induction n generalizing i with
  | zero => simp [scanSegment]
  | succ n ih =>
    unfold scanSegment
    split
    · exact Nat.le_trans (Nat.le_succ i) (ih (i + 1))
    · exact Nat.le_refl i

theorem scanSegment_le (kfs : List Keyframe) (T : ℚ) (n i : ℕ) (hi : i ≤ kfs.length - 1) :
    scanSegment kfs T n i ≤ kfs.length - 1 := by
  induction n generalizing i with
  | zero => simpa [scanSegment] using hi
  | succ n ih =>
    unfold scanSegment
    split
    · next h => exact ih (i + 1) h.1
    · exact hi

/-- Every index the search steps over has its successor keyframe strictly
before the animation time. -/
theorem scanSegment_passed (kfs : List Keyframe) (T : ℚ) (n i j : ℕ)
    (hij : i ≤ j) (hj : j < scanSegment kfs T n i) : (kf kfs (j + 1)).time < T := by
  induction n generalizing i with
  | zero => simp [scanSegment] at hj; omega
  | succ n ih =>
    unfold scanSegment at hj
    split at hj
    · next h =>
      rcases Nat.eq_or_lt_of_le hij with rfl | hlt
      · exact h.2
      · exact ih (i + 1) hlt hj
    · omega

/-- With enough iterations the search stops only at the last index or where the
next keyframe is not before the animation time. -/
theorem scanSegment_stop (kfs : List Keyframe) (T : ℚ) (n i : ℕ)
    (hn : kfs.length - 1 ≤ i + n) (hlt : scanSegment kfs T n i < kfs.length - 1) :
    T ≤ (kf kfs (scanSegment kfs T n i + 1)).time := by
  induction n generalizing i with
  | zero => simp [scanSegment] at hlt; omega
  | succ n ih =>
    unfold scanSegment at hlt ⊢
    split
    · next h =>
      rw [if_pos h] at hlt
      exact ih (i + 1) (by omega) hlt
    · next h =>
      rw [if_neg h] at hlt
      exact not_lt.mp (fun hc => h ⟨hlt, hc⟩)

theorem update_keyframes (lib : CLib) (cam : UnderwaterCamera) (dt : ℚ) :
    (cam.update lib dt).keyframes = cam.keyframes := by
  unfold UnderwaterCamera.update UnderwaterCamera.interpolateKeyframes
  dsimp only
  split_ifs <;> rfl

theorem update_animating (lib : CLib) (cam : UnderwaterCamera) (dt : ℚ) :
    (cam.update lib dt).animating = cam.animating := by
  unfold UnderwaterCamera.update UnderwaterCamera.interpolateKeyframes
  dsimp only
  split_ifs <;> rfl

/-- Update of a playing camera with at least two keyframes, when the search
stops before the last index: the time advances and the pose is that of the
segment found. -/
theorem update_of_segment (lib : CLib) (cam : UnderwaterCamera) (dt : ℚ)
    (ha : cam.animating = true) (h2 : 2 ≤ cam.keyframes.length)
    (hr : segmentIndex cam (cam.animationTime + dt) < cam.keyframes.length - 1) :
    (cam.update lib dt).animationTime = cam.animationTime + dt ∧
    ((cam.update lib dt).position, (cam.update lib dt).target) =
      segmentPose cam.keyframes (segmentIndex cam (cam.animationTime + dt))
        (cam.animationTime + dt) := by
  have hne : cam.keyframes.isEmpty = false := by
    cases h : cam.keyframes with
    | nil => simp [h] at h2
    | cons a l => rfl
  have hlen : ¬ cam.keyframes.length < 2 := by omega
  have hr' : ¬ (cam.keyframes.length - 1 ≤
      scanSegment cam.keyframes (cam.animationTime + dt) (cam.keyframes.length - 1) 0) := by
    unfold segmentIndex at hr; omega
  unfold segmentIndex at *
  simp [UnderwaterCamera.update, UnderwaterCamera.interpolateKeyframes, ha, hne, hlen, hr',
    segmentPose, smoothstep]

/-- Update of a playing camera with at least two keyframes, when the search
reaches the last index: the time is reset to zero and the pose is that of
segment 0 at time zero. -/
theorem update_of_loop (lib : CLib) (cam : UnderwaterCamera) (dt : ℚ)
    (ha : cam.animating = true) (h2 : 2 ≤ cam.keyframes.length)
    (hr : cam.keyframes.length - 1 ≤ segmentIndex cam (cam.animationTime + dt)) :
    (cam.update lib dt).animationTime = 0 ∧
    ((cam.update lib dt).position, (cam.update lib dt).target) =
      segmentPose cam.keyframes 0 0 := by
  have hne : cam.keyframes.isEmpty = false := by
    cases h : cam.keyframes with
    | nil => simp [h] at h2
    | cons a l => rfl
  have hlen : ¬ cam.keyframes.length < 2 := by omega
  unfold segmentIndex at *
  simp [UnderwaterCamera.update, UnderwaterCamera.interpolateKeyframes, ha, hne, hlen, hr,
    segmentPose, smoothstep]

/-! ## Camera: the claims -/

theorem mix_zero (a b : Vec3) : mix a b 0 = a := by
  ext <;> simp [mix, mixF]

theorem Vec3.add_def (a b : Vec3) : a + b = ⟨a.x + b.x, a.y + b.y, a.z + b.z⟩ := rfl

theorem Vec3.sub_def (a b : Vec3) : a - b = ⟨a.x - b.x, a.y - b.y, a.z - b.z⟩ := rfl

theorem Vec3.mul_def (a : Vec3) (s : ℚ) : a * s = ⟨a.x * s, a.y * s, a.z * s⟩ := rfl

theorem mix_half (a b : Vec3) : mix a b (1 / 2) = (a + b) * (1 / 2 : ℚ) := by
  rw [Vec3.add_def, Vec3.mul_def]
  ext <;> simp only [mix, mixF] <;> ring

theorem kf_eq_getElem (kfs : List Keyframe) (i : ℕ) (h : i < kfs.length) :
    kf kfs i = kfs[i] := by
  simp [kf, List.getD_eq_getElem?_getD, List.getElem?_eq_getElem h]

theorem segmentIndex_lt_of_le_last (cam : UnderwaterCamera) (T : ℚ)
    (h2 : 2 ≤ cam.keyframes.length) (hT : T ≤ lastTime cam.keyframes) :
    segmentIndex cam T < cam.keyframes.length - 1 := by
  by_contra hge
  have hle := scanSegment_le cam.keyframes T (cam.keyframes.length - 1) 0 (Nat.zero_le _)
  have heq : segmentIndex cam T = cam.keyframes.length - 1 := by
    unfold segmentIndex at *; omega
  have hp := scanSegment_passed cam.keyframes T (cam.keyframes.length - 1) 0
    (cam.keyframes.length - 2) (Nat.zero_le _) (by unfold segmentIndex at heq; omega)
  have h1 : cam.keyframes.length - 2 + 1 = cam.keyframes.length - 1 := by omega
  rw [h1] at hp
  exact absurd hT (not_le.mpr hp)

theorem segmentIndex_firstNotBefore (cam : UnderwaterCamera) (T : ℚ)
    (h : segmentIndex cam T < cam.keyframes.length - 1) :
    FirstNotBefore cam.keyframes T (segmentIndex cam T) := by
  refine ⟨by omega, ?_, ?_⟩
  · exact scanSegment_stop cam.keyframes T (cam.keyframes.length - 1) 0 (by omega) h
  · intro j h1 hj
    have := scanSegment_passed cam.keyframes T (cam.keyframes.length - 1) 0 (j - 1)
      (Nat.zero_le _) (by unfold segmentIndex at hj; omega)
    have e : j - 1 + 1 = j := by omega
    rwa [e] at this


/-- C4 (as amended): for a playing camera with at least two keyframes and an
advanced animation time `T` not above the last keyframe's time, where keyframes
0 and 1 have different times if `T` is not above keyframe 1's time, update
stores `T` and sets position and look-target to the linear interpolation between
keyframes `i` and `i + 1` with the same weight `t ^ 2 * (3 - 2 * t)`,
`t = (T - time[i]) / (time[i+1] - time[i])`, where `i + 1` is the first keyframe
after keyframe 0 whose time is not below `T`; the two keyframes of that segment
have different times, so `t` is not a division by zero. -/
theorem camera_update_interpolates (lib : CLib) (cam : UnderwaterCamera) (dt : ℚ)
    (ha : cam.animating = true) (h2 : 2 ≤ cam.keyframes.length)
    (hT : cam.animationTime + dt ≤ lastTime cam.keyframes)
    (h01 : cam.animationTime + dt ≤ (kf cam.keyframes 1).time →
      (kf cam.keyframes 0).time ≠ (kf cam.keyframes 1).time) :
    (cam.update lib dt).animationTime = cam.animationTime + dt ∧
    InterpolatesAt FirstNotBefore cam.keyframes (cam.animationTime + dt) (cam.update lib dt) ∧
    ∀ i, FirstNotBefore cam.keyframes (cam.animationTime + dt) i →
      (kf cam.keyframes i).time ≠ (kf cam.keyframes (i + 1)).time := by
  have hr := segmentIndex_lt_of_le_last cam _ h2 hT
  obtain ⟨ht, hp⟩ := update_of_segment lib cam dt ha h2 hr
  refine ⟨ht, ⟨segmentIndex cam (cam.animationTime + dt),
    segmentIndex_firstNotBefore cam _ hr, ?_, ?_⟩, ?_⟩
  · have := congrArg Prod.fst hp
    simp only [segmentPose, smoothstep] at this
    rw [this, localParam, sq]
  · have := congrArg Prod.snd hp
    simp only [segmentPose, smoothstep] at this
    rw [this, localParam, sq]
  · rintro i ⟨-, hle, hbefore⟩
    cases i with
    | zero => exact h01 hle
    | succ i =>
      have hlt := hbefore (i + 1) (by omega) (Nat.le_refl _)
      exact ne_of_lt (lt_of_lt_of_le hlt hle)

theorem twoKeyCamera_keyframes (A TA B TB : Vec3) :
    (twoKeyCamera A TA B TB).keyframes = [⟨0, A, TA⟩, ⟨10, B, TB⟩] := rfl

theorem sampleCamera_keyframes :
    sampleCamera.keyframes = [⟨0, ⟨0, 0, 0⟩, ⟨0, 0, -1⟩⟩, ⟨10, ⟨10, 0, 0⟩, ⟨10, 0, -1⟩⟩] := rfl

theorem repeatedTimeCamera_keyframes :
    repeatedTimeCamera.keyframes =
      [⟨0, ⟨0, 0, 0⟩, ⟨0, 0, -1⟩⟩, ⟨5, ⟨1, 0, 0⟩, ⟨1, 0, -1⟩⟩,
        ⟨5, ⟨2, 0, 0⟩, ⟨2, 0, -1⟩⟩, ⟨10, ⟨3, 0, 0⟩, ⟨3, 0, -1⟩⟩] := rfl

theorem lateStartCamera_keyframes :
    lateStartCamera.keyframes =
      [⟨5, ⟨0, 0, 0⟩, ⟨0, 0, -1⟩⟩, ⟨10, ⟨10, 0, 0⟩, ⟨10, 0, -1⟩⟩] := rfl

theorem unsortedCamera_keyframes :
    unsortedCamera.keyframes =
      [⟨0, ⟨0, 0, 0⟩, ⟨0, 0, -1⟩⟩, ⟨20, ⟨1, 0, 0⟩, ⟨1, 0, -1⟩⟩,
        ⟨10, ⟨2, 0, 0⟩, ⟨2, 0, -1⟩⟩] := rfl

/-- Witness of `camera_update_interpolates`: keyframes at `t = 0` and `t = 10`,
animation time 0 advanced by 5. -/
theorem camera_update_interpolates_witness :
    sampleCamera.animating = true ∧ 2 ≤ sampleCamera.keyframes.length ∧
    sampleCamera.animationTime + 5 ≤ lastTime sampleCamera.keyframes ∧
    (kf sampleCamera.keyframes 0).time ≠ (kf sampleCamera.keyframes 1).time ∧
    (sampleCamera.update sampleLib 5).animationTime = sampleCamera.animationTime + 5 ∧
    InterpolatesAt FirstNotBefore sampleCamera.keyframes (sampleCamera.animationTime + 5)
      (sampleCamera.update sampleLib 5) :=
  have h3 : sampleCamera.animationTime + 5 ≤ lastTime sampleCamera.keyframes := by
    rw [sampleCamera_keyframes]
    norm_num [sampleCamera, twoKeyCamera, cameraOf, UnderwaterCamera.addKeyframe,
      UnderwaterCamera.create, lastTime, kf]
  have h4 : (kf sampleCamera.keyframes 0).time ≠ (kf sampleCamera.keyframes 1).time := by
    rw [sampleCamera_keyframes]
    norm_num [kf]
  have h := camera_update_interpolates sampleLib sampleCamera 5 rfl
    (by rw [sampleCamera_keyframes]; simp) h3 (fun _ => h4)
  ⟨rfl, by rw [sampleCamera_keyframes]; simp, h3, h4, h.1, h.2.1⟩

/-- C4 (as stated) fails.  With keyframes at `t = 0` and `t = 10` and the
animation time advanced from 0 to exactly 10 (not above the last keyframe's
time), no keyframe has a time exceeding the animation time, so the pose is not
an interpolation on a segment selected as the claim words it; update
interpolates on segment 0 with weight 1.  With keyframe times 0, 5, 5, 10 and
the animation time advanced from 0 to 5, the segment the claim names is segment
2, whose interpolation is keyframe 2's pose, while update returns keyframe 1's.
With keyframes at `t = 5` and `t = 10` and the animation time advanced from 0 to
2, the first keyframe whose time exceeds the animation time is keyframe 0, which
ends no segment, while update extrapolates on segment 0. -/
theorem camera_segment_not_first_exceeding :
    (sampleCamera.animating = true ∧ sampleCamera.animationTime = 0 ∧
      (0 : ℚ) + 10 ≤ lastTime sampleCamera.keyframes ∧
      ¬ InterpolatesAt FirstExceeding sampleCamera.keyframes (0 + 10)
        (sampleCamera.update sampleLib 10)) ∧
    (repeatedTimeCamera.animating = true ∧ repeatedTimeCamera.animationTime = 0 ∧
      (0 : ℚ) + 5 ≤ lastTime repeatedTimeCamera.keyframes ∧
      ¬ InterpolatesAt FirstExceeding repeatedTimeCamera.keyframes (0 + 5)
        (repeatedTimeCamera.update sampleLib 5)) ∧
    (lateStartCamera.animating = true ∧ lateStartCamera.animationTime = 0 ∧
      (0 : ℚ) + 2 ≤ lastTime lateStartCamera.keyframes ∧
      ¬ InterpolatesAt FirstExceeding lateStartCamera.keyframes (0 + 2)
        (lateStartCamera.update sampleLib 2)) := by
  refine ⟨⟨rfl, rfl, ?_, ?_⟩, ⟨rfl, rfl, ?_, ?_⟩, ⟨rfl, rfl, ?_, ?_⟩⟩
  · rw [sampleCamera_keyframes]; norm_num [lastTime, kf]
  · rintro ⟨i, ⟨hi, hlt, -⟩, -⟩
    rw [sampleCamera_keyframes] at hi hlt
    have hi0 : i = 0 := by simp at hi; omega
    subst hi0
    norm_num [kf] at hlt
  · rw [repeatedTimeCamera_keyframes]; norm_num [lastTime, kf]
  · rintro ⟨i, ⟨hi, hlt, -⟩, hpos, -⟩
    simp only [repeatedTimeCamera_keyframes, List.length_cons, List.length_nil] at hi hlt hpos
    have hi3 : i = 0 ∨ i = 1 ∨ i = 2 := by omega
    rcases hi3 with rfl | rfl | rfl
    · norm_num [kf] at hlt
    · norm_num [kf] at hlt
    · have hx := congrArg Vec3.x hpos
      norm_num [repeatedTimeCamera, UnderwaterCamera.update,
        UnderwaterCamera.interpolateKeyframes, cameraOf,
        UnderwaterCamera.addKeyframe, UnderwaterCamera.create, scanSegment, kf, mix, mixF,
        localParam] at hx
  · rw [lateStartCamera_keyframes]; norm_num [lastTime, kf]
  · rintro ⟨i, ⟨-, -, hle⟩, -⟩
    have := hle 0 (Nat.zero_le i)
    rw [lateStartCamera_keyframes] at this
    norm_num [kf] at this

theorem segmentIndex_two (cam : UnderwaterCamera) (k0 k1 : Keyframe) (T : ℚ)
    (hk : cam.keyframes = [k0, k1]) :
    segmentIndex cam T = if k1.time < T then 1 else 0 := by
  simp [segmentIndex, hk, scanSegment, kf]

/-- C5 (as amended): with keyframes at `t = 0` (position `A`) and `t = 10`
(position `B`) and every `eps > 0`, the update that brings the animation time to
`10 + eps` resets it to 0 and produces keyframe 0's pose (position `A` and its
target), which is the pose of any update that brings the animation time to
exactly 0; the overshoot `eps` is dropped. -/
theorem camera_loop_restarts_at_zero (lib : CLib) (cam : UnderwaterCamera)
    (A TA B TB : Vec3) (dt eps : ℚ)
    (ha : cam.animating = true) (hk : cam.keyframes = [⟨0, A, TA⟩, ⟨10, B, TB⟩])
    (heps : 0 < eps) (hT : cam.animationTime + dt = 10 + eps) :
    (cam.update lib dt).animationTime = 0 ∧
    (cam.update lib dt).position = A ∧ (cam.update lib dt).target = TA ∧
    ∀ (cam0 : UnderwaterCamera) (dt0 : ℚ), cam0.animating = true →
      cam0.keyframes = [⟨0, A, TA⟩, ⟨10, B, TB⟩] → cam0.animationTime + dt0 = 0 →
      (cam0.update lib dt0).position = (cam.update lib dt).position ∧
      (cam0.update lib dt0).target = (cam.update lib dt).target := by
  have h2 : 2 ≤ cam.keyframes.length := by simp [hk]
  have hidx : cam.keyframes.length - 1 ≤ segmentIndex cam (cam.animationTime + dt) := by
    rw [segmentIndex_two cam _ _ _ hk, hT, hk]
    have : (10 : ℚ) < 10 + eps := by linarith
    simp [this]
  obtain ⟨ht, hp⟩ := update_of_loop lib cam dt ha h2 hidx
  have hpose : segmentPose cam.keyframes 0 0 = (A, TA) := by
    simp [segmentPose, hk, kf, smoothstep, mix_zero]
  rw [hpose] at hp
  have hpos : (cam.update lib dt).position = A := congrArg Prod.fst hp
  have htgt : (cam.update lib dt).target = TA := congrArg Prod.snd hp
  refine ⟨ht, hpos, htgt, ?_⟩
  intro cam0 dt0 ha0 hk0 hT0
  have h20 : 2 ≤ cam0.keyframes.length := by simp [hk0]
  have hidx0 : segmentIndex cam0 (cam0.animationTime + dt0) < cam0.keyframes.length - 1 := by
    rw [segmentIndex_two cam0 _ _ _ hk0, hT0, hk0]
    norm_num
  obtain ⟨-, hp0⟩ := update_of_segment lib cam0 dt0 ha0 h20 hidx0
  have hseg0 : segmentIndex cam0 (cam0.animationTime + dt0) = 0 := by
    rw [segmentIndex_two cam0 _ _ _ hk0, hT0]; norm_num
  rw [hseg0, hT0] at hp0
  have hpose0 : segmentPose cam0.keyframes 0 0 = (A, TA) := by
    simp [segmentPose, hk0, kf, smoothstep, mix_zero]
  rw [hpose0] at hp0
  rw [hpos, htgt]
  exact ⟨congrArg Prod.fst hp0, congrArg Prod.snd hp0⟩

/-- Witness of `camera_loop_restarts_at_zero`: the sample camera at animation
time 0 advanced by `10 + 1/100`. -/
theorem camera_loop_restarts_at_zero_witness :
    sampleCamera.animating = true ∧ (0 : ℚ) < 1 / 100 ∧
    (sampleCamera.update sampleLib (10 + 1 / 100)).animationTime = 0 ∧
    (sampleCamera.update sampleLib (10 + 1 / 100)).position = ⟨0, 0, 0⟩ :=
  have h := camera_loop_restarts_at_zero sampleLib sampleCamera ⟨0, 0, 0⟩ ⟨0, 0, -1⟩
    ⟨10, 0, 0⟩ ⟨10, 0, -1⟩ (10 + 1 / 100) (1 / 100) rfl rfl (by norm_num)
    (by norm_num [sampleCamera, twoKeyCamera, cameraOf, UnderwaterCamera.addKeyframe,
      UnderwaterCamera.create])
  ⟨rfl, by norm_num, h.1, h.2.1⟩

/-- C5 (as stated) fails: for the camera with keyframes at `t = 0` (position
`(0,0,0)`) and `t = 10` (position `(10,0,0)`) and `eps = 1/100`, the position
produced when the animation time reaches `10 + eps` is `(0,0,0)`, while the
position produced when the animation time is `0 + eps` has `x = 2998/100000000`. -/
theorem camera_loop_not_seamless :
    (sampleCamera.update sampleLib (10 + 1 / 100)).position = ⟨0, 0, 0⟩ ∧
    (sampleCamera.update sampleLib (0 + 1 / 100)).position = ⟨2998 / 100000000, 0, 0⟩ ∧
    (sampleCamera.update sampleLib (10 + 1 / 100)).position ≠
      (sampleCamera.update sampleLib (0 + 1 / 100)).position := by
  have h1 : (sampleCamera.update sampleLib (10 + 1 / 100)).position = ⟨0, 0, 0⟩ := by
    norm_num [sampleCamera, twoKeyCamera, UnderwaterCamera.update,
      UnderwaterCamera.interpolateKeyframes, cameraOf,
      UnderwaterCamera.addKeyframe, UnderwaterCamera.create, scanSegment, kf, mix, mixF]
  have h2 : (sampleCamera.update sampleLib (0 + 1 / 100)).position
      = ⟨2998 / 100000000, 0, 0⟩ := by
    norm_num [sampleCamera, twoKeyCamera, UnderwaterCamera.update,
      UnderwaterCamera.interpolateKeyframes, cameraOf,
      UnderwaterCamera.addKeyframe, UnderwaterCamera.create, scanSegment, kf, mix, mixF]
  refine ⟨h1, h2, ?_⟩
  rw [h1, h2]
  intro h
  have := congrArg Vec3.x h
  norm_num at this

/-- C6 (as amended): with keyframes at `t = 0` (position `A`) and `t = 10`
(position `B`), the position sampled at animation time 5 is the
smoothstep-eased midpoint `mix A B (smoothstep (1/2))`, and since
`smoothstep (1/2) = 1/2` it is the linear midpoint `(A + B) / 2`. -/
theorem camera_midpoint_eased_is_linear (lib : CLib) (cam : UnderwaterCamera)
    (A TA B TB : Vec3) (dt : ℚ)
    (ha : cam.animating = true) (hk : cam.keyframes = [⟨0, A, TA⟩, ⟨10, B, TB⟩])
    (hT : cam.animationTime + dt = 5) :
    (cam.update lib dt).position = mix A B (smoothstep (1 / 2)) ∧
    smoothstep (1 / 2) = 1 / 2 ∧
    (cam.update lib dt).position = (A + B) * (1 / 2 : ℚ) := by
  have h2 : 2 ≤ cam.keyframes.length := by simp [hk]
  have hseg : segmentIndex cam (cam.animationTime + dt) = 0 := by
    rw [segmentIndex_two cam _ _ _ hk, hT]; norm_num
  have hidx : segmentIndex cam (cam.animationTime + dt) < cam.keyframes.length - 1 := by
    rw [hseg, hk]; simp
  obtain ⟨-, hp⟩ := update_of_segment lib cam dt ha h2 hidx
  rw [hseg, hT] at hp
  have hs : smoothstep (1 / 2) = 1 / 2 := by norm_num [smoothstep]
  have hpos : (cam.update lib dt).position = mix A B (smoothstep (1 / 2)) := by
    have h : (cam.update lib dt).position = (segmentPose cam.keyframes 0 5).1 :=
      congrArg Prod.fst hp
    rw [h]
    norm_num [segmentPose, hk, kf]
  refine ⟨hpos, hs, ?_⟩
  rw [hpos, hs, mix_half]

/-- Witness of `camera_midpoint_eased_is_linear`: the sample camera at animation
time 0 advanced by 5. -/
theorem camera_midpoint_eased_is_linear_witness :
    sampleCamera.animating = true ∧ sampleCamera.animationTime + 5 = 5 ∧
    (sampleCamera.update sampleLib 5).position =
      ((⟨0, 0, 0⟩ : Vec3) + ⟨10, 0, 0⟩) * (1 / 2 : ℚ) :=
  have h5 : sampleCamera.animationTime + 5 = 5 := by
    norm_num [sampleCamera, twoKeyCamera, cameraOf, UnderwaterCamera.addKeyframe,
      UnderwaterCamera.create]
  ⟨rfl, h5, (camera_midpoint_eased_is_linear sampleLib sampleCamera ⟨0, 0, 0⟩ ⟨0, 0, -1⟩
    ⟨10, 0, 0⟩ ⟨10, 0, -1⟩ 5 rfl rfl h5).2.2⟩

/-- C6 (as stated) fails: for keyframes at `t = 0` with position `A = (0,0,0)`
and `t = 10` with position `B = (10,0,0)`, `A ≠ B`, the position sampled at
animation time 5 is `(5,0,0)`, which is the linear midpoint `(A + B) / 2`. -/
theorem camera_midpoint_not_distinct :
    (⟨0, 0, 0⟩ : Vec3) ≠ ⟨10, 0, 0⟩ ∧
    sampleCamera.animationTime + 5 = 5 ∧
    (sampleCamera.update sampleLib 5).position = ⟨5, 0, 0⟩ ∧
    (sampleCamera.update sampleLib 5).position =
      ((⟨0, 0, 0⟩ : Vec3) + ⟨10, 0, 0⟩) * (1 / 2 : ℚ) := by
  have h1 : (sampleCamera.update sampleLib 5).position = ⟨5, 0, 0⟩ := by
    norm_num [sampleCamera, twoKeyCamera, UnderwaterCamera.update,
      UnderwaterCamera.interpolateKeyframes, cameraOf,
      UnderwaterCamera.addKeyframe, UnderwaterCamera.create, scanSegment, kf, mix, mixF]
  refine ⟨by decide, ?_, h1, ?_⟩
  · norm_num [sampleCamera, twoKeyCamera, cameraOf, UnderwaterCamera.addKeyframe,
      UnderwaterCamera.create]
  · rw [h1, Vec3.add_def, Vec3.mul_def]; norm_num

theorem update_one_keyframe (lib : CLib) (cam : UnderwaterCamera) (k : Keyframe) (dt : ℚ)
    (ha : cam.animating = true) (hk : cam.keyframes = [k]) :
    (cam.update lib dt).position = k.position ∧ (cam.update lib dt).target = k.target := by
  simp [UnderwaterCamera.update, UnderwaterCamera.interpolateKeyframes, ha, hk, kf]

theorem updates_keyframes (lib : CLib) (dts : List ℚ) (cam : UnderwaterCamera) :
    (cam.updates lib dts).keyframes = cam.keyframes ∧
    (cam.updates lib dts).animating = cam.animating := by
  induction dts generalizing cam with
  | nil => exact ⟨rfl, rfl⟩
  | cons dt dts ih =>
    have := ih (cam.update lib dt)
    rw [update_keyframes, update_animating] at this
    exact this

theorem updates_append_one (lib : CLib) (cam : UnderwaterCamera) (dts : List ℚ) (dt : ℚ) :
    cam.updates lib (dts ++ [dt]) = (cam.updates lib dts).update lib dt := by
  simp [UnderwaterCamera.updates, List.foldl_append]

/-- C7: a playing camera with exactly one keyframe has that keyframe's position
and target after every update of any sequence of `dt` values (any non-empty
sequence of updates ends in that pose). -/
theorem camera_single_keyframe_pinned (lib : CLib) (cam : UnderwaterCamera) (k : Keyframe)
    (dts : List ℚ) (ha : cam.animating = true) (hk : cam.keyframes = [k]) (hne : dts ≠ []) :
    (cam.updates lib dts).position = k.position ∧
    (cam.updates lib dts).target = k.target := by
  obtain ⟨init, dt, rfl⟩ : ∃ init dt, dts = init ++ [dt] :=
    ⟨dts.dropLast, dts.getLast hne, (List.dropLast_append_getLast hne).symm⟩
  rw [updates_append_one]
  obtain ⟨hk', ha'⟩ := updates_keyframes lib init cam
  exact update_one_keyframe lib _ k dt (ha'.trans ha) (hk'.trans hk)

/-- Witness of `camera_single_keyframe_pinned`: a constructed camera with one
keyframe, updated with `dt = 1/2, 3, 0, 100`. -/
theorem camera_single_keyframe_pinned_witness :
    (cameraOf sampleLib [⟨3, ⟨1, 2, 3⟩, ⟨4, 5, 6⟩⟩]).animating = true ∧
    (cameraOf sampleLib [⟨3, ⟨1, 2, 3⟩, ⟨4, 5, 6⟩⟩]).keyframes = [⟨3, ⟨1, 2, 3⟩, ⟨4, 5, 6⟩⟩] ∧
    ((cameraOf sampleLib [⟨3, ⟨1, 2, 3⟩, ⟨4, 5, 6⟩⟩]).updates sampleLib
      [1 / 2, 3, 0, 100]).position = ⟨1, 2, 3⟩ ∧
    ((cameraOf sampleLib [⟨3, ⟨1, 2, 3⟩, ⟨4, 5, 6⟩⟩]).updates sampleLib
      [1 / 2, 3, 0, 100]).target = ⟨4, 5, 6⟩ :=
  ⟨rfl, rfl, camera_single_keyframe_pinned sampleLib _ ⟨3, ⟨1, 2, 3⟩, ⟨4, 5, 6⟩⟩
    [1 / 2, 3, 0, 100] rfl rfl (by simp)⟩

/-- C8: for a camera with zero keyframes, update leaves position, target, up and
animation time as they were, for every `dt`. -/
theorem camera_no_keyframes_frame (lib : CLib) (cam : UnderwaterCamera) (dt : ℚ)
    (hk : cam.keyframes = []) :
    (cam.update lib dt).position = cam.position ∧
    (cam.update lib dt).target = cam.target ∧
    (cam.update lib dt).up = cam.up ∧
    (cam.update lib dt).animationTime = cam.animationTime := by
  simp [UnderwaterCamera.update, hk]

/-- Witness of `camera_no_keyframes_frame`: a freshly constructed camera. -/
theorem camera_no_keyframes_frame_witness :
    (cameraOf sampleLib []).keyframes = [] ∧
    ((cameraOf sampleLib []).update sampleLib 3).position = (cameraOf sampleLib []).position ∧
    ((cameraOf sampleLib []).update sampleLib 3).target = (cameraOf sampleLib []).target ∧
    ((cameraOf sampleLib []).update sampleLib 3).up = (cameraOf sampleLib []).up ∧
    ((cameraOf sampleLib []).update sampleLib 3).animationTime =
      (cameraOf sampleLib []).animationTime :=
  ⟨rfl, camera_no_keyframes_frame sampleLib (cameraOf sampleLib []) 3 rfl⟩

theorem kf_time_le_last (kfs : List Keyframe)
    (hs : (kfs.map Keyframe.time).Pairwise (· ≤ ·)) (j : ℕ) (hj : j < kfs.length) :
    (kf kfs j).time ≤ lastTime kfs := by
  have hl : kfs.length - 1 < kfs.length := by omega
  rw [lastTime, kf_eq_getElem kfs j hj, kf_eq_getElem kfs _ hl]
  rcases Nat.eq_or_lt_of_le (Nat.le_sub_one_of_lt hj) with h | h
  · simp [h]
  · have := (List.pairwise_iff_getElem.mp hs) j (kfs.length - 1) (by simpa using hj)
      (by simpa using hl) h
    simpa using this

theorem segmentIndex_ge_of_last_lt (cam : UnderwaterCamera) (T : ℚ)
    (hs : (cam.keyframes.map Keyframe.time).Pairwise (· ≤ ·))
    (hT : lastTime cam.keyframes < T) :
    cam.keyframes.length - 1 ≤ segmentIndex cam T := by
  by_contra hlt
  have hlt' : segmentIndex cam T < cam.keyframes.length - 1 := by omega
  have h1 := scanSegment_stop cam.keyframes T (cam.keyframes.length - 1) 0 (by omega) hlt'
  have h2 := kf_time_le_last cam.keyframes hs (segmentIndex cam T + 1) (by omega)
  unfold segmentIndex at h2
  linarith

/-- C9 (as amended): for a playing camera with at least two keyframes whose
times are in ascending order and every `dt ≥ 0`, update sets the animation time
to `old + dt` when that does not exceed the last keyframe's time (this part
holds for any keyframe order), and otherwise sets it to zero and, when keyframes
0 and 1 have different times, computes the pose from segment 0 at time zero in
the same update (with equal times the local parameter is a division by zero);
so the new animation time is not below the old one unless it is zero. -/
theorem camera_time_advances_or_wraps (lib : CLib) (cam : UnderwaterCamera) (dt : ℚ)
    (ha : cam.animating = true) (h2 : 2 ≤ cam.keyframes.length) (hdt : 0 ≤ dt)
    (hs : (cam.keyframes.map Keyframe.time).Pairwise (· ≤ ·)) :
    (cam.animationTime + dt ≤ lastTime cam.keyframes →
      (cam.update lib dt).animationTime = cam.animationTime + dt) ∧
    (lastTime cam.keyframes < cam.animationTime + dt →
      (cam.update lib dt).animationTime = 0 ∧
      ((kf cam.keyframes 0).time ≠ (kf cam.keyframes 1).time →
        (cam.update lib dt).position =
          mix (kf cam.keyframes 0).position (kf cam.keyframes 1).position
            (smoothstep (localParam cam.keyframes 0 0)) ∧
        (cam.update lib dt).target =
          mix (kf cam.keyframes 0).target (kf cam.keyframes 1).target
            (smoothstep (localParam cam.keyframes 0 0)))) ∧
    (cam.animationTime ≤ (cam.update lib dt).animationTime ∨
      (cam.update lib dt).animationTime = 0) := by
  have hA : cam.animationTime + dt ≤ lastTime cam.keyframes →
      (cam.update lib dt).animationTime = cam.animationTime + dt := fun hT =>
    (update_of_segment lib cam dt ha h2 (segmentIndex_lt_of_le_last cam _ h2 hT)).1
  have hB : lastTime cam.keyframes < cam.animationTime + dt →
      (cam.update lib dt).animationTime = 0 ∧
      ((cam.update lib dt).position, (cam.update lib dt).target) =
        segmentPose cam.keyframes 0 0 := fun hT =>
    update_of_loop lib cam dt ha h2 (segmentIndex_ge_of_last_lt cam _ hs hT)
  refine ⟨hA, ?_, ?_⟩
  · intro hT
    obtain ⟨h0, hp⟩ := hB hT
    exact ⟨h0, fun _ => ⟨congrArg Prod.fst hp, congrArg Prod.snd hp⟩⟩
  · rcases le_or_lt (cam.animationTime + dt) (lastTime cam.keyframes) with hT | hT
    · left; rw [hA hT]; linarith
    · right; exact (hB hT).1

/-- Witness of `camera_time_advances_or_wraps`: the sample camera advanced by 11
from animation time 0, past its last keyframe at `t = 10`. -/
theorem camera_time_advances_or_wraps_witness :
    sampleCamera.animating = true ∧ 2 ≤ sampleCamera.keyframes.length ∧ (0 : ℚ) ≤ 11 ∧
    (sampleCamera.keyframes.map Keyframe.time).Pairwise (· ≤ ·) ∧
    lastTime sampleCamera.keyframes < sampleCamera.animationTime + 11 ∧
    (kf sampleCamera.keyframes 0).time ≠ (kf sampleCamera.keyframes 1).time ∧
    (sampleCamera.update sampleLib 11).animationTime = 0 ∧
    (sampleCamera.update sampleLib 11).position =
      mix (kf sampleCamera.keyframes 0).position (kf sampleCamera.keyframes 1).position
        (smoothstep (localParam sampleCamera.keyframes 0 0)) :=
  have hs : (sampleCamera.keyframes.map Keyframe.time).Pairwise (· ≤ ·) := by
    rw [sampleCamera_keyframes]; simp
  have hl : lastTime sampleCamera.keyframes < sampleCamera.animationTime + 11 := by
    rw [sampleCamera_keyframes]
    norm_num [lastTime, kf, sampleCamera, twoKeyCamera, cameraOf, UnderwaterCamera.addKeyframe,
      UnderwaterCamera.create]
  have h4 : (kf sampleCamera.keyframes 0).time ≠ (kf sampleCamera.keyframes 1).time := by
    rw [sampleCamera_keyframes]
    norm_num [kf]
  have h := (camera_time_advances_or_wraps sampleLib sampleCamera 11 rfl
      (by rw [sampleCamera_keyframes]; simp) (by norm_num) hs).2.1 hl
  ⟨rfl, by rw [sampleCamera_keyframes]; simp, by norm_num, hs, hl, h4, h.1, (h.2 h4).1⟩

/-- C9 (as stated) fails: for the playing camera with keyframe times 0, 20, 10
at animation time 0 and `dt = 15`, the advanced time 15 exceeds the last
keyframe's time 10, yet update leaves the animation time at 15 instead of
resetting it to zero. -/
theorem camera_unsorted_no_wrap :
    unsortedCamera.animating = true ∧ 2 ≤ unsortedCamera.keyframes.length ∧ (0 : ℚ) ≤ 15 ∧
    lastTime unsortedCamera.keyframes < unsortedCamera.animationTime + 15 ∧
    (unsortedCamera.update sampleLib 15).animationTime = 15 ∧
    (unsortedCamera.update sampleLib 15).animationTime ≠ 0 := by
  have h : (unsortedCamera.update sampleLib 15).animationTime = 15 := by
    norm_num [unsortedCamera, UnderwaterCamera.update,
      UnderwaterCamera.interpolateKeyframes, cameraOf,
      UnderwaterCamera.addKeyframe, UnderwaterCamera.create, scanSegment, kf]
  refine ⟨rfl, by rw [unsortedCamera_keyframes]; simp, by norm_num, ?_, h, ?_⟩
  · rw [unsortedCamera_keyframes]
    norm_num [lastTime, kf, unsortedCamera, cameraOf, UnderwaterCamera.addKeyframe,
      UnderwaterCamera.create]
  · rw [h]; norm_num

/-! ## The sample square root -/

theorem sampleSqrt_bounds (x : ℚ) (hx : 0 ≤ x) :
    (Nat.sqrt ⌊x⌋₊ : ℚ) ≤ sampleSqrt x ∧ sampleSqrt x < (Nat.sqrt ⌊x⌋₊ : ℚ) + 1 := by
  have hlo : ((Nat.sqrt ⌊x⌋₊ : ℚ)) ^ 2 ≤ x := by
    have h1 : (Nat.sqrt ⌊x⌋₊) ^ 2 ≤ ⌊x⌋₊ := Nat.sqrt_le' _
    have h2 : ((⌊x⌋₊ : ℕ) : ℚ) ≤ x := Nat.floor_le hx
    have h3 : (((Nat.sqrt ⌊x⌋₊) ^ 2 : ℕ) : ℚ) ≤ ((⌊x⌋₊ : ℕ) : ℚ) := by exact_mod_cast h1
    push_cast at h3
    linarith
  have hhi : x < ((Nat.sqrt ⌊x⌋₊ : ℚ) + 1) ^ 2 := by
    have h1 : ⌊x⌋₊ < (Nat.sqrt ⌊x⌋₊ + 1) ^ 2 := Nat.lt_succ_sqrt' _
    have h2 : x < ((⌊x⌋₊ : ℕ) : ℚ) + 1 := Nat.lt_floor_add_one x
    have h3 : (((⌊x⌋₊ + 1 : ℕ)) : ℚ) ≤ (((Nat.sqrt ⌊x⌋₊ + 1) ^ 2 : ℕ) : ℚ) := by
      exact_mod_cast h1
    push_cast at h3
    linarith
  have hpos : (0 : ℚ) < 2 * (Nat.sqrt ⌊x⌋₊ : ℚ) + 1 := by positivity
  unfold sampleSqrt
  constructor
  · have : 0 ≤ (x - (Nat.sqrt ⌊x⌋₊ : ℚ) ^ 2) / (2 * (Nat.sqrt ⌊x⌋₊ : ℚ) + 1) :=
      div_nonneg (by linarith) hpos.le
    linarith
  · have : (x - (Nat.sqrt ⌊x⌋₊ : ℚ) ^ 2) / (2 * (Nat.sqrt ⌊x⌋₊ : ℚ) + 1) < 1 := by
      rw [div_lt_one hpos]
      nlinarith
    linarith

theorem sampleSqrt_strictMono (x y : ℚ) (hx : 0 ≤ x) (hxy : x < y) :
    sampleSqrt x < sampleSqrt y := by
  have hy : 0 ≤ y := le_trans hx hxy.le
  have hnm : Nat.sqrt ⌊x⌋₊ ≤ Nat.sqrt ⌊y⌋₊ := Nat.sqrt_le_sqrt (Nat.floor_mono hxy.le)
  rcases Nat.eq_or_lt_of_le hnm with heq | hlt
  · unfold sampleSqrt
    rw [heq]
    have hpos : (0 : ℚ) < 2 * (Nat.sqrt ⌊y⌋₊ : ℚ) + 1 := by positivity
    have : (x - (Nat.sqrt ⌊y⌋₊ : ℚ) ^ 2) / (2 * (Nat.sqrt ⌊y⌋₊ : ℚ) + 1) <
        (y - (Nat.sqrt ⌊y⌋₊ : ℚ) ^ 2) / (2 * (Nat.sqrt ⌊y⌋₊ : ℚ) + 1) :=
      div_lt_div_of_pos_right (by linarith) hpos
    linarith
  · have h1 := (sampleSqrt_bounds x hx).2
    have h2 := (sampleSqrt_bounds y hy).1
    have h3 : ((Nat.sqrt ⌊x⌋₊ : ℚ)) + 1 ≤ (Nat.sqrt ⌊y⌋₊ : ℚ) := by exact_mod_cast hlt
    linarith

theorem sampleLib_sqrt_sq (n : ℕ) : sampleLib.sqrt ((n : ℚ) * n) = n := by
  have h : ((n : ℚ) * n) = ((n * n : ℕ) : ℚ) := by push_cast; ring
  show sampleSqrt ((n : ℚ) * n) = n
  unfold sampleSqrt
  rw [h, Nat.floor_natCast, Nat.sqrt_eq]
  push_cast
  have hpos : (0 : ℚ) < 2 * (n : ℚ) + 1 := by positivity
  field_simp
  ring

/-! ## Scene manager: the update pass -/

theorem updateObjects_nil {α : Type} (cls : ObjectClass α) (dt : ℚ) (env : UnderwaterScene α)
    (fuel : ℕ) (rng : Rng) (done : List α) :
    updateObjects cls dt env fuel rng done [] = some (done, rng, []) := by
  cases fuel <;> rfl

theorem updateObjects_cons {α : Type} (cls : ObjectClass α) (dt : ℚ) (env : UnderwaterScene α)
    (fuel : ℕ) (rng : Rng) (done : List α) (obj : α) (rest : List α) :
    updateObjects cls dt env (fuel + 1) rng done (obj :: rest) =
      (updateObjects cls dt env fuel
          (cls.update rng { env with objects := done ++ obj :: rest } dt obj).rng
          (if (cls.update rng { env with objects := done ++ obj :: rest } dt obj).keep
            then done ++ [(cls.update rng { env with objects := done ++ obj :: rest } dt obj).self]
            else done)
          (rest ++ (cls.update rng { env with objects := done ++ obj :: rest } dt obj).spawned)).map
        (fun p => (p.1, p.2.1,
          (obj, cls.update rng { env with objects := done ++ obj :: rest } dt obj) :: p.2.2)) := by
  simp only [updateObjects]
  split <;> simp_all

/-- What a finished loop returns: the kept objects behind `done`, and a log
whose objects are `todo` followed by everything appended during the pass. -/
theorem updateObjects_log {α : Type} (cls : ObjectClass α) (dt : ℚ) (env : UnderwaterScene α)
    (fuel : ℕ) (rng : Rng) (done todo : List α)
    (objs : List α) (rng2 : Rng) (log : List (UpdateCall α))
    (h : updateObjects cls dt env fuel rng done todo = some (objs, rng2, log)) :
    objs = done ++ keptObjects log ∧
    log.map Prod.fst = todo ++ spawnedObjects log ∧
    ∀ c ∈ log, ∃ r sc, c.2 = cls.update r sc dt c.1 := by
  induction fuel generalizing rng done todo objs rng2 log with
  | zero =>
    cases todo with
    | nil =>
      rw [updateObjects_nil] at h
      cases h
      simp [keptObjects, spawnedObjects]
    | cons obj rest => simp [updateObjects] at h
  | succ fuel ih =>
    cases todo with
    | nil =>
      rw [updateObjects_nil] at h
      cases h
      simp [keptObjects, spawnedObjects]
    | cons obj rest =>
      rw [updateObjects_cons] at h
      rcases hrec : updateObjects cls dt env fuel
          (cls.update rng { env with objects := done ++ obj :: rest } dt obj).rng
          (if (cls.update rng { env with objects := done ++ obj :: rest } dt obj).keep
            then done ++ [(cls.update rng { env with objects := done ++ obj :: rest } dt obj).self]
            else done)
          (rest ++ (cls.update rng { env with objects := done ++ obj :: rest } dt obj).spawned)
        with _ | ⟨objs', rng', log'⟩
      · rw [hrec] at h; simp at h
      · rw [hrec] at h
        simp only [Option.map_some', Option.some.injEq, Prod.mk.injEq] at h
        obtain ⟨rfl, rfl, rfl⟩ := h
        obtain ⟨h1, h2, h3⟩ := ih _ _ _ _ _ _ hrec
        refine ⟨?_, ?_, ?_⟩
        · rw [h1]
          by_cases hk : (cls.update rng { env with objects := done ++ obj :: rest } dt obj).keep
              = true
          · simp [keptObjects, hk]
          · simp [keptObjects, hk]
        · simp only [List.map_cons, h2, spawnedObjects, List.flatMap_cons, List.cons_append,
            List.append_assoc]
        · intro c hc
          rcases List.mem_cons.mp hc with rfl | hc
          · exact ⟨_, _, rfl⟩
          · exact h3 c hc

theorem updateObjects_mono {α : Type} (cls : ObjectClass α) (dt : ℚ) (env : UnderwaterScene α)
    (fuel : ℕ) (rng : Rng) (done todo : List α) (res : List α × Rng × List (UpdateCall α))
    (h : updateObjects cls dt env fuel rng done todo = some res) (fuel2 : ℕ) (hf : fuel ≤ fuel2) :
    updateObjects cls dt env fuel2 rng done todo = some res := by
  induction fuel generalizing rng done todo res fuel2 with
  | zero =>
    cases todo with
    | nil => rw [updateObjects_nil] at h ⊢; exact h
    | cons obj rest => simp [updateObjects] at h
  | succ fuel ih =>
    cases todo with
    | nil => rw [updateObjects_nil] at h ⊢; exact h
    | cons obj rest =>
      obtain ⟨k, rfl⟩ : ∃ k, fuel2 = k + 1 := ⟨fuel2 - 1, by omega⟩
      rw [updateObjects_cons] at h ⊢
      rcases hrec : updateObjects cls dt env fuel
          (cls.update rng { env with objects := done ++ obj :: rest } dt obj).rng
          (if (cls.update rng { env with objects := done ++ obj :: rest } dt obj).keep
            then done ++ [(cls.update rng { env with objects := done ++ obj :: rest } dt obj).self]
            else done)
          (rest ++ (cls.update rng { env with objects := done ++ obj :: rest } dt obj).spawned)
        with _ | res'
      · rw [hrec] at h; simp at h
      · rw [hrec] at h
        rw [ih _ _ _ _ hrec k (by omega)]
        exact h

theorem updateObjects_inert {α : Type} (cls : ObjectClass α) (dt : ℚ) (env : UnderwaterScene α)
    (todo : List α) (hin : ∀ o ∈ todo, Inert cls o) (rng : Rng) (done : List α) :
    (updateObjects cls dt env todo.length rng done todo).isSome = true := by
  induction todo generalizing rng done with
  | nil => simp [updateObjects_nil]
  | cons obj rest ih =>
    rw [List.length_cons, updateObjects_cons, hin obj (List.mem_cons_self _ _), List.append_nil]
    simp only [Option.isSome_map']
    exact ih (fun o ho => hin o (List.mem_cons_of_mem _ ho)) _ _

theorem updateObjects_terminates {α : Type} (cls : ObjectClass α) (dt : ℚ)
    (env : UnderwaterScene α)
    (hsp : ∀ rng sc dt o, ∀ c ∈ (cls.update rng sc dt o).spawned, Inert cls c)
    (orig pend : List α) (hin : ∀ o ∈ pend, Inert cls o) (rng : Rng) (done : List α) :
    ∃ fuel, (updateObjects cls dt env fuel rng done (orig ++ pend)).isSome = true := by
  induction orig generalizing rng done pend with
  | nil => exact ⟨pend.length, by simpa using updateObjects_inert cls dt env pend hin rng done⟩
  | cons obj rest ih =>
    obtain ⟨fuel, hf⟩ := ih
      (pend ++ (cls.update rng { env with objects := done ++ obj :: (rest ++ pend) } dt obj).spawned)
      (by
        intro o ho
        rcases List.mem_append.mp ho with ho | ho
        · exact hin o ho
        · exact hsp _ _ _ _ o ho)
      (cls.update rng { env with objects := done ++ obj :: (rest ++ pend) } dt obj).rng
      (if (cls.update rng { env with objects := done ++ obj :: (rest ++ pend) } dt obj).keep
        then done ++
          [(cls.update rng { env with objects := done ++ obj :: (rest ++ pend) } dt obj).self]
        else done)
    refine ⟨fuel + 1, ?_⟩
    rw [List.cons_append, updateObjects_cons, Option.isSome_map', List.append_assoc]
    exact hf

theorem updateEnvironment_objects {α : Type} (lib : CLib) (s : UnderwaterScene α) (dt : ℚ) :
    (s.updateEnvironment lib dt).objects = s.objects := rfl

theorem particle_spawned_inert (lib : CLib) (gmm : UnderwaterObject → Mat4) (rng : Rng)
    (sc : UnderwaterScene ParticleObject) (dt : ℚ) (o c : ParticleObject)
    (hc : c ∈ ((particleClass lib gmm).update rng sc dt o).spawned) :
    Inert (particleClass lib gmm) c := by
  cases o with
  | bubble b => simp [particleClass] at hc
  | generator g =>
    simp only [particleClass, List.mem_map] at hc
    obtain ⟨b, -, rfl⟩ := hc
    intro rng2 sc2 dt2
    rfl

/-- C3: the update pass of the scene, for objects whose spawned objects spawn
nothing themselves (as the bubbles of the one spawner do), finishes, and when it
has finished the collection holds exactly the objects whose `update` returned
true, in the order of the calls; `update` was called once, with this `dt`, on
each object of the collection at the start of the pass, in order, and after
those once on each object appended during the pass. -/
theorem scene_update_removes_expired {α : Type} (cls : ObjectClass α) (lib : CLib) (rng : Rng)
    (s : UnderwaterScene α) (dt : ℚ)
    (hsp : ∀ rng sc dt o, ∀ c ∈ (cls.update rng sc dt o).spawned, Inert cls c) :
    (∃ fuel out rng2 log, ∀ f, fuel ≤ f → s.update cls lib f rng dt = some (out, rng2, log)) ∧
    (∀ f out rng2 log, s.update cls lib f rng dt = some (out, rng2, log) →
      out.objects = keptObjects log ∧
      log.map Prod.fst = s.objects ++ spawnedObjects log ∧
      ∀ c ∈ log, ∃ r sc, c.2 = cls.update r sc dt c.1) := by
  constructor
  · obtain ⟨fuel, hf⟩ := updateObjects_terminates cls dt (s.updateEnvironment lib dt) hsp
      s.objects [] (by simp) rng []
    rw [List.append_nil] at hf
    obtain ⟨⟨objs, rng2, log⟩, hres⟩ := Option.isSome_iff_exists.mp hf
    refine ⟨fuel, { s.updateEnvironment lib dt with objects := objs }, rng2, log, ?_⟩
    intro f hle
    have := updateObjects_mono cls dt _ fuel rng [] s.objects _ hres f hle
    simp only [UnderwaterScene.update, updateEnvironment_objects, this]
  · intro f out rng2 log h
    simp only [UnderwaterScene.update, updateEnvironment_objects] at h
    rcases hrec : updateObjects cls dt (s.updateEnvironment lib dt) f rng [] s.objects
      with _ | ⟨objs, rng', log'⟩
    · rw [hrec] at h; simp at h
    · rw [hrec] at h
      simp only [Option.some.injEq, Prod.mk.injEq] at h
      obtain ⟨rfl, rfl, rfl⟩ := h
      obtain ⟨h1, h2, h3⟩ := updateObjects_log cls dt _ f rng [] s.objects _ _ _ hrec
      exact ⟨by simpa using h1, h2, h3⟩

/-- Witness of `scene_update_removes_expired`: the sample scene of a generator
and a bubble, one frame of one second. -/
theorem scene_update_removes_expired_witness :
    (∀ rng sc dt o,
      ∀ c ∈ ((particleClass sampleLib sampleModelMatrix).update rng sc dt o).spawned,
        Inert (particleClass sampleLib sampleModelMatrix) c) ∧
    (∃ fuel out rng2 log, ∀ f, fuel ≤ f →
      sampleScene.update (particleClass sampleLib sampleModelMatrix) sampleLib f sampleRng 1
        = some (out, rng2, log)) ∧
    (∀ f out rng2 log,
      sampleScene.update (particleClass sampleLib sampleModelMatrix) sampleLib f sampleRng 1
        = some (out, rng2, log) →
      out.objects = keptObjects log ∧
      log.map Prod.fst = sampleScene.objects ++ spawnedObjects log ∧
      ∀ c ∈ log, ∃ r sc, c.2 = (particleClass sampleLib sampleModelMatrix).update r sc 1 c.1) :=
  ⟨fun rng sc dt o c hc => particle_spawned_inert sampleLib sampleModelMatrix rng sc dt o c hc,
    scene_update_removes_expired (particleClass sampleLib sampleModelMatrix) sampleLib sampleRng
      sampleScene 1
      (fun rng sc dt o c hc => particle_spawned_inert sampleLib sampleModelMatrix rng sc dt o c hc)⟩

/-! ## Scene manager: the render pass -/

theorem render_eq {α : Type} (cls : ObjectClass α) (lib : CLib)
    (stdSort : (α → α → Bool) → List α → List α) (s : UnderwaterScene α) :
    s.render cls lib stdSort =
      s.objects.filter (fun obj => !cls.isTranslucent obj) ++
        stdSort (fun a b => decide (distToCamera cls lib s a > distToCamera cls lib s b))
          (s.objects.filter (fun obj => cls.isTranslucent obj)) := rfl

theorem mem_sorted_translucent {α : Type} (cls : ObjectClass α)
    (stdSort : (α → α → Bool) → List α → List α) (hperm : SortPermutes stdSort)
    (comp : α → α → Bool) (l : List α) (o : α)
    (ho : o ∈ stdSort comp (l.filter (fun obj => cls.isTranslucent obj))) :
    cls.isTranslucent o = true := by
  have := (hperm comp _).mem_iff.mp ho
  exact (List.mem_filter.mp this).2

theorem render_perm_objects {α : Type} (cls : ObjectClass α) (lib : CLib)
    (stdSort : (α → α → Bool) → List α → List α) (s : UnderwaterScene α)
    (hperm : SortPermutes stdSort) : (s.render cls lib stdSort).Perm s.objects := by
  rw [render_eq]
  refine ((hperm _ _).append_left _).trans ?_
  exact List.perm_append_comm.trans (List.filter_append_perm _ _)

/-- C1: the render pass calls `render` exactly once on each object of the
collection (the sequence of calls is a rearrangement of the collection), and
every call on an object whose `isTranslucent()` is false comes before every call
on an object whose `isTranslucent()` is true, whatever the positions. -/
theorem render_each_once_opaque_first {α : Type} (cls : ObjectClass α) (lib : CLib)
    (stdSort : (α → α → Bool) → List α → List α) (s : UnderwaterScene α)
    (hperm : SortPermutes stdSort) :
    (s.render cls lib stdSort).Perm s.objects ∧
    ∀ (i j : ℕ) (hi : i < (s.render cls lib stdSort).length)
      (hj : j < (s.render cls lib stdSort).length),
      cls.isTranslucent ((s.render cls lib stdSort)[i]) = false →
      cls.isTranslucent ((s.render cls lib stdSort)[j]) = true → i < j := by
  constructor
  · exact render_perm_objects cls lib stdSort s hperm
  · intro i j hi hj hopa htra
    simp only [render_eq] at hi hj hopa htra
    by_contra hij
    have hji : j ≤ i := Nat.le_of_not_lt hij
    by_cases hjl : j < (s.objects.filter (fun obj => !cls.isTranslucent obj)).length
    · rw [List.getElem_append_left hjl] at htra
      have := (List.mem_filter.mp (List.getElem_mem hjl)).2
      simp [htra] at this
    · have hil : (s.objects.filter (fun obj => !cls.isTranslucent obj)).length ≤ i := by omega
      rw [List.getElem_append_right hil] at hopa
      have hlt : i - (s.objects.filter (fun obj => !cls.isTranslucent obj)).length <
          (stdSort (fun a b => decide (distToCamera cls lib s a > distToCamera cls lib s b))
            (s.objects.filter (fun obj => cls.isTranslucent obj))).length := by
        rw [List.length_append] at hi; omega
      have := mem_sorted_translucent cls stdSort hperm _ _ _ (List.getElem_mem hlt)
      rw [hopa] at this
      exact Bool.false_ne_true this

theorem insertionSortBy_permutes {α : Type} :
    SortPermutes (insertionSortBy : (α → α → Bool) → List α → List α) :=
  fun comp l => List.perm_insertionSort (fun a b => comp b a = false) l

theorem strictWeak_asymm {α : Type} (comp : α → α → Bool) (h : StrictWeak comp) (a b : α)
    (hab : comp a b = true) : comp b a = false := by
  by_contra hba
  have hba' : comp b a = true := by simpa using hba
  have := h.2.1 a b a hab hba'
  rw [h.1 a] at this
  exact Bool.false_ne_true this

theorem insertionSortBy_orders {α : Type} :
    SortOrders (insertionSortBy : (α → α → Bool) → List α → List α) := by
  intro comp h l
  haveI : IsTotal α (fun a b => comp b a = false) := ⟨fun a b => by
    by_cases hba : comp b a = true
    · exact Or.inr (strictWeak_asymm comp h b a hba)
    · exact Or.inl (by simpa using hba)⟩
  haveI : IsTrans α (fun a b => comp b a = false) :=
    ⟨fun a b c hab hbc => h.2.2 c b a hbc hab⟩
  exact List.sorted_insertionSort (fun a b => comp b a = false) l

theorem distance_comparator_strictWeak {α : Type} (key : α → ℚ) :
    StrictWeak (fun a b => decide (key a > key b)) := by
  refine ⟨fun a => by simp, fun a b c hab hbc => ?_, fun a b c hab hbc => ?_⟩
  · simp only [gt_iff_lt, decide_eq_true_eq] at hab hbc ⊢
    exact lt_trans hbc hab
  · simp only [gt_iff_lt, decide_eq_false_iff_not, not_lt] at hab hbc ⊢
    exact le_trans hab hbc

/-- The opaque prefix drops out when the calls are filtered for translucent
objects, leaving the sorted vector. -/
theorem render_translucent_part {α : Type} (cls : ObjectClass α) (lib : CLib)
    (stdSort : (α → α → Bool) → List α → List α) (s : UnderwaterScene α)
    (hperm : SortPermutes stdSort) :
    (s.render cls lib stdSort).filter (fun obj => cls.isTranslucent obj) =
      stdSort (fun a b => decide (distToCamera cls lib s a > distToCamera cls lib s b))
        (s.objects.filter (fun obj => cls.isTranslucent obj)) := by
  rw [render_eq, List.filter_append]
  have h1 : (s.objects.filter (fun obj => !cls.isTranslucent obj)).filter
      (fun obj => cls.isTranslucent obj) = [] := by
    rw [List.filter_eq_nil_iff]
    intro a ha
    have := (List.mem_filter.mp ha).2
    simpa using this
  have h2 : ∀ l : List α, (∀ a ∈ l, cls.isTranslucent a = true) →
      l.filter (fun obj => cls.isTranslucent obj) = l := by
    intro l hl
    exact List.filter_eq_self.mpr hl
  rw [h1, List.nil_append, h2]
  intro a ha
  exact mem_sorted_translucent cls stdSort hperm _ _ _ ha

/-- C2: the translucent objects are rendered in order of non-increasing distance
`glm::length(position - camPos)` to the camera; when `sqrt` is strictly
increasing on the non-negative numbers this is the order of non-increasing
Euclidean distance (stated on its square); in particular a scene of three
translucent objects at distances 5, 10 and 2 has its `render` calls at distances
`[10, 5, 2]`. -/
theorem render_translucent_far_to_near {α : Type} (cls : ObjectClass α) (lib : CLib)
    (stdSort : (α → α → Bool) → List α → List α) (s : UnderwaterScene α)
    (hperm : SortPermutes stdSort) (hord : SortOrders stdSort) :
    (((s.render cls lib stdSort).filter (fun obj => cls.isTranslucent obj)).map
      (distToCamera cls lib s)).Pairwise (· ≥ ·) ∧
    ((∀ x y, 0 ≤ x → x < y → lib.sqrt x < lib.sqrt y) →
      (((s.render cls lib stdSort).filter (fun obj => cls.isTranslucent obj)).map
        (sqDistToCamera cls s)).Pairwise (· ≥ ·)) ∧
    (∀ a b c, s.objects = [a, b, c] →
      cls.isTranslucent a = true → cls.isTranslucent b = true → cls.isTranslucent c = true →
      distToCamera cls lib s a = 5 → distToCamera cls lib s b = 10 →
      distToCamera cls lib s c = 2 →
      (s.render cls lib stdSort).map (distToCamera cls lib s) = [10, 5, 2]) := by
  have hsorted : (((s.render cls lib stdSort).filter (fun obj => cls.isTranslucent obj)).map
      (distToCamera cls lib s)).Pairwise (· ≥ ·) := by
    rw [render_translucent_part cls lib stdSort s hperm, List.pairwise_map]
    refine (hord _ (distance_comparator_strictWeak (distToCamera cls lib s)) _).imp ?_
    intro a b hab
    simpa using hab
  refine ⟨hsorted, ?_, ?_⟩
  · intro hmono
    rw [List.pairwise_map] at hsorted ⊢
    refine hsorted.imp ?_
    intro a b hab
    by_contra hlt
    have hlt' : sqDistToCamera cls s a < sqDistToCamera cls s b := not_le.mp hlt
    have h0 : 0 ≤ sqDistToCamera cls s a := by
      unfold sqDistToCamera dot
      nlinarith [mul_self_nonneg ((cls.base a).position - s.camera.position).x,
        mul_self_nonneg ((cls.base a).position - s.camera.position).y,
        mul_self_nonneg ((cls.base a).position - s.camera.position).z]
    have := hmono _ _ h0 hlt'
    have hab' : distToCamera cls lib s b ≤ distToCamera cls lib s a := hab
    unfold distToCamera length at hab'
    unfold sqDistToCamera at this
    linarith
  intro a b c hobj ha hb hc hda hdb hdc
  have hall : (s.render cls lib stdSort).filter (fun obj => cls.isTranslucent obj)
      = s.render cls lib stdSort := by
    rw [List.filter_eq_self]
    intro o ho
    have := (render_perm_objects cls lib stdSort s hperm).mem_iff.mp ho
    rw [hobj] at this
    simp only [List.mem_cons, List.mem_singleton, List.not_mem_nil, or_false] at this
    rcases this with rfl | rfl | rfl <;> assumption
  rw [hall] at hsorted
  have hp : ((s.render cls lib stdSort).map (distToCamera cls lib s)).Perm [10, 5, 2] := by
    have h1 := (render_perm_objects cls lib stdSort s hperm).map
      (distToCamera cls lib s)
    rw [hobj] at h1
    simp only [List.map_cons, List.map_nil, hda, hdb, hdc] at h1
    exact h1.trans (List.Perm.swap 10 5 [2])
  exact List.eq_of_perm_of_sorted hp hsorted (by simp [List.Sorted]; norm_num)

theorem threeBubbleScene_dist :
    distToCamera (particleClass sampleLib sampleModelMatrix) sampleLib threeBubbleScene
      (bubbleAt ⟨5, 0, 0⟩) = 5 ∧
    distToCamera (particleClass sampleLib sampleModelMatrix) sampleLib threeBubbleScene
      (bubbleAt ⟨0, 10, 0⟩) = 10 ∧
    distToCamera (particleClass sampleLib sampleModelMatrix) sampleLib threeBubbleScene
      (bubbleAt ⟨0, 0, 2⟩) = 2 := by
  have h5 := sampleLib_sqrt_sq 5
  have h10 := sampleLib_sqrt_sq 10
  have h2 := sampleLib_sqrt_sq 2
  norm_num at h5 h10 h2
  refine ⟨?_, ?_, ?_⟩
  · have : dot ((⟨5, 0, 0⟩ : Vec3) - ⟨0, 0, 0⟩) ((⟨5, 0, 0⟩ : Vec3) - ⟨0, 0, 0⟩) = 25 := by
      norm_num [dot, Vec3.sub_def]
    show sampleLib.sqrt (dot ((⟨5, 0, 0⟩ : Vec3) - ⟨0, 0, 0⟩) ((⟨5, 0, 0⟩ : Vec3) - ⟨0, 0, 0⟩)) = 5
    rw [this, h5]
  · have : dot ((⟨0, 10, 0⟩ : Vec3) - ⟨0, 0, 0⟩) ((⟨0, 10, 0⟩ : Vec3) - ⟨0, 0, 0⟩) = 100 := by
      norm_num [dot, Vec3.sub_def]
    show sampleLib.sqrt (dot ((⟨0, 10, 0⟩ : Vec3) - ⟨0, 0, 0⟩) ((⟨0, 10, 0⟩ : Vec3) - ⟨0, 0, 0⟩))
      = 10
    rw [this, h10]
  · have : dot ((⟨0, 0, 2⟩ : Vec3) - ⟨0, 0, 0⟩) ((⟨0, 0, 2⟩ : Vec3) - ⟨0, 0, 0⟩) = 4 := by
      norm_num [dot, Vec3.sub_def]
    show sampleLib.sqrt (dot ((⟨0, 0, 2⟩ : Vec3) - ⟨0, 0, 0⟩) ((⟨0, 0, 2⟩ : Vec3) - ⟨0, 0, 0⟩)) = 2
    rw [this, h2]

/-- Witness of `render_each_once_opaque_first`: the sample scene (an opaque
generator and a translucent bubble) rendered with insertion sort. -/
theorem render_each_once_opaque_first_witness :
    SortPermutes (insertionSortBy : (ParticleObject → ParticleObject → Bool) → _ → _) ∧
    (sampleScene.render (particleClass sampleLib sampleModelMatrix) sampleLib
      insertionSortBy).Perm sampleScene.objects ∧
    ∀ (i j : ℕ)
      (hi : i < (sampleScene.render (particleClass sampleLib sampleModelMatrix) sampleLib
        insertionSortBy).length)
      (hj : j < (sampleScene.render (particleClass sampleLib sampleModelMatrix) sampleLib
        insertionSortBy).length),
      (particleClass sampleLib sampleModelMatrix).isTranslucent
        ((sampleScene.render (particleClass sampleLib sampleModelMatrix) sampleLib
          insertionSortBy)[i]) = false →
      (particleClass sampleLib sampleModelMatrix).isTranslucent
        ((sampleScene.render (particleClass sampleLib sampleModelMatrix) sampleLib
          insertionSortBy)[j]) = true → i < j :=
  ⟨insertionSortBy_permutes,
    render_each_once_opaque_first (particleClass sampleLib sampleModelMatrix) sampleLib
      insertionSortBy sampleScene insertionSortBy_permutes⟩

/-- Witness of `render_translucent_far_to_near`: three bubbles at distances 5,
10 and 2 from the camera, rendered with insertion sort and the sample square
root, are drawn at distances `[10, 5, 2]`, and by non-increasing squared
distance. -/
theorem render_translucent_far_to_near_witness :
    SortPermutes (insertionSortBy : (ParticleObject → ParticleObject → Bool) → _ → _) ∧
    SortOrders (insertionSortBy : (ParticleObject → ParticleObject → Bool) → _ → _) ∧
    (∀ x y, 0 ≤ x → x < y → sampleLib.sqrt x < sampleLib.sqrt y) ∧
    (((threeBubbleScene.render (particleClass sampleLib sampleModelMatrix) sampleLib
      insertionSortBy).filter
        (fun obj => (particleClass sampleLib sampleModelMatrix).isTranslucent obj)).map
      (sqDistToCamera (particleClass sampleLib sampleModelMatrix) threeBubbleScene)).Pairwise
        (· ≥ ·) ∧
    (threeBubbleScene.render (particleClass sampleLib sampleModelMatrix) sampleLib
      insertionSortBy).map
        (distToCamera (particleClass sampleLib sampleModelMatrix) sampleLib threeBubbleScene)
      = [10, 5, 2] :=
  ⟨insertionSortBy_permutes, insertionSortBy_orders, sampleSqrt_strictMono,
    (render_translucent_far_to_near (particleClass sampleLib sampleModelMatrix) sampleLib
      insertionSortBy threeBubbleScene insertionSortBy_permutes insertionSortBy_orders).2.1
      sampleSqrt_strictMono,
    (render_translucent_far_to_near (particleClass sampleLib sampleModelMatrix) sampleLib
      insertionSortBy threeBubbleScene insertionSortBy_permutes insertionSortBy_orders).2.2
      _ _ _ rfl rfl rfl rfl threeBubbleScene_dist.1 threeBubbleScene_dist.2.1
      threeBubbleScene_dist.2.2⟩

/-! ## Bubble generator -/

theorem spawnLoop_length (lib : CLib) (g : BubbleGenerator) (n : ℕ) (rng : Rng) :
    (g.spawnLoop lib n rng).1.length = n := by
  induction n generalizing rng with
  | zero => rfl
  | succ n ih => simp [BubbleGenerator.spawnLoop, ih]

/-- An update that leaves the timer below the interval pushes nothing and only
advances the timer. -/
theorem generator_update_wait (lib : CLib) (rng : Rng) (g : BubbleGenerator) (dt : ℚ)
    (h : g.spawnTimer + dt < g.spawnRate) :
    g.update lib rng dt = ({ g with spawnTimer := g.spawnTimer + dt }, [], rng) := by
  simp [BubbleGenerator.update, not_le.mpr h]

/-- An update that brings the timer to the interval pushes one batch. -/
theorem generator_update_spawn (lib : CLib) (rng : Rng) (g : BubbleGenerator) (dt : ℚ)
    (h : g.spawnRate ≤ g.spawnTimer + dt) :
    (g.update lib rng dt).2.1.length = g.bubblesPerSpawn.toNat ∧
    (g.update lib rng dt).1.spawnTimer = 0 := by
  simp [BubbleGenerator.update, h, spawnLoop_length]

theorem generator_run_waits (lib : CLib) (dts : List ℚ) (dt : ℚ) (rng : Rng)
    (g : BubbleGenerator)
    (hbelow : ∀ k, 1 ≤ k → k ≤ dts.length → g.spawnTimer + (dts.take k).sum < g.spawnRate)
    (hreach : g.spawnRate ≤ g.spawnTimer + dts.sum + dt) :
    (BubbleGenerator.run lib rng g (dts ++ [dt])).map List.length =
      List.replicate dts.length 0 ++ [g.bubblesPerSpawn.toNat] := by
  induction dts generalizing rng g with
  | nil =>
    simp only [List.nil_append, BubbleGenerator.run, List.map_cons, List.map_nil,
      List.length_nil, List.replicate_zero]
    rw [(generator_update_spawn lib rng g dt (by simpa using hreach)).1]
  | cons d ds ih =>
    have h1 : g.spawnTimer + d < g.spawnRate := by
      simpa using hbelow 1 (le_refl 1) (by simp)
    simp only [List.cons_append, BubbleGenerator.run, List.map_cons, List.length_cons,
      List.replicate_succ]
    rw [generator_update_wait lib rng g d h1]
    simp only [List.length_nil, List.cons.injEq, true_and]
    refine ih rng { g with spawnTimer := g.spawnTimer + d } ?_ ?_
    · intro k hk1 hk
      have := hbelow (k + 1) (by omega) (by simpa using hk)
      simp only [List.take_succ_cons, List.sum_cons] at this
      show g.spawnTimer + d + (List.take k ds).sum < g.spawnRate
      linarith
    · show g.spawnRate ≤ g.spawnTimer + d + ds.sum + dt
      simp only [List.sum_cons] at hreach
      linarith

/-- C10: a generator whose timer starts at 0 with spawn interval 1 and batch
size 3, updated with `dt = 1/10` ten times, pushes no bubble in steps 1 to 9 and
exactly 3 in step 10.  In general, over frames `dts` then `dt`, as long as the
accumulated timer stays below the interval nothing is pushed, and the update
that brings it to the interval pushes exactly the batch (`bubblesPerSpawn`
bubbles, none if that `int` is negative). -/
theorem generator_spawns_on_interval (lib : CLib) (rng : Rng) (g : BubbleGenerator) :
    (g.spawnTimer = 0 → g.spawnRate = 1 → g.bubblesPerSpawn = 3 →
      (BubbleGenerator.run lib rng g (List.replicate 10 (1 / 10))).map List.length
        = [0, 0, 0, 0, 0, 0, 0, 0, 0, 3]) ∧
    (∀ (dts : List ℚ) (dt : ℚ),
      (∀ k, 1 ≤ k → k ≤ dts.length → g.spawnTimer + (dts.take k).sum < g.spawnRate) →
      g.spawnRate ≤ g.spawnTimer + dts.sum + dt →
      (BubbleGenerator.run lib rng g (dts ++ [dt])).map List.length =
        List.replicate dts.length 0 ++ [g.bubblesPerSpawn.toNat]) := by
  refine ⟨?_, fun dts dt hb hr => generator_run_waits lib dts dt rng g hb hr⟩
  intro h0 h1 h3
  have h := generator_run_waits lib (List.replicate 9 (1 / 10)) (1 / 10) rng g
    (by
      intro k hk1 hk
      simp only [List.length_replicate] at hk
      rw [h0, h1]
      interval_cases k <;> norm_num [List.replicate, List.take])
    (by rw [h0, h1]; norm_num [List.replicate])
  rw [h3] at h
  simpa [List.replicate] using h

/-- Witness of `generator_spawns_on_interval`: the constructed generator with
its spawn interval set to 1 and the default batch size 3. -/
theorem generator_spawns_on_interval_witness :
    (BubbleGenerator.create.setSpawnRate 1).spawnTimer = 0 ∧
    (BubbleGenerator.create.setSpawnRate 1).spawnRate = 1 ∧
    (BubbleGenerator.create.setSpawnRate 1).bubblesPerSpawn = 3 ∧
    (BubbleGenerator.run sampleLib sampleRng (BubbleGenerator.create.setSpawnRate 1)
      (List.replicate 10 (1 / 10))).map List.length = [0, 0, 0, 0, 0, 0, 0, 0, 0, 3] :=
  ⟨rfl, rfl, rfl,
    (generator_spawns_on_interval sampleLib sampleRng (BubbleGenerator.create.setSpawnRate 1)).1
      rfl rfl rfl⟩

/-! ## Scene manager: the frame as a whole -/

/-- The update pass finishes when spawned objects spawn nothing. -/
theorem scene_update_total {α : Type} (cls : ObjectClass α) (lib : CLib) (rng : Rng)
    (s : UnderwaterScene α) (dt : ℚ)
    (hsp : ∀ rng sc dt o, ∀ c ∈ (cls.update rng sc dt o).spawned, Inert cls c) :
    ∃ fuel out rng2 log, ∀ f, fuel ≤ f → s.update cls lib f rng dt = some (out, rng2, log) := by
  obtain ⟨fuel, hf⟩ := updateObjects_terminates cls dt (s.updateEnvironment lib dt) hsp
    s.objects [] (by simp) rng []
  rw [List.append_nil] at hf
  obtain ⟨⟨objs, rng2, log⟩, hres⟩ := Option.isSome_iff_exists.mp hf
  refine ⟨fuel, { s.updateEnvironment lib dt with objects := objs }, rng2, log, ?_⟩
  intro f hle
  have := updateObjects_mono cls dt _ fuel rng [] s.objects _ hres f hle
  simp only [UnderwaterScene.update, updateEnvironment_objects, this]

/-- Apart from the collection, the scene after `update` is the scene after the
environment part of `update`. -/
theorem scene_update_env {α : Type} (cls : ObjectClass α) (lib : CLib) (rng : Rng)
    (s : UnderwaterScene α) (dt : ℚ) (f : ℕ) (out : UnderwaterScene α) (rng2 : Rng)
    (log : List (UpdateCall α)) (h : s.update cls lib f rng dt = some (out, rng2, log)) :
    out = { s.updateEnvironment lib dt with objects := out.objects } := by
  simp only [UnderwaterScene.update] at h
  rcases hrec : updateObjects cls dt (s.updateEnvironment lib dt) f rng []
      (s.updateEnvironment lib dt).objects with _ | ⟨objs, rng', log'⟩
  · rw [hrec] at h; simp at h
  · rw [hrec] at h
    simp only [Option.some.injEq, Prod.mk.injEq] at h
    rw [← h.1]

theorem glmMin_eq_min (x y : ℚ) : glmMin x y = min x y := by
  unfold glmMin
  split_ifs with h
  · exact (min_eq_right h.le).symm
  · exact (min_eq_left (not_lt.mp h)).symm

/-! ## Bubbles -/

/-- C17: `Bubble::update` returns false exactly when the age after adding `dt`
exceeds the lifetime or the height before this frame's movement is above 5; in
that case position, scale, wobble phase and transparency are unchanged; in every
other case it returns true. -/
theorem bubble_update_expiry (lib : CLib) (gmm : UnderwaterObject → Mat4) (b : Bubble) (dt : ℚ) :
    ((b.update lib gmm dt).2 = false ↔ (b.age + dt > b.lifetime ∨ b.position.y > 5)) ∧
    ((b.update lib gmm dt).2 = false →
      (b.update lib gmm dt).1.position = b.position ∧
      (b.update lib gmm dt).1.scale = b.scale ∧
      (b.update lib gmm dt).1.wobblePhase = b.wobblePhase ∧
      (b.update lib gmm dt).1.transparency = b.transparency) ∧
    (¬ (b.age + dt > b.lifetime ∨ b.position.y > 5) → (b.update lib gmm dt).2 = true) ∧
    (b.update lib gmm dt).1.age = b.age + dt := by
  by_cases h : b.age + dt > b.lifetime ∨ b.position.y > 5
  · have hu : b.update lib gmm dt = ({ b with age := b.age + dt }, false) := by
      simp only [Bubble.update]
      rw [if_pos h]
    rw [hu]
    simp [h]
  · have hu : (b.update lib gmm dt).2 = true := by
      simp only [Bubble.update]
      rw [if_neg h]
    have ha : (b.update lib gmm dt).1.age = b.age + dt := by
      simp only [Bubble.update]
      rw [if_neg h]
      dsimp only
      split_ifs <;> rfl
    simp [hu, h, ha]

/-- Witness of `bubble_update_expiry`: a bubble of age 19/2 and lifetime 10
updated with `dt = 1` expires and keeps its position. -/
theorem bubble_update_expiry_witness :
    (({ (Bubble.create sampleLib sampleRng).1 with age := 19 / 2 } : Bubble).age + 1 >
        ({ (Bubble.create sampleLib sampleRng).1 with age := 19 / 2 } : Bubble).lifetime ∨
      ({ (Bubble.create sampleLib sampleRng).1 with age := 19 / 2 } : Bubble).position.y > 5) ∧
    (({ (Bubble.create sampleLib sampleRng).1 with age := 19 / 2 } : Bubble).update sampleLib
      sampleModelMatrix 1).2 = false ∧
    (({ (Bubble.create sampleLib sampleRng).1 with age := 19 / 2 } : Bubble).update sampleLib
      sampleModelMatrix 1).1.position =
      ({ (Bubble.create sampleLib sampleRng).1 with age := 19 / 2 } : Bubble).position :=
  have h : ({ (Bubble.create sampleLib sampleRng).1 with age := 19 / 2 } : Bubble).age + 1 >
        ({ (Bubble.create sampleLib sampleRng).1 with age := 19 / 2 } : Bubble).lifetime ∨
      ({ (Bubble.create sampleLib sampleRng).1 with age := 19 / 2 } : Bubble).position.y > 5 :=
    Or.inl (by norm_num [Bubble.create])
  have hf := (bubble_update_expiry sampleLib sampleModelMatrix
    { (Bubble.create sampleLib sampleRng).1 with age := 19 / 2 } 1).1.mpr h
  ⟨h, hf, ((bubble_update_expiry sampleLib sampleModelMatrix
    { (Bubble.create sampleLib sampleRng).1 with age := 19 / 2 } 1).2.1 hf).1⟩

/-! ## Fog and lights -/

theorem underwaterFogDensity_mono (d1 d2 : ℚ) (h : d1 ≤ d2) :
    underwaterFogDensity d1 ≤ underwaterFogDensity d2 := by
  unfold underwaterFogDensity
  rw [glmMin_eq_min, glmMin_eq_min]
  exact min_le_min (by linarith) le_rfl

theorem underwaterFogDensity_le_cap (d : ℚ) : underwaterFogDensity d ≤ 15 / 1000 := by
  unfold underwaterFogDensity
  rw [glmMin_eq_min]
  exact min_le_right _ _

theorem fogDepthFactor_mem (d : ℚ) (hd : 0 ≤ d) : 0 ≤ fogDepthFactor d ∧ fogDepthFactor d ≤ 1 := by
  unfold fogDepthFactor
  rw [glmMin_eq_min]
  exact ⟨le_min (by positivity) (by norm_num), min_le_right _ _⟩

/-- The fog that the environment part of `update` computes. -/
theorem updateEnvironment_fog {α : Type} (lib : CLib) (s : UnderwaterScene α) (dt : ℚ) :
    ((s.camera.update lib dt).position.y > 0 →
      (s.updateEnvironment lib dt).fogDensity = 5 / 10000 ∧
      (s.updateEnvironment lib dt).fogColor = ⟨4 / 10, 6 / 10, 85 / 100⟩) ∧
    (¬ (s.camera.update lib dt).position.y > 0 →
      (s.updateEnvironment lib dt).fogDensity =
        underwaterFogDensity (-(s.camera.update lib dt).position.y) ∧
      (s.updateEnvironment lib dt).fogColor =
        mix ⟨0, 3 / 10, 5 / 10⟩ ⟨0, 1 / 10, 25 / 100⟩
          (fogDepthFactor (-(s.camera.update lib dt).position.y))) := by
  constructor
  · intro h
    simp only [UnderwaterScene.updateEnvironment]
    rw [if_pos h, if_pos h]
    exact ⟨rfl, rfl⟩
  · intro h
    simp only [UnderwaterScene.updateEnvironment, underwaterFogDensity, fogDepthFactor]
    rw [if_neg h, if_neg h]
    exact ⟨rfl, rfl⟩

/-- C14: after `UnderwaterScene::update`, with `y` the camera's height after the
camera update: if `y > 0` the fog density is 0.0005 and the fog colour
`(0.4, 0.6, 0.85)`; otherwise, with `depth = -y`, the fog density is
`min(0.004 + 0.0005 * depth, 0.015)`, which does not decrease with the depth and
is never above the cap, and the fog colour is the blend of `(0, 0.3, 0.5)` and
`(0, 0.1, 0.25)` with fraction `min(depth / 15, 1)`, which lies in `[0, 1]`. -/
theorem fog_follows_camera_depth {α : Type} (cls : ObjectClass α) (lib : CLib) (rng : Rng)
    (s : UnderwaterScene α) (dt : ℚ)
    (hsp : ∀ rng sc dt o, ∀ c ∈ (cls.update rng sc dt o).spawned, Inert cls c) :
    (∃ fuel out rng2 log, ∀ f, fuel ≤ f → s.update cls lib f rng dt = some (out, rng2, log)) ∧
    (∀ f out rng2 log, s.update cls lib f rng dt = some (out, rng2, log) →
      out.camera = s.camera.update lib dt ∧
      (out.camera.position.y > 0 →
        out.fogDensity = 5 / 10000 ∧ out.fogColor = ⟨4 / 10, 6 / 10, 85 / 100⟩) ∧
      (¬ out.camera.position.y > 0 →
        out.fogDensity = min (4 / 1000 + 5 / 10000 * (-out.camera.position.y)) (15 / 1000) ∧
        out.fogDensity = underwaterFogDensity (-out.camera.position.y) ∧
        out.fogDensity ≤ 15 / 1000 ∧
        out.fogColor = mix ⟨0, 3 / 10, 5 / 10⟩ ⟨0, 1 / 10, 25 / 100⟩
          (min (-out.camera.position.y / 15) 1) ∧
        0 ≤ min (-out.camera.position.y / 15) 1 ∧ min (-out.camera.position.y / 15) 1 ≤ 1)) ∧
    (∀ d1 d2 : ℚ, d1 ≤ d2 → underwaterFogDensity d1 ≤ underwaterFogDensity d2) := by
  refine ⟨scene_update_total cls lib rng s dt hsp, ?_, underwaterFogDensity_mono⟩
  intro f out rng2 log h
  have henv := scene_update_env cls lib rng s dt f out rng2 log h
  have hcam : out.camera = s.camera.update lib dt := by rw [henv]; rfl
  have hfd : out.fogDensity = (s.updateEnvironment lib dt).fogDensity := by rw [henv]
  have hfc : out.fogColor = (s.updateEnvironment lib dt).fogColor := by rw [henv]
  obtain ⟨hA, hB⟩ := updateEnvironment_fog lib s dt
  rw [hcam, hfd, hfc]
  refine ⟨rfl, hA, ?_⟩
  intro hy
  obtain ⟨h1, h2⟩ := hB hy
  have hd : 0 ≤ -(s.camera.update lib dt).position.y := by
    have := not_lt.mp hy
    linarith
  have hfac := fogDepthFactor_mem _ hd
  have hmin : fogDepthFactor (-(s.camera.update lib dt).position.y) =
      min (-(s.camera.update lib dt).position.y / 15) 1 := by
    unfold fogDepthFactor; rw [glmMin_eq_min]
  refine ⟨?_, h1, ?_, ?_, ?_, ?_⟩
  · rw [h1, underwaterFogDensity, glmMin_eq_min, mul_comm]
  · rw [h1]; exact underwaterFogDensity_le_cap _
  · rw [h2, hmin]
  · rw [← hmin]; exact hfac.1
  · rw [← hmin]; exact hfac.2

/-- Witness of `fog_follows_camera_depth`: the sample scene, one frame of one
second. -/
theorem fog_follows_camera_depth_witness :
    (∀ rng sc dt o,
      ∀ c ∈ ((particleClass sampleLib sampleModelMatrix).update rng sc dt o).spawned,
        Inert (particleClass sampleLib sampleModelMatrix) c) ∧
    (∃ fuel out rng2 log, ∀ f, fuel ≤ f →
      sampleScene.update (particleClass sampleLib sampleModelMatrix) sampleLib f sampleRng 1
        = some (out, rng2, log)) :=
  ⟨fun rng sc dt o c hc => particle_spawned_inert sampleLib sampleModelMatrix rng sc dt o c hc,
    (fog_follows_camera_depth (particleClass sampleLib sampleModelMatrix) sampleLib sampleRng
      sampleScene 1
      (fun rng sc dt o c hc =>
        particle_spawned_inert sampleLib sampleModelMatrix rng sc dt o c hc)).1⟩
/-- The lights and the fog after the environment part of `update` are functions
of the new global time and the updated camera, except the red and blue
components of the point-light colour, which are not assigned. -/
theorem updateEnvironment_lights {α : Type} (lib : CLib) (s : UnderwaterScene α) (dt : ℚ) :
    (s.updateEnvironment lib dt).pointLightPos =
      ⟨lib.sin ((s.globalTime + dt) * (5 / 10)) * 15,
       -8 + lib.sin ((s.globalTime + dt) * (7 / 10)) * 2,
       lib.cos ((s.globalTime + dt) * (3 / 10)) * 15⟩ ∧
    (s.updateEnvironment lib dt).pointLightIntensity =
      12 + lib.sin ((s.globalTime + dt) * 2) * 5 ∧
    (s.updateEnvironment lib dt).pointLightColor.y =
      7 / 10 + lib.sin ((s.globalTime + dt) * (8 / 10)) * (3 / 10) ∧
    (s.updateEnvironment lib dt).pointLightColor.x = s.pointLightColor.x ∧
    (s.updateEnvironment lib dt).pointLightColor.z = s.pointLightColor.z ∧
    (s.updateEnvironment lib dt).spotLightPos =
      (s.camera.update lib dt).position + (⟨5 / 10, -(3 / 10), 0⟩ : Vec3) ∧
    (s.updateEnvironment lib dt).spotLightDir =
      normalize lib ((s.camera.update lib dt).target - (s.camera.update lib dt).position) ∧
    (s.updateEnvironment lib dt).spotLightIntensity =
      18 + lib.sin ((s.globalTime + dt) * 10) * 2 :=
  ⟨rfl, rfl, rfl, rfl, rfl, rfl, rfl, rfl⟩

theorem updateEnvironment_fog_eq {α β : Type} (lib : CLib) (s1 : UnderwaterScene α)
    (s2 : UnderwaterScene β) (dt : ℚ) (hc : s1.camera = s2.camera) :
    (s1.updateEnvironment lib dt).fogDensity = (s2.updateEnvironment lib dt).fogDensity ∧
    (s1.updateEnvironment lib dt).fogColor = (s2.updateEnvironment lib dt).fogColor := by
  simp only [UnderwaterScene.updateEnvironment, hc, and_self]

/-- C15 (as amended): two scene states that agree on global time and camera,
updated with the same `dt`, get identical point-light position and intensity,
identical green component of the point-light colour, identical spotlight
position, direction and intensity and identical fog colour and density, whatever
the previous values of the lights and the fog were; the red and blue components
of the point-light colour are not recomputed and keep their previous values. -/
theorem lights_and_fog_recomputed {α : Type} (cls : ObjectClass α) (lib : CLib)
    (rngA rngB : Rng) (sA sB : UnderwaterScene α) (dt : ℚ)
    (hsp : ∀ rng sc dt o, ∀ c ∈ (cls.update rng sc dt o).spawned, Inert cls c)
    (ht : sA.globalTime = sB.globalTime) (hc : sA.camera = sB.camera) :
    (∃ fuel outA rngA2 logA outB rngB2 logB, ∀ f, fuel ≤ f →
      sA.update cls lib f rngA dt = some (outA, rngA2, logA) ∧
      sB.update cls lib f rngB dt = some (outB, rngB2, logB)) ∧
    (∀ fA fB outA rngA2 logA outB rngB2 logB,
      sA.update cls lib fA rngA dt = some (outA, rngA2, logA) →
      sB.update cls lib fB rngB dt = some (outB, rngB2, logB) →
      outA.pointLightPos = outB.pointLightPos ∧
      outA.pointLightIntensity = outB.pointLightIntensity ∧
      outA.pointLightColor.y = outB.pointLightColor.y ∧
      outA.spotLightPos = outB.spotLightPos ∧
      outA.spotLightDir = outB.spotLightDir ∧
      outA.spotLightIntensity = outB.spotLightIntensity ∧
      outA.fogColor = outB.fogColor ∧
      outA.fogDensity = outB.fogDensity ∧
      outA.pointLightColor.x = sA.pointLightColor.x ∧
      outA.pointLightColor.z = sA.pointLightColor.z ∧
      outB.pointLightColor.x = sB.pointLightColor.x ∧
      outB.pointLightColor.z = sB.pointLightColor.z) := by
  constructor
  · obtain ⟨f1, outA, rngA2, logA, h1⟩ := scene_update_total cls lib rngA sA dt hsp
    obtain ⟨f2, outB, rngB2, logB, h2⟩ := scene_update_total cls lib rngB sB dt hsp
    exact ⟨max f1 f2, outA, rngA2, logA, outB, rngB2, logB, fun f hf =>
      ⟨h1 f (le_trans (le_max_left _ _) hf), h2 f (le_trans (le_max_right _ _) hf)⟩⟩
  · intro fA fB outA rngA2 logA outB rngB2 logB hA hB
    have eA := scene_update_env cls lib rngA sA dt fA outA rngA2 logA hA
    have eB := scene_update_env cls lib rngB sB dt fB outB rngB2 logB hB
    obtain ⟨a1, a2, a3, a4, a5, a6, a7, a8⟩ := updateEnvironment_lights lib sA dt
    obtain ⟨b1, b2, b3, b4, b5, b6, b7, b8⟩ := updateEnvironment_lights lib sB dt
    obtain ⟨g1, g2⟩ := updateEnvironment_fog_eq lib sA sB dt hc
    rw [eA, eB]
    dsimp only
    rw [a1, a2, a3, a4, a5, a6, a7, a8, b1, b2, b3, b4, b5, b6, b7, b8, g1, g2, ht, hc]
    simp

/-- Witness of `lights_and_fog_recomputed`: the sample scene and the sample
scene with a red previous point-light colour. -/
theorem lights_and_fog_recomputed_witness :
    (∀ rng sc dt o,
      ∀ c ∈ ((particleClass sampleLib sampleModelMatrix).update rng sc dt o).spawned,
        Inert (particleClass sampleLib sampleModelMatrix) c) ∧
    sampleScene.globalTime = sampleSceneRedLight.globalTime ∧
    sampleScene.camera = sampleSceneRedLight.camera ∧
    (∃ fuel outA rngA2 logA outB rngB2 logB, ∀ f, fuel ≤ f →
      sampleScene.update (particleClass sampleLib sampleModelMatrix) sampleLib f sampleRng 1
        = some (outA, rngA2, logA) ∧
      sampleSceneRedLight.update (particleClass sampleLib sampleModelMatrix) sampleLib f
        sampleRng 1 = some (outB, rngB2, logB)) :=
  ⟨fun rng sc dt o c hc => particle_spawned_inert sampleLib sampleModelMatrix rng sc dt o c hc,
    rfl, rfl,
    (lights_and_fog_recomputed (particleClass sampleLib sampleModelMatrix) sampleLib sampleRng
      sampleRng sampleScene sampleSceneRedLight 1
      (fun rng sc dt o c hc =>
        particle_spawned_inert sampleLib sampleModelMatrix rng sc dt o c hc) rfl rfl).1⟩

/-- C15 (as stated) fails: the sample scene and the sample scene whose previous
point-light colour is `(1, 0.8, 1)` instead of `(0.2, 0.8, 1)` agree on global
time and camera, and after `update` with `dt = 1` their point-light colours
still differ (red component 0.2 against 1). -/
theorem point_light_colour_carried_over :
    sampleScene.globalTime = sampleSceneRedLight.globalTime ∧
    sampleScene.camera = sampleSceneRedLight.camera ∧
    (∃ fuel outA rngA2 logA outB rngB2 logB,
      sampleScene.update (particleClass sampleLib sampleModelMatrix) sampleLib fuel sampleRng 1
        = some (outA, rngA2, logA) ∧
      sampleSceneRedLight.update (particleClass sampleLib sampleModelMatrix) sampleLib fuel
        sampleRng 1 = some (outB, rngB2, logB) ∧
      outA.pointLightColor.x = 2 / 10 ∧ outB.pointLightColor.x = 1 ∧
      outA.pointLightColor ≠ outB.pointLightColor) := by
  refine ⟨rfl, rfl, ?_⟩
  have hsp : ∀ rng sc dt o,
      ∀ c ∈ ((particleClass sampleLib sampleModelMatrix).update rng sc dt o).spawned,
        Inert (particleClass sampleLib sampleModelMatrix) c :=
    fun rng sc dt o c hc => particle_spawned_inert sampleLib sampleModelMatrix rng sc dt o c hc
  obtain ⟨f1, outA, rngA2, logA, h1⟩ := scene_update_total
    (particleClass sampleLib sampleModelMatrix) sampleLib sampleRng sampleScene 1 hsp
  obtain ⟨f2, outB, rngB2, logB, h2⟩ := scene_update_total
    (particleClass sampleLib sampleModelMatrix) sampleLib sampleRng sampleSceneRedLight 1 hsp
  have hA := h1 (max f1 f2) (le_max_left _ _)
  have hB := h2 (max f1 f2) (le_max_right _ _)
  have eA := scene_update_env _ _ _ _ _ _ _ _ _ hA
  have eB := scene_update_env _ _ _ _ _ _ _ _ _ hB
  have xA : outA.pointLightColor.x = 2 / 10 := by rw [eA]; rfl
  have xB : outB.pointLightColor.x = 1 := by rw [eB]; rfl
  refine ⟨max f1 f2, outA, rngA2, logA, outB, rngB2, logB, hA, hB, xA, xB, ?_⟩
  intro h
  rw [h, xB] at xA
  norm_num at xA

/-! ## Camera: malformed keyframe sequences -/

/-- The scan stops before the last keyframe when some keyframe after the first
has a time not below `T`. -/
theorem segmentIndex_lt_of_exists (cam : UnderwaterCamera) (T : ℚ)
    (h : ∃ j, 1 ≤ j ∧ j < cam.keyframes.length ∧ T ≤ (kf cam.keyframes j).time) :
    segmentIndex cam T < cam.keyframes.length - 1 := by
  obtain ⟨j, h1, hj, hle⟩ := h
  by_contra hge
  have hp := scanSegment_passed cam.keyframes T (cam.keyframes.length - 1) 0 (j - 1)
    (Nat.zero_le _) (by unfold segmentIndex at hge; omega)
  have e : j - 1 + 1 = j := by omega
  rw [e] at hp
  linarith

/-- The scan reaches the last keyframe when every keyframe after the first has a
time below `T`. -/
theorem segmentIndex_eq_of_forall (cam : UnderwaterCamera) (T : ℚ)
    (h : ∀ j, 1 ≤ j → j < cam.keyframes.length → (kf cam.keyframes j).time < T) :
    segmentIndex cam T = cam.keyframes.length - 1 := by
  have hle := scanSegment_le cam.keyframes T (cam.keyframes.length - 1) 0 (Nat.zero_le _)
  by_contra hne
  have hlt : segmentIndex cam T < cam.keyframes.length - 1 := by
    unfold segmentIndex at hne ⊢; omega
  have h1 := scanSegment_stop cam.keyframes T (cam.keyframes.length - 1) 0 (by omega) hlt
  have h2 := h (segmentIndex cam T + 1) (by omega) (by omega)
  unfold segmentIndex at h2
  linarith

/-- C16 (as amended): for every playing camera with at least two keyframes,
whatever the order of the keyframe times, with `T` the advanced animation time.
If some keyframe after the first has a time not below `T`, the forward scan
stops at the segment `i` whose end `i + 1` is the first such keyframe, update
stores `T` and, when the two keyframes of segment `i` have different times, sets
position and target to the eased interpolation between them, by the weight
`t * t * (3 - 2 * t)` of the local parameter `t` of segment `i` at `T`.  If
every keyframe after the first has a time below `T`, the scan reaches the last
keyframe, update stores the time zero and, when keyframes 0 and 1 have different
times, sets position and target to the eased interpolation of segment 0 at time
zero.  (With equal times the local parameter is a division by zero.) -/
theorem camera_malformed_interpolates (lib : CLib) (cam : UnderwaterCamera) (dt : ℚ)
    (ha : cam.animating = true) (h2 : 2 ≤ cam.keyframes.length) :
    ((∃ j, 1 ≤ j ∧ j < cam.keyframes.length ∧
        cam.animationTime + dt ≤ (kf cam.keyframes j).time) →
      FirstNotBefore cam.keyframes (cam.animationTime + dt)
        (segmentIndex cam (cam.animationTime + dt)) ∧
      (cam.update lib dt).animationTime = cam.animationTime + dt ∧
      ((kf cam.keyframes (segmentIndex cam (cam.animationTime + dt) + 1)).time ≠
          (kf cam.keyframes (segmentIndex cam (cam.animationTime + dt))).time →
        (cam.update lib dt).position =
          mix (kf cam.keyframes (segmentIndex cam (cam.animationTime + dt))).position
            (kf cam.keyframes (segmentIndex cam (cam.animationTime + dt) + 1)).position
            (smoothstep (localParam cam.keyframes (segmentIndex cam (cam.animationTime + dt))
              (cam.animationTime + dt))) ∧
        (cam.update lib dt).target =
          mix (kf cam.keyframes (segmentIndex cam (cam.animationTime + dt))).target
            (kf cam.keyframes (segmentIndex cam (cam.animationTime + dt) + 1)).target
            (smoothstep (localParam cam.keyframes (segmentIndex cam (cam.animationTime + dt))
              (cam.animationTime + dt))))) ∧
    ((∀ j, 1 ≤ j → j < cam.keyframes.length →
        (kf cam.keyframes j).time < cam.animationTime + dt) →
      segmentIndex cam (cam.animationTime + dt) = cam.keyframes.length - 1 ∧
      (cam.update lib dt).animationTime = 0 ∧
      ((kf cam.keyframes 1).time ≠ (kf cam.keyframes 0).time →
        (cam.update lib dt).position =
          mix (kf cam.keyframes 0).position (kf cam.keyframes 1).position
            (smoothstep (localParam cam.keyframes 0 0)) ∧
        (cam.update lib dt).target =
          mix (kf cam.keyframes 0).target (kf cam.keyframes 1).target
            (smoothstep (localParam cam.keyframes 0 0)))) := by
  constructor
  · intro hex
    have hlt := segmentIndex_lt_of_exists cam _ hex
    obtain ⟨ht, hp⟩ := update_of_segment lib cam dt ha h2 hlt
    exact ⟨segmentIndex_firstNotBefore cam _ hlt, ht, fun _ =>
      ⟨congrArg Prod.fst hp, congrArg Prod.snd hp⟩⟩
  · intro hall
    have heq := segmentIndex_eq_of_forall cam _ hall
    obtain ⟨ht, hp⟩ := update_of_loop lib cam dt ha h2 (le_of_eq heq.symm)
    exact ⟨heq, ht, fun _ => ⟨congrArg Prod.fst hp, congrArg Prod.snd hp⟩⟩

/-- Witness of `camera_malformed_interpolates`: the camera with keyframe times
0, 20, 10, advanced by 15 from time 0; keyframe 1 has a time not below 15, the
scan stops at segment 0 and the time 15 is stored. -/
theorem camera_malformed_interpolates_witness :
    unsortedCamera.animating = true ∧ 2 ≤ unsortedCamera.keyframes.length ∧
    unsortedCamera.animationTime + 15 ≤ (kf unsortedCamera.keyframes 1).time ∧
    FirstNotBefore unsortedCamera.keyframes (unsortedCamera.animationTime + 15)
      (segmentIndex unsortedCamera (unsortedCamera.animationTime + 15)) ∧
    (unsortedCamera.update sampleLib 15).animationTime = unsortedCamera.animationTime + 15 :=
  have h1 : unsortedCamera.animationTime + 15 ≤ (kf unsortedCamera.keyframes 1).time := by
    rw [unsortedCamera_keyframes]
    norm_num [kf, unsortedCamera, cameraOf, UnderwaterCamera.addKeyframe,
      UnderwaterCamera.create]
  have h := (camera_malformed_interpolates sampleLib unsortedCamera 15 rfl
    (by rw [unsortedCamera_keyframes]; simp)).1
    ⟨1, Nat.le_refl 1, by rw [unsortedCamera_keyframes]; simp, h1⟩
  ⟨rfl, by rw [unsortedCamera_keyframes]; simp, h1, h.1, h.2.1⟩

/-- C16 (as stated) fails: the camera with keyframe times 0, 20, 10 (the last
two decreasing) and keyframe positions `(0,0,0)`, `(1,0,0)`, `(2,0,0)`, at
position `(0,0,0)`, is moved by `update` with `dt = 15` to `(27/32, 0, 0)`: not a
keyframe's position, and not the position before the call. -/
theorem camera_malformed_not_pinned :
    (kf unsortedCamera.keyframes 2).time < (kf unsortedCamera.keyframes 1).time ∧
    (unsortedCamera.update sampleLib 15).position = ⟨27 / 32, 0, 0⟩ ∧
    (∀ k ∈ unsortedCamera.keyframes,
      (unsortedCamera.update sampleLib 15).position ≠ k.position) ∧
    (unsortedCamera.update sampleLib 15).position ≠ unsortedCamera.position := by
  have hp : (unsortedCamera.update sampleLib 15).position = ⟨27 / 32, 0, 0⟩ := by
    norm_num [unsortedCamera, UnderwaterCamera.update,
      UnderwaterCamera.interpolateKeyframes, cameraOf,
      UnderwaterCamera.addKeyframe, UnderwaterCamera.create, scanSegment, kf, mix, mixF]
  refine ⟨?_, hp, ?_, ?_⟩
  · rw [unsortedCamera_keyframes]; norm_num [kf]
  · intro k hk
    rw [unsortedCamera_keyframes] at hk
    rw [hp]
    simp only [List.mem_cons, List.mem_singleton, List.not_mem_nil, or_false] at hk
    rcases hk with rfl | rfl | rfl <;> · intro h; have := congrArg Vec3.x h; norm_num at this
  · rw [hp]
    intro h
    have := congrArg Vec3.x h
    norm_num [unsortedCamera, cameraOf, UnderwaterCamera.addKeyframe,
      UnderwaterCamera.create] at this

/-! ## Bubble generator: placement -/

theorem randUnit_draws (lib : CLib) (rng : Rng) : (rng.randUnit lib).2.draws = rng.draws := rfl

theorem randUnit_mem (lib : CLib) (rng : Rng) (h : ∀ n, rng.draws n ≤ lib.RAND_MAX) :
    0 ≤ (rng.randUnit lib).1 ∧ (rng.randUnit lib).1 ≤ 1 := by
  have hd : ((rng.draws rng.pos : ℕ) : ℚ) ≤ (lib.RAND_MAX : ℚ) := by exact_mod_cast h rng.pos
  have h0 : (0 : ℚ) ≤ (rng.draws rng.pos : ℕ) := Nat.cast_nonneg _
  show 0 ≤ ((rng.draws rng.pos : ℕ) : ℚ) / (lib.RAND_MAX : ℚ) ∧
    ((rng.draws rng.pos : ℕ) : ℚ) / (lib.RAND_MAX : ℚ) ≤ 1
  exact ⟨div_nonneg h0 (Nat.cast_nonneg _), div_le_one_of_le₀ hd (Nat.cast_nonneg _)⟩

theorem spawnOne_draws (lib : CLib) (g : BubbleGenerator) (rng : Rng) :
    (g.spawnOne lib rng).2.draws = rng.draws := rfl

/-- Where one iteration of the spawn loop puts its bubble. -/
theorem spawnOne_position (lib : CLib) (g : BubbleGenerator) (rng : Rng) :
    ∃ r : Rng, r.draws = rng.draws ∧ ∃ angle : ℚ,
      (g.spawnOne lib rng).1.position =
        g.position + (⟨lib.cos angle * ((r.randUnit lib).1 * g.spawnRadius), 0,
          lib.sin angle * ((r.randUnit lib).1 * g.spawnRadius)⟩ : Vec3) :=
  ⟨((Bubble.create lib rng).2.randUnit lib).2, rfl,
    ((Bubble.create lib rng).2.randUnit lib).1 * (628 / 100), rfl⟩

theorem spawnOne_within (lib : CLib) (g : BubbleGenerator) (rng : Rng)
    (hr : 0 ≤ g.spawnRadius) (hdraw : ∀ n, rng.draws n ≤ lib.RAND_MAX)
    (hcirc : ∀ x, lib.sin x ^ 2 + lib.cos x ^ 2 ≤ 1) :
    (g.spawnOne lib rng).1.position.y = g.position.y ∧
    dot ((g.spawnOne lib rng).1.position - g.position)
      ((g.spawnOne lib rng).1.position - g.position) ≤ g.spawnRadius ^ 2 := by
  obtain ⟨r, hrd, angle, hpos⟩ := spawnOne_position lib g rng
  obtain ⟨hu0, hu1⟩ := randUnit_mem lib r (by rw [hrd]; exact hdraw)
  rw [hpos]
  simp only [Vec3.add_def, Vec3.sub_def, dot]
  refine ⟨by ring, ?_⟩
  have hd0 : 0 ≤ (r.randUnit lib).1 * g.spawnRadius := mul_nonneg hu0 hr
  have hd1 : (r.randUnit lib).1 * g.spawnRadius ≤ g.spawnRadius := by
    calc (r.randUnit lib).1 * g.spawnRadius ≤ 1 * g.spawnRadius :=
          mul_le_mul_of_nonneg_right hu1 hr
      _ = g.spawnRadius := one_mul _
  have hsq : ((r.randUnit lib).1 * g.spawnRadius) ^ 2 ≤ g.spawnRadius ^ 2 :=
    pow_le_pow_left₀ hd0 hd1 2
  have hc := hcirc angle
  have e : (g.position.x + lib.cos angle * ((r.randUnit lib).1 * g.spawnRadius) - g.position.x) *
        (g.position.x + lib.cos angle * ((r.randUnit lib).1 * g.spawnRadius) - g.position.x) +
      (g.position.y + 0 - g.position.y) * (g.position.y + 0 - g.position.y) +
      (g.position.z + lib.sin angle * ((r.randUnit lib).1 * g.spawnRadius) - g.position.z) *
        (g.position.z + lib.sin angle * ((r.randUnit lib).1 * g.spawnRadius) - g.position.z)
      = (lib.sin angle ^ 2 + lib.cos angle ^ 2) * ((r.randUnit lib).1 * g.spawnRadius) ^ 2 := by
    ring
  rw [e]
  calc (lib.sin angle ^ 2 + lib.cos angle ^ 2) * ((r.randUnit lib).1 * g.spawnRadius) ^ 2
      ≤ 1 * ((r.randUnit lib).1 * g.spawnRadius) ^ 2 :=
        mul_le_mul_of_nonneg_right hc (sq_nonneg _)
    _ ≤ g.spawnRadius ^ 2 := by rw [one_mul]; exact hsq

theorem spawnLoop_within (lib : CLib) (g : BubbleGenerator) (n : ℕ) (rng : Rng)
    (hr : 0 ≤ g.spawnRadius) (hdraw : ∀ n, rng.draws n ≤ lib.RAND_MAX)
    (hcirc : ∀ x, lib.sin x ^ 2 + lib.cos x ^ 2 ≤ 1) :
    ∀ b ∈ (g.spawnLoop lib n rng).1,
      b.position.y = g.position.y ∧
      dot (b.position - g.position) (b.position - g.position) ≤ g.spawnRadius ^ 2 := by
  induction n generalizing rng with
  | zero => intro b hb; simp [BubbleGenerator.spawnLoop] at hb
  | succ n ih =>
    intro b hb
    simp only [BubbleGenerator.spawnLoop, List.mem_cons] at hb
    rcases hb with rfl | hb
    · exact spawnOne_within lib g rng hr hdraw hcirc
    · exact ih (g.spawnOne lib rng).2 (by rw [spawnOne_draws]; exact hdraw) b hb

/-- C11: for every spawn radius `r ≥ 0` and random draws in `[0, 1]` (every value
of `rand()` at most `RAND_MAX`), each bubble `BubbleGenerator::update` creates is
placed at the spawner's height and at a distance at most `r` from the spawner's
position (squared distance at most `r ^ 2`), for `sin` and `cos` with
`sin² + cos² ≤ 1`. -/
theorem spawned_bubbles_within_radius (lib : CLib) (rng : Rng) (g : BubbleGenerator) (dt : ℚ)
    (hr : 0 ≤ g.spawnRadius) (hdraw : ∀ n, rng.draws n ≤ lib.RAND_MAX)
    (hcirc : ∀ x, lib.sin x ^ 2 + lib.cos x ^ 2 ≤ 1) :
    ∀ b ∈ (g.update lib rng dt).2.1,
      b.position.y = g.position.y ∧
      dot (b.position - g.position) (b.position - g.position) ≤ g.spawnRadius ^ 2 := by
  intro b hb
  by_cases h : g.spawnRate ≤ g.spawnTimer + dt
  · have hu : (g.update lib rng dt).2.1 =
        (({ g with spawnTimer := 0 } : BubbleGenerator).spawnLoop lib g.bubblesPerSpawn.toNat
          rng).1 := by
      simp [BubbleGenerator.update, h]
    rw [hu] at hb
    exact spawnLoop_within lib { g with spawnTimer := 0 } _ rng hr hdraw hcirc b hb
  · have hu : (g.update lib rng dt).2.1 = [] := by
      simp [BubbleGenerator.update, h]
    rw [hu] at hb
    simp at hb

theorem circleLib_unit (x : ℚ) : circleLib.sin x ^ 2 + circleLib.cos x ^ 2 ≤ 1 := by
  have hpos : (0 : ℚ) < 1 + (x / 2) ^ 2 := by positivity
  have e : circleLib.sin x ^ 2 + circleLib.cos x ^ 2 = 1 := by
    show (2 * (x / 2) / (1 + (x / 2) ^ 2)) ^ 2 + ((1 - (x / 2) ^ 2) / (1 + (x / 2) ^ 2)) ^ 2 = 1
    field_simp
    ring
  exact e.le

theorem sampleRng_draws_le (n : ℕ) : sampleRng.draws n ≤ circleLib.RAND_MAX := by
  show (n * 7919 + 13) % 2147483648 ≤ 2147483647
  omega

/-- Witness of `spawned_bubbles_within_radius`: the constructed generator with
spawn interval 1, updated with `dt = 1`, on the unit-circle library. -/
theorem spawned_bubbles_within_radius_witness :
    0 ≤ (BubbleGenerator.create.setSpawnRate 1).spawnRadius ∧
    (∀ n, sampleRng.draws n ≤ circleLib.RAND_MAX) ∧
    (∀ x, circleLib.sin x ^ 2 + circleLib.cos x ^ 2 ≤ 1) ∧
    ((BubbleGenerator.create.setSpawnRate 1).update circleLib sampleRng 1).2.1.length = 3 ∧
    ∀ b ∈ ((BubbleGenerator.create.setSpawnRate 1).update circleLib sampleRng 1).2.1,
      b.position.y = (BubbleGenerator.create.setSpawnRate 1).position.y ∧
      dot (b.position - (BubbleGenerator.create.setSpawnRate 1).position)
        (b.position - (BubbleGenerator.create.setSpawnRate 1).position) ≤
        (BubbleGenerator.create.setSpawnRate 1).spawnRadius ^ 2 :=
  have hr : 0 ≤ (BubbleGenerator.create.setSpawnRate 1).spawnRadius := by
    norm_num [BubbleGenerator.create, BubbleGenerator.setSpawnRate]
  ⟨hr, sampleRng_draws_le, circleLib_unit,
    (generator_update_spawn circleLib sampleRng (BubbleGenerator.create.setSpawnRate 1) 1
      (by norm_num [BubbleGenerator.create, BubbleGenerator.setSpawnRate])).1,
    spawned_bubbles_within_radius circleLib sampleRng (BubbleGenerator.create.setSpawnRate 1) 1
      hr sampleRng_draws_le circleLib_unit⟩

/-! ## Target-seeking yaw -/

theorem roundHalfEven_intCast (n : ℤ) : roundHalfEven (n : ℚ) = n := by
  simp [roundHalfEven]

theorem roundHalfEven_of_lt (q : ℚ) (f : ℤ) (h1 : (f : ℚ) ≤ q) (h2 : q < f + 1 / 2) :
    roundHalfEven q = f := by
  have hf : ⌊q⌋ = f := Int.floor_eq_iff.mpr ⟨h1, by linarith⟩
  unfold roundHalfEven
  rw [hf, if_pos (by linarith)]

theorem roundHalfEven_of_gt (q : ℚ) (f : ℤ) (h1 : (f : ℚ) + 1 / 2 < q) (h2 : q < f + 1) :
    roundHalfEven q = f + 1 := by
  have hf : ⌊q⌋ = f := Int.floor_eq_iff.mpr ⟨by linarith, h2⟩
  unfold roundHalfEven
  rw [hf, if_neg (by linarith), if_pos (by linarith)]

theorem roundHalfEven_le (q : ℚ) (m : ℤ) (h : q ≤ m) : roundHalfEven q ≤ m := by
  have hfl : (⌊q⌋ : ℚ) ≤ q := Int.floor_le q
  have h1 : ⌊q⌋ ≤ m := by exact_mod_cast hfl.trans h
  have h2 : (1 : ℚ) / 2 ≤ q - ⌊q⌋ → ⌊q⌋ + 1 ≤ m := by
    intro hh
    have : (⌊q⌋ : ℚ) < m := by linarith
    have : ⌊q⌋ < m := by exact_mod_cast this
    omega
  unfold roundHalfEven
  split_ifs with c1 c2 c3
  · exact h1
  · exact h2 c2.le
  · exact h1
  · exact h2 (not_lt.mp c1)

theorem le_roundHalfEven (q : ℚ) (m : ℤ) (h : (m : ℚ) ≤ q) : m ≤ roundHalfEven q := by
  have h1 : m ≤ ⌊q⌋ := Int.le_floor.mpr h
  unfold roundHalfEven
  split_ifs <;> omega

theorem log_two_eq (x : ℚ) (e : ℤ) (h1 : (2 : ℚ) ^ e ≤ x) (h2 : x < 2 ^ (e + 1)) :
    Int.log 2 x = e := by
  have hx : 0 < x := lt_of_lt_of_le (zpow_pos (by norm_num) e) h1
  have a : e ≤ Int.log 2 x := (Int.zpow_le_iff_le_log (by norm_num) hx).mp (by exact_mod_cast h1)
  have b : Int.log 2 x < e + 1 := (Int.lt_zpow_iff_log_lt (by norm_num) hx).mp (by exact_mod_cast h2)
  omega

/-- The rounding of a number in the binade `[2 ^ e, 2 ^ (e + 1))`, positive or
negative. -/
theorem roundFloat32_of_binade (x : ℚ) (e : ℤ) (h1 : (2 : ℚ) ^ e ≤ |x|) (h2 : |x| < 2 ^ (e + 1)) :
    roundFloat32 x = (roundHalfEven (x / 2 ^ (e - 23)) : ℚ) * 2 ^ (e - 23) := by
  have hx : x ≠ 0 := by
    intro h
    rw [h, abs_zero] at h1
    exact absurd h1 (not_le.mpr (zpow_pos (by norm_num) e))
  unfold roundFloat32
  rw [if_neg hx, log_two_eq |x| e h1 h2]

theorem piFloat32_eq : piFloat32 = 13176784 / 2 ^ 22 := by
  unfold piFloat32
  rw [roundFloat32_of_binade _ 1 (by norm_num [abs_of_pos]) (by norm_num [abs_of_pos]),
    roundHalfEven_of_gt _ 13176783 (by norm_num) (by norm_num)]
  norm_num

theorem twoPiFloat32_eq : twoPiFloat32 = 13176784 / 2 ^ 21 := by
  unfold twoPiFloat32
  rw [roundFloat32_of_binade _ 2 (by norm_num [abs_of_pos]) (by norm_num [abs_of_pos]),
    roundHalfEven_of_gt _ 13176783 (by norm_num) (by norm_num)]
  norm_num

/-- Rounding does not leave an interval `[-B, B]` whose end `B` is a binary32
number: `B = m * 2 ^ (eB - 23)` in the binade `[2 ^ eB, 2 ^ (eB + 1))`. -/
theorem roundFloat32_abs_le (x B : ℚ) (eB m : ℤ) (hB1 : (2 : ℚ) ^ eB ≤ B)
    (hB2 : B < 2 ^ (eB + 1)) (hm : B = m * 2 ^ (eB - 23)) (hx : |x| ≤ B) :
    |roundFloat32 x| ≤ B := by
  have hBpos : 0 < B := lt_of_lt_of_le (zpow_pos (by norm_num) eB) hB1
  by_cases hx0 : x = 0
  · rw [hx0]
    simp [roundFloat32, hBpos.le]
  have hpos : 0 < |x| := abs_pos.mpr hx0
  have he1 : (2 : ℚ) ^ Int.log 2 |x| ≤ |x| := by
    have := Int.zpow_log_le_self (b := 2) (by norm_num) hpos
    exact_mod_cast this
  have he2 : |x| < (2 : ℚ) ^ (Int.log 2 |x| + 1) := by
    have := Int.lt_zpow_succ_log_self (b := 2) (by norm_num) |x|
    exact_mod_cast this
  rw [roundFloat32_of_binade x _ he1 he2]
  generalize Int.log 2 |x| = e at he1 he2
  have hu : (0 : ℚ) < 2 ^ (e - 23) := zpow_pos (by norm_num) _
  have hle : e ≤ eB := by
    have h : (2 : ℚ) ^ e < 2 ^ (eB + 1) := lt_of_le_of_lt he1 (lt_of_le_of_lt hx hB2)
    have := (zpow_lt_zpow_iff_right₀ (by norm_num : (1 : ℚ) < 2)).mp h
    omega
  have hsplit : (2 : ℚ) ^ (e + 1) = 16777216 * 2 ^ (e - 23) := by
    have : e + 1 = 24 + (e - 23) := by ring
    rw [this, zpow_add₀ (by norm_num : (2 : ℚ) ≠ 0)]
    norm_num
  have habs : ∀ (k : ℤ), |x| ≤ k * 2 ^ (e - 23) →
      |(roundHalfEven (x / 2 ^ (e - 23)) : ℚ) * 2 ^ (e - 23)| ≤ k * 2 ^ (e - 23) := by
    intro k hk
    obtain ⟨hx1, hx2⟩ := abs_le.mp hk
    have q1 : ((-k : ℤ) : ℚ) ≤ x / 2 ^ (e - 23) := by
      rw [le_div_iff₀ hu]; push_cast; linarith
    have q2 : x / 2 ^ (e - 23) ≤ (k : ℚ) := by
      rw [div_le_iff₀ hu]; exact hx2
    have r1 : -k ≤ roundHalfEven (x / 2 ^ (e - 23)) := le_roundHalfEven _ _ q1
    have r2 : roundHalfEven (x / 2 ^ (e - 23)) ≤ k := roundHalfEven_le _ _ q2
    have r1q : (-(k : ℚ)) ≤ (roundHalfEven (x / 2 ^ (e - 23)) : ℚ) := by exact_mod_cast r1
    have r2q : (roundHalfEven (x / 2 ^ (e - 23)) : ℚ) ≤ (k : ℚ) := by exact_mod_cast r2
    rw [abs_le]
    constructor
    · nlinarith
    · nlinarith
  rcases lt_or_eq_of_le hle with hlt | heq
  · have h1 : |x| ≤ ((16777216 : ℤ) : ℚ) * 2 ^ (e - 23) := by
      push_cast; rw [← hsplit]; exact he2.le
    have h2 := habs 16777216 h1
    have h3 : (2 : ℚ) ^ (e + 1) ≤ 2 ^ eB :=
      zpow_le_zpow_right₀ (by norm_num) (by omega)
    calc _ ≤ ((16777216 : ℤ) : ℚ) * 2 ^ (e - 23) := h2
      _ = 2 ^ (e + 1) := by push_cast; rw [hsplit]
      _ ≤ 2 ^ eB := h3
      _ ≤ B := hB1
  · subst heq
    have h1 : |x| ≤ (m : ℚ) * 2 ^ (e - 23) := by rw [← hm]; exact hx
    have h2 := habs m h1
    rw [hm]; exact h2

theorem wrapDownFloat32_of_le (fuel : ℕ) (y : ℚ) (h : y ≤ piFloat32) :
    wrapDownFloat32 fuel y = some y := by
  cases fuel <;> simp [wrapDownFloat32, not_lt.mpr h]

theorem wrapUpFloat32_of_ge (fuel : ℕ) (y : ℚ) (h : -piFloat32 ≤ y) :
    wrapUpFloat32 fuel y = some y := by
  cases fuel <;> simp [wrapUpFloat32, not_lt.mpr h]

/-- Rounding keeps a number within `[-3.14159f, 3.14159f]`. -/
theorem roundFloat32_abs_le_pi (x : ℚ) (hx : |x| ≤ piFloat32) : |roundFloat32 x| ≤ piFloat32 := by
  rw [piFloat32_eq] at hx ⊢
  exact roundFloat32_abs_le x _ 1 13176784 (by norm_num) (by norm_num) (by norm_num) hx

/-- In binary32 arithmetic, for a difference of magnitude at most three times
`3.14159f` each loop exits after at most one iteration, and the result lies in
`[-3.14159f, 3.14159f]`. -/
theorem normalizeYawFloat32_of_abs_le (fuel : ℕ) (y : ℚ) (hy : |y| ≤ 3 * piFloat32) :
    normalizeYawFloat32 (fuel + 1) y =
      some (if y > piFloat32 then roundFloat32 (y - twoPiFloat32)
        else if y < -piFloat32 then roundFloat32 (y + twoPiFloat32) else y) ∧
    |if y > piFloat32 then roundFloat32 (y - twoPiFloat32)
        else if y < -piFloat32 then roundFloat32 (y + twoPiFloat32) else y| ≤ piFloat32 := by
  obtain ⟨hy1, hy2⟩ := abs_le.mp hy
  have h2 : twoPiFloat32 = 2 * piFloat32 := by
    rw [twoPiFloat32_eq, piFloat32_eq]; norm_num
  have hp : 0 < piFloat32 := by rw [piFloat32_eq]; norm_num
  by_cases c1 : y > piFloat32
  · have hr : |roundFloat32 (y - twoPiFloat32)| ≤ piFloat32 := by
      apply roundFloat32_abs_le_pi
      rw [abs_le]; constructor <;> linarith
    obtain ⟨hr1, hr2⟩ := abs_le.mp hr
    rw [if_pos c1]
    refine ⟨?_, hr⟩
    simp only [normalizeYawFloat32, wrapDownFloat32, if_pos c1]
    rw [wrapDownFloat32_of_le _ _ hr2]
    simp only [Option.some_bind]
    exact wrapUpFloat32_of_ge _ _ hr1
  · rw [if_neg c1]
    have c1le : y ≤ piFloat32 := not_lt.mp c1
    by_cases c2 : y < -piFloat32
    · have hr : |roundFloat32 (y + twoPiFloat32)| ≤ piFloat32 := by
        apply roundFloat32_abs_le_pi
        rw [abs_le]; constructor <;> linarith
      obtain ⟨hr1, hr2⟩ := abs_le.mp hr
      rw [if_pos c2]
      refine ⟨?_, hr⟩
      simp only [normalizeYawFloat32]
      rw [wrapDownFloat32_of_le _ _ c1le]
      simp only [Option.some_bind, wrapUpFloat32, if_pos c2]
      exact wrapUpFloat32_of_ge _ _ hr1
    · rw [if_neg c2]
      have c2le : -piFloat32 ≤ y := not_lt.mp c2
      refine ⟨?_, abs_le.mpr ⟨c2le, c1le⟩⟩
      simp only [normalizeYawFloat32]
      rw [wrapDownFloat32_of_le _ _ c1le]
      simp only [Option.some_bind]
      exact wrapUpFloat32_of_ge _ _ c2le

/-- In binary32 arithmetic the smoothing can stop short of the target.  With the
turn rate 1.5 of `Fish`, `dt = 1/64`, the target `13176795 / 2 ^ 23` (the
binary32 number nearest to `π/2`) and `currentYaw` twenty units in the last place
below it, the increment `yawDiff * turnSpeed * dt = 30 / 2 ^ 29` is less than
half a unit in the last place of `currentYaw`: the sum rounds back to
`currentYaw`, the step changes nothing, and the gap `20 / 2 ^ 23` is not reduced
by any number of further steps. -/
theorem yawStepFloat32_stalls (fuel : ℕ) :
    roundFloat32 (13176795 / 2 ^ 23 - 13176775 / 2 ^ 23) = 20 / 2 ^ 23 ∧
    yawStepFloat32 (fuel + 1) (3 / 2) (1 / 64) (13176795 / 2 ^ 23) (13176775 / 2 ^ 23) =
      some (13176775 / 2 ^ 23) := by
  have hd : roundFloat32 (13176795 / 2 ^ 23 - 13176775 / 2 ^ 23) = 20 / 2 ^ 23 := by
    rw [roundFloat32_of_binade _ (-19) (by norm_num [abs_of_pos]) (by norm_num [abs_of_pos]),
      roundHalfEven_of_lt _ 10485760 (by norm_num) (by norm_num)]
    norm_num
  have hn : normalizeYawFloat32 (fuel + 1) (20 / 2 ^ 23) = some (20 / 2 ^ 23) := by
    have h := (normalizeYawFloat32_of_abs_le fuel (20 / 2 ^ 23)
      (by rw [piFloat32_eq]; norm_num [abs_of_pos])).1
    rw [h, if_neg (by rw [piFloat32_eq]; norm_num), if_neg (by rw [piFloat32_eq]; norm_num)]
  have hp1 : roundFloat32 (20 / 2 ^ 23 * (3 / 2)) = 30 / 2 ^ 23 := by
    rw [roundFloat32_of_binade _ (-19) (by norm_num [abs_of_pos]) (by norm_num [abs_of_pos]),
      roundHalfEven_of_lt _ 15728640 (by norm_num) (by norm_num)]
    norm_num
  have hp2 : roundFloat32 (30 / 2 ^ 23 * (1 / 64)) = 30 / 2 ^ 29 := by
    rw [roundFloat32_of_binade _ (-25) (by norm_num [abs_of_pos]) (by norm_num [abs_of_pos]),
      roundHalfEven_of_lt _ 15728640 (by norm_num) (by norm_num)]
    norm_num
  have hc : roundFloat32 (13176775 / 2 ^ 23 + 30 / 2 ^ 29) = 13176775 / 2 ^ 23 := by
    rw [roundFloat32_of_binade _ 0 (by norm_num [abs_of_pos]) (by norm_num [abs_of_pos]),
      roundHalfEven_of_lt _ 13176775 (by norm_num) (by norm_num)]
    norm_num
  refine ⟨hd, ?_⟩
  rw [yawStepFloat32, hd, hn, Option.map_some', hp1, hp2, hc]

/-! ## Camera: reset, weights and keyframe times -/

/-- C21: `UnderwaterCamera::resetAnimation` sets the animation time to zero and
the current-segment index to zero and leaves the running flag, the keyframe
list, the position, the target, the up vector and both matrices unchanged. -/
theorem resetAnimation_frame (cam : UnderwaterCamera) :
    cam.resetAnimation.animationTime = 0 ∧ cam.resetAnimation.currentKeyframe = 0 ∧
    cam.resetAnimation.animating = cam.animating ∧
    cam.resetAnimation.keyframes = cam.keyframes ∧
    cam.resetAnimation.position = cam.position ∧ cam.resetAnimation.target = cam.target ∧
    cam.resetAnimation.up = cam.up ∧
    cam.resetAnimation.viewMatrix = cam.viewMatrix ∧
    cam.resetAnimation.projectionMatrix = cam.projectionMatrix :=
  ⟨rfl, rfl, rfl, rfl, rfl, rfl, rfl, rfl, rfl⟩

theorem smoothstep_mem (t : ℚ) (h0 : 0 ≤ t) (h1 : t ≤ 1) :
    0 ≤ smoothstep t ∧ smoothstep t ≤ 1 := by
  unfold smoothstep
  constructor
  · have : 0 ≤ 3 - 2 * t := by linarith
    positivity
  · nlinarith [mul_nonneg (mul_self_nonneg (1 - t)) (by linarith : (0 : ℚ) ≤ 1 + 2 * t)]

theorem mix_one (a b : Vec3) : mix a b 1 = b := by
  ext <;> simp [mix, mixF]

theorem kf_time_strict (kfs : List Keyframe)
    (hs : (kfs.map Keyframe.time).Pairwise (· < ·)) (i j : ℕ) (hij : i < j)
    (hj : j < kfs.length) : (kf kfs i).time < (kf kfs j).time := by
  have hi : i < kfs.length := by omega
  rw [kf_eq_getElem kfs i hi, kf_eq_getElem kfs j hj]
  have := (List.pairwise_iff_getElem.mp hs) i j (by simpa using hi) (by simpa using hj) hij
  simpa using this

theorem pairwise_le_of_lt (kfs : List Keyframe)
    (hs : (kfs.map Keyframe.time).Pairwise (· < ·)) :
    (kfs.map Keyframe.time).Pairwise (· ≤ ·) :=
  hs.imp (fun h => le_of_lt h)

/-- C25 (as amended): for every playing camera with at least two keyframes whose
times are strictly ascending, whose first keyframe's time is neither above zero
nor above the animation time and whose second keyframe's time is not below zero,
and every `dt ≥ 0`, after update the position and the target are
`mix` of the positions (targets) of two consecutive keyframes `i`, `i + 1` with
one weight `w` in `[0, 1]`, that is the convex combination
`(1 - w) * keyframe i + w * keyframe (i + 1)`. -/
theorem camera_pose_convex (lib : CLib) (cam : UnderwaterCamera) (dt : ℚ)
    (ha : cam.animating = true) (h2 : 2 ≤ cam.keyframes.length)
    (hs : (cam.keyframes.map Keyframe.time).Pairwise (· < ·)) (hdt : 0 ≤ dt)
    (hfirst : (kf cam.keyframes 0).time ≤ cam.animationTime)
    (hzero : (kf cam.keyframes 0).time ≤ 0) (hone : 0 ≤ (kf cam.keyframes 1).time) :
    ∃ i w, i + 1 < cam.keyframes.length ∧ 0 ≤ w ∧ w ≤ 1 ∧
      (cam.update lib dt).position =
        mix (kf cam.keyframes i).position (kf cam.keyframes (i + 1)).position w ∧
      (cam.update lib dt).target =
        mix (kf cam.keyframes i).target (kf cam.keyframes (i + 1)).target w := by
  rcases Nat.lt_or_ge (segmentIndex cam (cam.animationTime + dt)) (cam.keyframes.length - 1)
    with hr | hr
  · obtain ⟨-, hp⟩ := update_of_segment lib cam dt ha h2 hr
    obtain ⟨hi, hle, hbefore⟩ := segmentIndex_firstNotBefore cam _ hr
    set i := segmentIndex cam (cam.animationTime + dt) with hidef
    have hlt := kf_time_strict cam.keyframes hs i (i + 1) (Nat.lt_succ_self i) hi
    have hge : (kf cam.keyframes i).time ≤ cam.animationTime + dt := by
      rcases Nat.eq_zero_or_pos i with h0 | hpos
      · rw [h0]; linarith
      · exact le_of_lt (hbefore i hpos (Nat.le_refl i))
    have hd : 0 < (kf cam.keyframes (i + 1)).time - (kf cam.keyframes i).time := by linarith
    have ht0 : 0 ≤ (cam.animationTime + dt - (kf cam.keyframes i).time) /
        ((kf cam.keyframes (i + 1)).time - (kf cam.keyframes i).time) :=
      div_nonneg (by linarith) (le_of_lt hd)
    have ht1 : (cam.animationTime + dt - (kf cam.keyframes i).time) /
        ((kf cam.keyframes (i + 1)).time - (kf cam.keyframes i).time) ≤ 1 :=
      div_le_one_of_le₀ (by linarith) (le_of_lt hd)
    obtain ⟨hw0, hw1⟩ := smoothstep_mem _ ht0 ht1
    exact ⟨i, _, hi, hw0, hw1, congrArg Prod.fst hp, congrArg Prod.snd hp⟩
  · obtain ⟨-, hp⟩ := update_of_loop lib cam dt ha h2 hr
    have hlt := kf_time_strict cam.keyframes hs 0 1 Nat.zero_lt_one (by omega)
    have hd : 0 < (kf cam.keyframes (0 + 1)).time - (kf cam.keyframes 0).time := by
      simpa using hlt
    have ht0 : 0 ≤ (0 - (kf cam.keyframes 0).time) /
        ((kf cam.keyframes (0 + 1)).time - (kf cam.keyframes 0).time) :=
      div_nonneg (by linarith) (le_of_lt hd)
    have ht1 : (0 - (kf cam.keyframes 0).time) /
        ((kf cam.keyframes (0 + 1)).time - (kf cam.keyframes 0).time) ≤ 1 :=
      div_le_one_of_le₀ (by simpa using hone) (le_of_lt hd)
    obtain ⟨hw0, hw1⟩ := smoothstep_mem _ ht0 ht1
    exact ⟨0, _, by omega, hw0, hw1, congrArg Prod.fst hp, congrArg Prod.snd hp⟩

/-- Witness of `camera_pose_convex`: the sample camera (keyframes at `t = 0` and
`t = 10`) advanced by 4 from animation time 0. -/
theorem camera_pose_convex_witness :
    sampleCamera.animating = true ∧ 2 ≤ sampleCamera.keyframes.length ∧
    (sampleCamera.keyframes.map Keyframe.time).Pairwise (· < ·) ∧ (0 : ℚ) ≤ 4 ∧
    (kf sampleCamera.keyframes 0).time ≤ sampleCamera.animationTime ∧
    ∃ i w, i + 1 < sampleCamera.keyframes.length ∧ 0 ≤ w ∧ w ≤ 1 ∧
      (sampleCamera.update sampleLib 4).position =
        mix (kf sampleCamera.keyframes i).position (kf sampleCamera.keyframes (i + 1)).position w ∧
      (sampleCamera.update sampleLib 4).target =
        mix (kf sampleCamera.keyframes i).target (kf sampleCamera.keyframes (i + 1)).target w :=
  have hs : (sampleCamera.keyframes.map Keyframe.time).Pairwise (· < ·) := by
    rw [sampleCamera_keyframes]; simp
  have hf : (kf sampleCamera.keyframes 0).time ≤ sampleCamera.animationTime := by
    rw [sampleCamera_keyframes]
    norm_num [kf, sampleCamera, twoKeyCamera, cameraOf, UnderwaterCamera.addKeyframe,
      UnderwaterCamera.create]
  ⟨rfl, by rw [sampleCamera_keyframes]; simp, hs, by norm_num, hf,
    camera_pose_convex sampleLib sampleCamera 4 rfl (by rw [sampleCamera_keyframes]; simp) hs
      (by norm_num) hf (by rw [sampleCamera_keyframes]; simp [kf])
      (by rw [sampleCamera_keyframes]; simp [kf])⟩

/-- C25 (as stated) fails: the playing camera with keyframes at `t = 5`
(position `(0,0,0)`) and `t = 10` (position `(10,0,0)`), strictly ascending, at
animation time 0 and advanced by `dt = 2`, has local parameter `-3/5` and weight
`189/125 > 1`; its position `(378/25, 0, 0)` is no `mix` with a weight in
`[0, 1]` of the positions of any two keyframes. -/
theorem camera_weight_outside_unit :
    lateStartCamera.animating = true ∧ 2 ≤ lateStartCamera.keyframes.length ∧
    (lateStartCamera.keyframes.map Keyframe.time).Pairwise (· < ·) ∧ (0 : ℚ) ≤ 2 ∧
    localParam lateStartCamera.keyframes 0 (lateStartCamera.animationTime + 2) = -(3 / 5) ∧
    smoothstep (-(3 / 5)) = 189 / 125 ∧
    (lateStartCamera.update sampleLib 2).position = ⟨378 / 25, 0, 0⟩ ∧
    ∀ i j w, 0 ≤ w → w ≤ 1 →
      (lateStartCamera.update sampleLib 2).position ≠
        mix (kf lateStartCamera.keyframes i).position
          (kf lateStartCamera.keyframes j).position w := by
  have hp : (lateStartCamera.update sampleLib 2).position = ⟨378 / 25, 0, 0⟩ := by
    norm_num [lateStartCamera, UnderwaterCamera.update,
      UnderwaterCamera.interpolateKeyframes, cameraOf,
      UnderwaterCamera.addKeyframe, UnderwaterCamera.create, scanSegment, kf, mix, mixF]
  have hx : ∀ i, 0 ≤ (kf lateStartCamera.keyframes i).position.x ∧
      (kf lateStartCamera.keyframes i).position.x ≤ 10 := by
    intro i
    rw [lateStartCamera_keyframes]
    rcases i with _ | _ | i
    · norm_num [kf]
    · norm_num [kf]
    · simp [kf]; exact ⟨le_refl _, by norm_num [default]⟩
  refine ⟨rfl, by rw [lateStartCamera_keyframes]; simp, ?_, by norm_num, ?_, ?_, hp, ?_⟩
  · rw [lateStartCamera_keyframes]; norm_num
  · rw [lateStartCamera_keyframes]
    norm_num [localParam, kf, lateStartCamera, cameraOf, UnderwaterCamera.addKeyframe,
      UnderwaterCamera.create]
  · norm_num [smoothstep]
  · intro i j w hw0 hw1 h
    rw [hp] at h
    have hxx := congrArg Vec3.x h
    simp only [mix, mixF] at hxx
    obtain ⟨-, hi⟩ := hx i
    obtain ⟨-, hj⟩ := hx j
    nlinarith [mul_le_mul_of_nonneg_right hi (by linarith : (0 : ℚ) ≤ 1 - w),
      mul_le_mul_of_nonneg_right hj hw0]

/-- C26: for a playing camera with at least two keyframes with strictly
ascending times, when the advanced animation time equals exactly the time of
keyframe `k` (first, interior or last), the position and target after update
are keyframe `k`'s position and target. -/
theorem camera_pose_at_keyframe (lib : CLib) (cam : UnderwaterCamera) (dt : ℚ) (k : ℕ)
    (ha : cam.animating = true) (h2 : 2 ≤ cam.keyframes.length)
    (hs : (cam.keyframes.map Keyframe.time).Pairwise (· < ·))
    (hk : k < cam.keyframes.length)
    (hT : cam.animationTime + dt = (kf cam.keyframes k).time) :
    (cam.update lib dt).position = (kf cam.keyframes k).position ∧
    (cam.update lib dt).target = (kf cam.keyframes k).target := by
  have hle : cam.animationTime + dt ≤ lastTime cam.keyframes := by
    rw [hT]; exact kf_time_le_last cam.keyframes (pairwise_le_of_lt _ hs) k hk
  have hr := segmentIndex_lt_of_le_last cam _ h2 hle
  obtain ⟨-, hp⟩ := update_of_segment lib cam dt ha h2 hr
  obtain ⟨hi, hnb, hbefore⟩ := segmentIndex_firstNotBefore cam _ hr
  set i := segmentIndex cam (cam.animationTime + dt) with hidef
  have hik : i < k ∨ k = 0 := by
    by_contra hc
    push_neg at hc
    have := hbefore k (Nat.pos_of_ne_zero hc.2) hc.1
    linarith
  rcases Nat.eq_zero_or_pos k with hk0 | hkpos
  · have hi0 : i = 0 := by
      by_contra hne
      have h1 := hbefore 1 (Nat.le_refl 1) (Nat.pos_of_ne_zero hne)
      have h01 := kf_time_strict cam.keyframes hs 0 1 Nat.zero_lt_one (by omega)
      rw [hT, hk0] at h1
      linarith
    rw [hi0, hT, hk0] at hp
    simp only [segmentPose, sub_self, zero_div, smoothstep, mul_zero, zero_mul, mix_zero] at hp
    rw [hk0]
    exact ⟨congrArg Prod.fst hp, congrArg Prod.snd hp⟩
  · have hik' : i < k := by omega
    have hki : k = i + 1 := by
      by_contra hne
      have hlt : i + 1 < k := by omega
      have := kf_time_strict cam.keyframes hs (i + 1) k hlt hk
      rw [hT] at hnb
      linarith
    have hlt := kf_time_strict cam.keyframes hs i (i + 1) (Nat.lt_succ_self i) hi
    have hd : (kf cam.keyframes (i + 1)).time - (kf cam.keyframes i).time ≠ 0 := by
      intro h; linarith
    rw [hT, hki] at hp
    simp only [segmentPose, div_self hd, smoothstep] at hp
    norm_num [mix_one] at hp
    rw [hki]
    exact ⟨hp.1, hp.2⟩

/-- Witness of `camera_pose_at_keyframe`: the sample camera advanced by 10 from
animation time 0 reaches its last keyframe, at `t = 10` with position
`(10,0,0)`. -/
theorem camera_pose_at_keyframe_witness :
    sampleCamera.animating = true ∧ 2 ≤ sampleCamera.keyframes.length ∧
    (sampleCamera.keyframes.map Keyframe.time).Pairwise (· < ·) ∧
    1 < sampleCamera.keyframes.length ∧
    sampleCamera.animationTime + 10 = (kf sampleCamera.keyframes 1).time ∧
    (sampleCamera.update sampleLib 10).position = (kf sampleCamera.keyframes 1).position ∧
    (sampleCamera.update sampleLib 10).target = (kf sampleCamera.keyframes 1).target :=
  have hs : (sampleCamera.keyframes.map Keyframe.time).Pairwise (· < ·) := by
    rw [sampleCamera_keyframes]; simp
  have hT : sampleCamera.animationTime + 10 = (kf sampleCamera.keyframes 1).time := by
    rw [sampleCamera_keyframes]
    norm_num [kf, sampleCamera, twoKeyCamera, cameraOf, UnderwaterCamera.addKeyframe,
      UnderwaterCamera.create]
  ⟨rfl, by rw [sampleCamera_keyframes]; simp, hs, by rw [sampleCamera_keyframes]; simp, hT,
    camera_pose_at_keyframe sampleLib sampleCamera 10 1 rfl
      (by rw [sampleCamera_keyframes]; simp) hs (by rw [sampleCamera_keyframes]; simp) hT⟩

/-! ## Bubbles: size, batches and the declared maximum -/

/-- C27: for every bubble and every size `s` given to `setSize`, after one
update that returns true the scale is `0.1 * (1 + 0.02 * age)` in every
component, with `age` the age after the update (`old age + dt`); it is the same
for every other size `s2`. -/
theorem bubble_scale_ignores_size (lib : CLib) (gmm : UnderwaterObject → Mat4) (b : Bubble)
    (s dt : ℚ) (hret : ((b.setSize s).update lib gmm dt).2 = true) :
    ((b.setSize s).update lib gmm dt).1.scale =
      Vec3.splat (1 / 10 * (1 + ((b.setSize s).update lib gmm dt).1.age * (2 / 100))) ∧
    ((b.setSize s).update lib gmm dt).1.age = b.age + dt ∧
    ∀ s2, ((b.setSize s2).update lib gmm dt).1.scale = ((b.setSize s).update lib gmm dt).1.scale := by
  by_cases h : b.age + dt > b.lifetime ∨ b.position.y > 5
  · exfalso
    have hu : ((b.setSize s).update lib gmm dt).2 = false := by
      simp only [Bubble.update, Bubble.setSize]
      rw [if_pos h]
    rw [hu] at hret
    exact Bool.noConfusion hret
  · refine ⟨?_, ?_, ?_⟩
    · simp only [Bubble.update, Bubble.setSize]
      rw [if_neg h]
      dsimp only
      split_ifs <;> rfl
    · simp only [Bubble.update, Bubble.setSize]
      rw [if_neg h]
      dsimp only
      split_ifs <;> rfl
    · intro s2
      simp only [Bubble.update, Bubble.setSize]
      rw [if_neg h]
      dsimp only
      split_ifs <;> rfl

/-- Witness of `bubble_scale_ignores_size`: a fresh bubble given size 1/5 and
updated with `dt = 1` has scale `0.1 * 1.02` in every component. -/
theorem bubble_scale_ignores_size_witness :
    (((Bubble.create sampleLib sampleRng).1.setSize (1 / 5)).update sampleLib
      sampleModelMatrix 1).2 = true ∧
    (((Bubble.create sampleLib sampleRng).1.setSize (1 / 5)).update sampleLib
      sampleModelMatrix 1).1.scale = Vec3.splat (51 / 500) :=
  have hret : (((Bubble.create sampleLib sampleRng).1.setSize (1 / 5)).update sampleLib
      sampleModelMatrix 1).2 = true := by
    norm_num [Bubble.update, Bubble.setSize, Bubble.create]
  have h := bubble_scale_ignores_size sampleLib sampleModelMatrix
    (Bubble.create sampleLib sampleRng).1 (1 / 5) 1 hret
  ⟨hret, by
    rw [h.1, h.2.1]
    norm_num [Bubble.create]⟩

/-- C28: for a generator with `spawnRate > 0`, `0 ≤ spawnTimer` (in particular
`0 ≤ spawnTimer < spawnRate`) and `dt ≥ 0`, one update pushes exactly one batch (`bubblesPerSpawn` bubbles, none
for a negative count) and sets the timer to 0 if `spawnTimer + dt ≥ spawnRate`,
and otherwise pushes nothing and sets the timer to `spawnTimer + dt`; so
`0 ≤ spawnTimer < spawnRate` still holds afterwards and no update pushes more
than one batch, whatever `dt` is. -/
theorem generator_one_batch (lib : CLib) (rng : Rng) (g : BubbleGenerator) (dt : ℚ)
    (hrate : 0 < g.spawnRate) (h0 : 0 ≤ g.spawnTimer) (hdt : 0 ≤ dt) :
    (g.spawnTimer + dt ≥ g.spawnRate →
      (g.update lib rng dt).2.1.length = g.bubblesPerSpawn.toNat ∧
      (0 ≤ g.bubblesPerSpawn → ((g.update lib rng dt).2.1.length : ℤ) = g.bubblesPerSpawn) ∧
      (g.update lib rng dt).1.spawnTimer = 0) ∧
    (g.spawnTimer + dt < g.spawnRate →
      (g.update lib rng dt).2.1 = [] ∧
      (g.update lib rng dt).1.spawnTimer = g.spawnTimer + dt) ∧
    (g.update lib rng dt).1.spawnRate = g.spawnRate ∧
    (g.update lib rng dt).1.bubblesPerSpawn = g.bubblesPerSpawn ∧
    0 ≤ (g.update lib rng dt).1.spawnTimer ∧
    (g.update lib rng dt).1.spawnTimer < (g.update lib rng dt).1.spawnRate ∧
    (g.update lib rng dt).2.1.length ≤ g.bubblesPerSpawn.toNat := by
  rcases le_or_lt g.spawnRate (g.spawnTimer + dt) with h | h
  · obtain ⟨hl, ht⟩ := generator_update_spawn lib rng g dt h
    have hr : (g.update lib rng dt).1.spawnRate = g.spawnRate := by
      simp [BubbleGenerator.update, h]
    have hb : (g.update lib rng dt).1.bubblesPerSpawn = g.bubblesPerSpawn := by
      simp [BubbleGenerator.update, h]
    refine ⟨fun _ => ⟨hl, fun hn => ?_, ht⟩, fun hlt => absurd h (not_le.mpr hlt), hr, hb, ?_, ?_,
      le_of_eq hl⟩
    · rw [hl]; exact Int.toNat_of_nonneg hn
    · rw [ht]
    · rw [ht, hr]; exact hrate
  · have hu := generator_update_wait lib rng g dt h
    rw [hu]
    refine ⟨fun hge => absurd hge (not_le.mpr h), fun _ => ⟨rfl, rfl⟩, rfl, rfl, ?_, h, ?_⟩
    · show 0 ≤ g.spawnTimer + dt
      linarith
    · simp

/-- Witness of `generator_one_batch`: the default generator (interval 0.05,
three bubbles per spawn) updated with `dt = 10` pushes three bubbles, one batch,
and resets its timer. -/
theorem generator_one_batch_witness :
    (0 : ℚ) < BubbleGenerator.create.spawnRate ∧ (0 : ℚ) ≤ BubbleGenerator.create.spawnTimer ∧
    BubbleGenerator.create.spawnTimer < BubbleGenerator.create.spawnRate ∧ (0 : ℚ) ≤ 10 ∧
    (BubbleGenerator.create.update sampleLib sampleRng 10).2.1.length = 3 ∧
    (BubbleGenerator.create.update sampleLib sampleRng 10).1.spawnTimer = 0 :=
  have hrate : (0 : ℚ) < BubbleGenerator.create.spawnRate := by
    norm_num [BubbleGenerator.create]
  have h0 : (0 : ℚ) ≤ BubbleGenerator.create.spawnTimer := by
    norm_num [BubbleGenerator.create]
  have h1 : BubbleGenerator.create.spawnTimer < BubbleGenerator.create.spawnRate := by
    norm_num [BubbleGenerator.create]
  have h := (generator_one_batch sampleLib sampleRng BubbleGenerator.create 10 hrate h0
    (by norm_num)).1 (by norm_num [BubbleGenerator.create])
  ⟨hrate, h0, h1, by norm_num, h.1, h.2.2⟩

/-- C24 (code bug): `maxBubbles` is declared as the maximum number of bubbles in
the scene and keeps its value 5000, but `BubbleGenerator::update` never reads
it: the generator set to 5001 bubbles per spawn pushes 5001 bubbles to the
scene in one update with `dt = 0.05`, for any `rand()` stream; and in general an
update that reaches the spawn interval pushes `bubblesPerSpawn` bubbles whatever
`maxBubbles` is. -/
theorem generator_ignores_maxBubbles :
    largeBatchGenerator.maxBubbles = 5000 ∧
    (∀ (lib : CLib) (rng : Rng),
      ((largeBatchGenerator.update lib rng (5 / 100)).2.1.length : ℤ) = 5001 ∧
      ((largeBatchGenerator.update lib rng (5 / 100)).2.1.length : ℤ) >
        largeBatchGenerator.maxBubbles ∧
      (largeBatchGenerator.update lib rng (5 / 100)).1.maxBubbles = 5000) ∧
    (∀ (lib : CLib) (rng : Rng) (g : BubbleGenerator) (dt : ℚ) (m : ℤ),
      g.spawnRate ≤ g.spawnTimer + dt →
      (({ g with maxBubbles := m } : BubbleGenerator).update lib rng dt).2.1.length =
        g.bubblesPerSpawn.toNat) := by
  have hspawn : largeBatchGenerator.spawnRate ≤ largeBatchGenerator.spawnTimer + 5 / 100 := by
    norm_num [largeBatchGenerator, BubbleGenerator.create, BubbleGenerator.setBubblesPerSpawn]
  refine ⟨rfl, fun lib rng => ?_, fun lib rng g dt m h => ?_⟩
  · have hl := (generator_update_spawn lib rng largeBatchGenerator (5 / 100) hspawn).1
    have hn : largeBatchGenerator.bubblesPerSpawn.toNat = 5001 := by
      simp [largeBatchGenerator, BubbleGenerator.create, BubbleGenerator.setBubblesPerSpawn]
    have hm : (largeBatchGenerator.update lib rng (5 / 100)).1.maxBubbles = 5000 := by
      simp [BubbleGenerator.update, hspawn, largeBatchGenerator, BubbleGenerator.create,
        BubbleGenerator.setBubblesPerSpawn]
    rw [hl, hn]
    refine ⟨by norm_num, ?_, hm⟩
    show (5000 : ℤ) < ((5001 : ℕ) : ℤ)
    norm_num
  · exact (generator_update_spawn lib rng { g with maxBubbles := m } dt h).1

/-! ## Rendering state -/

theorem foldl_draw_state (draw : GLState → GLState)
    (hdraw : ∀ s, (draw s).cullFace = s.cullFace ∧ (draw s).blend = s.blend)
    (l : List ℕ) (g : GLState) :
    (l.foldl (fun g _ => draw g) g).cullFace = g.cullFace ∧
    (l.foldl (fun g _ => draw g) g).blend = g.blend := by
  induction l generalizing g with
  | nil => exact ⟨rfl, rfl⟩
  | cons a l ih =>
    rw [List.foldl_cons]
    obtain ⟨h1, h2⟩ := ih (draw g)
    exact ⟨h1.trans (hdraw g).1, h2.trans (hdraw g).2⟩

/-- C20: for every object of each of the twelve classes, if face culling is
enabled and blending is disabled when `render` is entered, they are so when it
returns; the drawing work between the state changes (shader, uniforms, mesh) is
taken to leave the two flags as they are. -/
theorem render_restores_gl_state (draw : GLState → GLState) (o : SceneObject) (g : GLState)
    (hdraw : ∀ s, (draw s).cullFace = s.cullFace ∧ (draw s).blend = s.blend)
    (hc : g.cullFace = true) (hb : g.blend = false) :
    (o.render draw g).cullFace = true ∧ (o.render draw g).blend = false := by
  cases o with
  | skybox k =>
    simp [SceneObject.render, Skybox.render, glEnable, glDisable, glDepthFunc, hdraw, hb]
  | ground k =>
    simp [SceneObject.render, Ground.render, glEnable, glDisable, hdraw, hb]
  | waterSurface w =>
    simp [SceneObject.render, WaterSurface.render, glEnable, glDisable, glBlendFunc, hdraw, hc]
  | fish f => simp [SceneObject.render, Fish.render, hdraw, hc, hb]
  | fish1 f => simp [SceneObject.render, Fish1.render, hdraw, hc, hb]
  | fishFin f => simp [SceneObject.render, FishFin.render, hdraw, hc, hb]
  | seaweed w =>
    simp [SceneObject.render, Seaweed.render, glEnable, glDisable, hdraw, hb]
  | seaweedInstanced w =>
    have h := foldl_draw_state draw hdraw (List.range w.instanceCount)
      (draw (glDisable .GL_CULL_FACE g))
    constructor
    · simp [SceneObject.render, SeaweedInstanced.render, glEnable]
    · have e : ((SceneObject.seaweedInstanced w).render draw g).blend =
          (List.foldl (fun g _ => draw g) (draw (glDisable .GL_CULL_FACE g))
            (List.range w.instanceCount)).blend := rfl
      rw [e, h.2, (hdraw _).2]
      simpa [glDisable] using hb
  | rock r => simp [SceneObject.render, Rock.render, hdraw, hc, hb]
  | jellyfish j =>
    simp [SceneObject.render, Jellyfish.render, glEnable, glDisable, glBlendFunc, hdraw]
  | bubble b =>
    simp [SceneObject.render, Bubble.render, glEnable, glDisable, glBlendFunc, hdraw, hc]
  | bubbleGenerator b => simp [SceneObject.render, BubbleGenerator.render, hc, hb]

/-- Witness of `render_restores_gl_state`: a jellyfish rendered from the state
culling enabled, blending disabled, with drawing work that changes no state. -/
theorem render_restores_gl_state_witness :
    (∀ s : GLState, (id s).cullFace = s.cullFace ∧ (id s).blend = s.blend) ∧
    opaqueGLState.cullFace = true ∧ opaqueGLState.blend = false ∧
    ((SceneObject.jellyfish pausedJellyfish).render id opaqueGLState).cullFace = true ∧
    ((SceneObject.jellyfish pausedJellyfish).render id opaqueGLState).blend = false :=
  ⟨fun _ => ⟨rfl, rfl⟩, rfl, rfl,
    render_restores_gl_state id (SceneObject.jellyfish pausedJellyfish) opaqueGLState
      (fun _ => ⟨rfl, rfl⟩) rfl rfl⟩

/-! ## Pause -/

theorem pausedJellyfish_update (gmm : UnderwaterObject → Mat4) :
    (pausedJellyfish.update sampleLib gmm 0).position = ⟨0, 0, 1 / 100⟩ ∧
    (pausedJellyfish.update sampleLib gmm 0).verticalVelocity = 23 / 25 := by
  constructor
  · norm_num [Jellyfish.update, pausedJellyfish, sampleLib, glmClamp, glmMin]
  · norm_num [Jellyfish.update, pausedJellyfish, sampleLib, glmClamp, glmMin]

/-- C18 (code bug): `UnderwaterScene::update` with `dt = 0` does not freeze a
jellyfish.  For the scene holding one jellyfish at the origin with pulse phase 0
and vertical velocity 1, the call finishes and keeps the jellyfish, whose
position is then `(0, 0, 0.01)` and whose vertical velocity is `0.92`:
`Jellyfish::update` adds `cos(pulsePhase * 0.25) * 0.01` to `position.z` and
multiplies the velocity by the drag factor without a factor `dt`. -/
theorem pause_moves_jellyfish :
    pausedJellyfish.position = ⟨0, 0, 0⟩ ∧ pausedJellyfish.verticalVelocity = 1 ∧
    ∃ out rng2 log gmm,
      jellyScene.update (sceneClass sampleLib) sampleLib 1 sampleRng 0 = some (out, rng2, log) ∧
      out.objects = [.jellyfish (pausedJellyfish.update sampleLib gmm 0)] ∧
      (pausedJellyfish.update sampleLib gmm 0).position = ⟨0, 0, 1 / 100⟩ ∧
      (pausedJellyfish.update sampleLib gmm 0).verticalVelocity = 23 / 25 ∧
      (pausedJellyfish.update sampleLib gmm 0).position ≠ pausedJellyfish.position :=
  ⟨rfl, rfl, _, _, _, _, rfl, rfl, (pausedJellyfish_update _).1, (pausedJellyfish_update _).2, by
    rw [(pausedJellyfish_update _).1]
    intro h
    have := congrArg Vec3.z h
    norm_num [pausedJellyfish] at this⟩

/-! ## Target-seeking yaw: the normalisation loops -/

theorem fish_chooseTarget_far (lib : CLib) (rng : Rng) (f : Fish)
    (hfire : f.timeUntilNextTurn ≤ f.timeSinceLastTurn)
    (hfar : length lib (f.schoolCenter - f.position) > f.schoolRadius) :
    (f.chooseTarget lib rng).1.targetYaw =
      lib.atan2 (f.schoolCenter - f.position).x (f.schoolCenter - f.position).z := by
  simp only [Fish.chooseTarget, ge_iff_le, if_pos hfire]
  rw [if_pos hfar]

theorem fish_chooseTarget_near (lib : CLib) (rng : Rng) (f : Fish)
    (hfire : f.timeUntilNextTurn ≤ f.timeSinceLastTurn)
    (hnear : ¬ length lib (f.schoolCenter - f.position) > f.schoolRadius) :
    (f.chooseTarget lib rng).1.targetYaw =
      f.currentYaw + (((rng.randUnit lib).2.randUnit lib).1 - 5 / 10) * 2 := by
  simp only [Fish.chooseTarget, ge_iff_le, if_pos hfire]
  rw [if_neg hnear]

theorem fish1_chooseTarget_far (lib : CLib) (rng : Rng) (f : Fish1)
    (hfire : f.nextTurnTime ≤ f.turnTimer)
    (hfar : length lib (f.schoolCenter - f.position) > f.schoolRadius) :
    (f.chooseTarget lib rng).1.targetYaw =
      lib.atan2 (f.schoolCenter - f.position).x (f.schoolCenter - f.position).z := by
  simp only [Fish1.chooseTarget, ge_iff_le, if_pos hfire]
  rw [if_pos hfar]

theorem fish1_chooseTarget_near (lib : CLib) (rng : Rng) (f : Fish1)
    (hfire : f.nextTurnTime ≤ f.turnTimer)
    (hnear : ¬ length lib (f.schoolCenter - f.position) > f.schoolRadius) :
    (f.chooseTarget lib rng).1.targetYaw =
      f.currentYaw + (((rng.randUnit lib).2.randUnit lib).1 - 5 / 10) * 2 := by
  simp only [Fish1.chooseTarget, ge_iff_le, if_pos hfire]
  rw [if_neg hnear]

/-- The target yaw after `Fish::update` of a fish that does not expire is the
one the target block leaves. -/
theorem fish_update_target (lib : CLib) (gmm : UnderwaterObject → Mat4) (rng : Rng) (f : Fish)
    (dt : ℚ) (hlive : ¬ (f.lifetime > 0 ∧ f.age + dt > f.lifetime)) :
    (f.update lib gmm rng dt).1.targetYaw =
      (({ f with age := f.age + dt, tailPhase := f.tailPhase + f.swimSpeed * dt * 2,
                 timeSinceLastTurn := f.timeSinceLastTurn + dt } : Fish).chooseTarget lib
        rng).1.targetYaw := by
  simp only [Fish.update]
  rw [if_neg hlive]

theorem fish1_update_target (lib : CLib) (gmm : UnderwaterObject → Mat4) (rng : Rng) (f : Fish1)
    (dt : ℚ) :
    (f.update lib gmm rng dt).1.targetYaw =
      (({ f with swimPhase := f.swimPhase + f.speed * dt * 2,
                 turnTimer := f.turnTimer + dt } : Fish1).chooseTarget lib rng).1.targetYaw := by
  simp only [Fish1.update]

theorem heading_of_atan2 (lib : CLib) (ox oz r θ : ℚ)
    (hsqrt : lib.sqrt (ox * ox + oz * oz) = r)
    (hsin : lib.sin θ = ox / r) (hcos : lib.cos θ = oz / r) :
    (⟨lib.sin θ, 0, lib.cos θ⟩ : Vec3) = normalize lib ⟨ox, 0, oz⟩ := by
  have hd : dot (⟨ox, 0, oz⟩ : Vec3) ⟨ox, 0, oz⟩ = ox * ox + oz * oz := by
    simp [dot]
  rw [normalize, hd, hsqrt, Vec3.mul_def, hsin, hcos]
  ext <;> simp [div_eq_mul_inv]

theorem perturbation_le_one (u : ℚ) (h0 : 0 ≤ u) (h1 : u ≤ 1) (c : ℚ) :
    |c + (u - 5 / 10) * 2 - c| ≤ 1 := by
  rw [abs_le]; constructor <;> linarith

/-- C23: when `Fish::update` (of a fish that does not expire) or
`Fish1::update` chooses a new target, with `o = schoolCenter - position`:
if the distance `length o` exceeds the school radius, the new target yaw `θ` is
`atan2(o.x, o.z)`, and where `atan2`, `sin`, `cos` and `sqrt` are exact at this
input (`sqrt (o.x² + o.z²) = r > 0`, `sin θ = o.x / r`, `cos θ = o.z / r`) the
heading `(sin θ, 0, cos θ)` is the normalised horizontal offset
`normalize (o.x, 0, o.z)`; if the distance does not exceed the radius, the new
target yaw differs from `currentYaw` by at most 1. -/
theorem fish_new_target (lib : CLib) (gmm : UnderwaterObject → Mat4) (rng : Rng) (dt : ℚ)
    (hdraws : ∀ n, rng.draws n ≤ lib.RAND_MAX) :
    (∀ f : Fish, ¬ (f.lifetime > 0 ∧ f.age + dt > f.lifetime) →
      f.timeUntilNextTurn ≤ f.timeSinceLastTurn + dt →
      (length lib (f.schoolCenter - f.position) > f.schoolRadius →
        (f.update lib gmm rng dt).1.targetYaw =
          lib.atan2 (f.schoolCenter - f.position).x (f.schoolCenter - f.position).z ∧
        ∀ r, 0 < r →
          lib.sqrt ((f.schoolCenter - f.position).x * (f.schoolCenter - f.position).x +
            (f.schoolCenter - f.position).z * (f.schoolCenter - f.position).z) = r →
          lib.sin (lib.atan2 (f.schoolCenter - f.position).x (f.schoolCenter - f.position).z) =
            (f.schoolCenter - f.position).x / r →
          lib.cos (lib.atan2 (f.schoolCenter - f.position).x (f.schoolCenter - f.position).z) =
            (f.schoolCenter - f.position).z / r →
          (⟨lib.sin (f.update lib gmm rng dt).1.targetYaw, 0,
            lib.cos (f.update lib gmm rng dt).1.targetYaw⟩ : Vec3) =
            normalize lib ⟨(f.schoolCenter - f.position).x, 0,
              (f.schoolCenter - f.position).z⟩) ∧
      (¬ length lib (f.schoolCenter - f.position) > f.schoolRadius →
        |(f.update lib gmm rng dt).1.targetYaw - f.currentYaw| ≤ 1)) ∧
    (∀ f : Fish1, f.nextTurnTime ≤ f.turnTimer + dt →
      (length lib (f.schoolCenter - f.position) > f.schoolRadius →
        (f.update lib gmm rng dt).1.targetYaw =
          lib.atan2 (f.schoolCenter - f.position).x (f.schoolCenter - f.position).z ∧
        ∀ r, 0 < r →
          lib.sqrt ((f.schoolCenter - f.position).x * (f.schoolCenter - f.position).x +
            (f.schoolCenter - f.position).z * (f.schoolCenter - f.position).z) = r →
          lib.sin (lib.atan2 (f.schoolCenter - f.position).x (f.schoolCenter - f.position).z) =
            (f.schoolCenter - f.position).x / r →
          lib.cos (lib.atan2 (f.schoolCenter - f.position).x (f.schoolCenter - f.position).z) =
            (f.schoolCenter - f.position).z / r →
          (⟨lib.sin (f.update lib gmm rng dt).1.targetYaw, 0,
            lib.cos (f.update lib gmm rng dt).1.targetYaw⟩ : Vec3) =
            normalize lib ⟨(f.schoolCenter - f.position).x, 0,
              (f.schoolCenter - f.position).z⟩) ∧
      (¬ length lib (f.schoolCenter - f.position) > f.schoolRadius →
        |(f.update lib gmm rng dt).1.targetYaw - f.currentYaw| ≤ 1)) := by
  have hu := randUnit_mem lib (rng.randUnit lib).2 (by rw [randUnit_draws]; exact hdraws)
  constructor
  · intro f hlive hfire
    constructor
    · intro hfar
      have ht := (fish_update_target lib gmm rng f dt hlive).trans
        (fish_chooseTarget_far lib rng _ hfire hfar)
      refine ⟨ht, fun r _ hsqrt hsin hcos => ?_⟩
      rw [ht]
      exact heading_of_atan2 lib _ _ r _ hsqrt hsin hcos
    · intro hnear
      have ht := (fish_update_target lib gmm rng f dt hlive).trans
        (fish_chooseTarget_near lib rng _ hfire hnear)
      rw [ht]
      exact perturbation_le_one _ hu.1 hu.2 _
  · intro f hfire
    constructor
    · intro hfar
      have ht := (fish1_update_target lib gmm rng f dt).trans
        (fish1_chooseTarget_far lib rng _ hfire hfar)
      refine ⟨ht, fun r _ hsqrt hsin hcos => ?_⟩
      rw [ht]
      exact heading_of_atan2 lib _ _ r _ hsqrt hsin hcos
    · intro hnear
      have ht := (fish1_update_target lib gmm rng f dt).trans
        (fish1_chooseTarget_near lib rng _ hfire hnear)
      rw [ht]
      exact perturbation_le_one _ hu.1 hu.2 _

theorem headingLib_sqrt_2500 : headingLib.sqrt (30 * 30 + 40 * 40) = 50 := by
  have h := sampleLib_sqrt_sq 50
  have e : (30 * 30 + 40 * 40 : ℚ) = ((50 : ℕ) : ℚ) * ((50 : ℕ) : ℚ) := by norm_num
  rw [e]
  exact h

/-- Witness of `fish_new_target`: the fish at the origin with school centre
`(30, 0, 40)`, at distance 50 beyond the radius 15, turns to the heading
`(3/5, 0, 4/5)`, the normalised offset. -/
theorem fish_new_target_witness :
    (∀ n, sampleRng.draws n ≤ headingLib.RAND_MAX) ∧
    ¬ (homingFish.lifetime > 0 ∧ homingFish.age + 0 > homingFish.lifetime) ∧
    homingFish.timeUntilNextTurn ≤ homingFish.timeSinceLastTurn + 0 ∧
    length headingLib (homingFish.schoolCenter - homingFish.position) > homingFish.schoolRadius ∧
    (⟨headingLib.sin (homingFish.update headingLib sampleModelMatrix sampleRng 0).1.targetYaw, 0,
      headingLib.cos (homingFish.update headingLib sampleModelMatrix sampleRng 0).1.targetYaw⟩ :
      Vec3) = normalize headingLib ⟨30, 0, 40⟩ ∧
    normalize headingLib ⟨30, 0, 40⟩ = ⟨3 / 5, 0, 4 / 5⟩ :=
  have hd : ∀ n, sampleRng.draws n ≤ headingLib.RAND_MAX := sampleRng_draws_le
  have hlive : ¬ (homingFish.lifetime > 0 ∧ homingFish.age + 0 > homingFish.lifetime) := by
    norm_num [homingFish]
  have hfire : homingFish.timeUntilNextTurn ≤ homingFish.timeSinceLastTurn + 0 := by
    norm_num [homingFish]
  have ho : homingFish.schoolCenter - homingFish.position = ⟨30, 0, 40⟩ := by
    rw [Vec3.sub_def]; norm_num [homingFish]
  have hlen : length headingLib (homingFish.schoolCenter - homingFish.position) = 50 := by
    rw [ho, length]
    have e : dot (⟨30, 0, 40⟩ : Vec3) ⟨30, 0, 40⟩ = 30 * 30 + 40 * 40 := by norm_num [dot]
    rw [e, headingLib_sqrt_2500]
  have hfar : length headingLib (homingFish.schoolCenter - homingFish.position) >
      homingFish.schoolRadius := by
    rw [hlen]; norm_num [homingFish]
  have hat : headingLib.atan2 30 40 = 2 / 3 := by
    show 2 * ((30 : ℚ) / (headingLib.sqrt (40 * 40 + 30 * 30) + 40)) = 2 / 3
    rw [show (40 * 40 + 30 * 30 : ℚ) = 30 * 30 + 40 * 40 by norm_num, headingLib_sqrt_2500]
    norm_num
  have hn : normalize headingLib ⟨30, 0, 40⟩ = ⟨3 / 5, 0, 4 / 5⟩ := by
    rw [normalize]
    have e : dot (⟨30, 0, 40⟩ : Vec3) ⟨30, 0, 40⟩ = 30 * 30 + 40 * 40 := by norm_num [dot]
    rw [e, headingLib_sqrt_2500, Vec3.mul_def]
    norm_num
  have h := ((fish_new_target headingLib sampleModelMatrix sampleRng 0 hd).1 homingFish hlive
    hfire).1 hfar
  ⟨hd, hlive, hfire, hfar, by
    have h2 := h.2 50 (by norm_num)
      (by rw [ho]; exact headingLib_sqrt_2500)
      (by rw [ho]; show headingLib.sin (headingLib.atan2 30 40) = 30 / 50
          rw [hat]; norm_num [headingLib, circleLib])
      (by rw [ho]; show headingLib.cos (headingLib.atan2 30 40) = 40 / 50
          rw [hat]; norm_num [headingLib, circleLib])
    rw [ho] at h2
    exact h2, hn⟩

/-! ## Scene manager: objects spawned during the pass -/

theorem bubble_update_age (lib : CLib) (gmm : UnderwaterObject → Mat4) (b : Bubble) (dt : ℚ) :
    (b.update lib gmm dt).1.age = b.age + dt := by
  simp only [Bubble.update]
  split_ifs <;> rfl

theorem bubble_update_rise (lib : CLib) (gmm : UnderwaterObject → Mat4) (b : Bubble) (dt : ℚ)
    (hk : (b.update lib gmm dt).2 = true) :
    (b.update lib gmm dt).1.position.y = b.position.y + b.riseSpeed * dt := by
  by_cases h : b.age + dt > b.lifetime ∨ b.position.y > 5
  · have hu : (b.update lib gmm dt).2 = false := by
      simp only [Bubble.update]
      rw [if_pos h]
    rw [hu] at hk
    exact Bool.noConfusion hk
  · simp only [Bubble.update]
    rw [if_neg h]
    dsimp only
    split_ifs <;> rfl

theorem spawnOne_age (lib : CLib) (g : BubbleGenerator) (rng : Rng) :
    (g.spawnOne lib rng).1.age = 0 := rfl

theorem spawnLoop_age (lib : CLib) (g : BubbleGenerator) (n : ℕ) (rng : Rng) :
    ∀ b ∈ (g.spawnLoop lib n rng).1, b.age = 0 := by
  induction n generalizing rng with
  | zero => intro b hb; simp [BubbleGenerator.spawnLoop] at hb
  | succ n ih =>
    intro b hb
    simp only [BubbleGenerator.spawnLoop, List.mem_cons] at hb
    rcases hb with rfl | hb
    · exact spawnOne_age lib g rng
    · exact ih _ b hb

theorem generator_update_age (lib : CLib) (rng : Rng) (g : BubbleGenerator) (dt : ℚ) :
    ∀ b ∈ (g.update lib rng dt).2.1, b.age = 0 := by
  intro b hb
  simp only [BubbleGenerator.update] at hb
  split_ifs at hb
  · exact spawnLoop_age lib _ _ _ b hb
  · simp at hb

/-- Only the bubble generator appends to the scene, and what it appends are
bubbles of age 0. -/
theorem scene_spawned_bubble (lib : CLib) (rng : Rng) (sc : UnderwaterScene SceneObject)
    (dt : ℚ) (o c : SceneObject) (hc : c ∈ ((sceneClass lib).update rng sc dt o).spawned) :
    ∃ b : Bubble, c = .bubble b ∧ b.age = 0 := by
  cases o with
  | bubbleGenerator g =>
    simp only [sceneClass, SceneObject.update, List.mem_map] at hc
    obtain ⟨b, hb, rfl⟩ := hc
    exact ⟨b, rfl, generator_update_age lib rng g dt b hb⟩
  | _ => simp [sceneClass, SceneObject.update] at hc

theorem scene_spawned_inert (lib : CLib) (rng : Rng) (sc : UnderwaterScene SceneObject)
    (dt : ℚ) (o c : SceneObject) (hc : c ∈ ((sceneClass lib).update rng sc dt o).spawned) :
    Inert (sceneClass lib) c := by
  obtain ⟨b, rfl, -⟩ := scene_spawned_bubble lib rng sc dt o c hc
  intro rng2 sc2 dt2
  rfl

/-- C29: in the update pass of the scene of the twelve classes, which always
finishes, `update` is called once with the frame's `dt` on each object of the
collection at the start of the pass, in order, and after those once with the
same `dt` on each object appended during the pass; the collection afterwards
holds the objects whose call returned true.  Every appended object is a bubble
of age 0, and its call in this pass leaves it with age `dt` and, when it is
kept, raised by `riseSpeed * dt`. -/
theorem spawned_visited_same_pass (lib : CLib) (rng : Rng) (s : UnderwaterScene SceneObject)
    (dt : ℚ) :
    (∃ fuel out rng2 log, ∀ f, fuel ≤ f →
      s.update (sceneClass lib) lib f rng dt = some (out, rng2, log)) ∧
    ∀ f out rng2 log, s.update (sceneClass lib) lib f rng dt = some (out, rng2, log) →
      log.map Prod.fst = s.objects ++ spawnedObjects log ∧
      out.objects = keptObjects log ∧
      (∀ c ∈ log, ∃ r sc, c.2 = (sceneClass lib).update r sc dt c.1) ∧
      ∀ c ∈ log.drop s.objects.length, ∃ b b2 : Bubble,
        c.1 = .bubble b ∧ b.age = 0 ∧ c.2.self = .bubble b2 ∧ b2.age = dt ∧
        (c.2.keep = true → b2.position.y = b.position.y + b.riseSpeed * dt) := by
  refine ⟨scene_update_total (sceneClass lib) lib rng s dt
    (fun rng sc dt o c hc => scene_spawned_inert lib rng sc dt o c hc), ?_⟩
  intro f out rng2 log h
  simp only [UnderwaterScene.update, updateEnvironment_objects] at h
  rcases hrec : updateObjects (sceneClass lib) dt (s.updateEnvironment lib dt) f rng [] s.objects
    with _ | ⟨objs, rng', log'⟩
  · rw [hrec] at h; simp at h
  · rw [hrec] at h
    simp only [Option.some.injEq, Prod.mk.injEq] at h
    obtain ⟨rfl, rfl, rfl⟩ := h
    obtain ⟨h1, h2, h3⟩ := updateObjects_log (sceneClass lib) dt _ f rng [] s.objects _ _ _ hrec
    refine ⟨h2, by simpa using h1, h3, ?_⟩
    intro c hc
    have hmem : c.1 ∈ spawnedObjects log' := by
      have hd : (log'.drop s.objects.length).map Prod.fst = spawnedObjects log' := by
        rw [List.map_drop, h2, List.drop_left]
      rw [← hd]
      exact List.mem_map_of_mem Prod.fst hc
    simp only [spawnedObjects, List.mem_flatMap] at hmem
    obtain ⟨c0, hc0, hin⟩ := hmem
    obtain ⟨r0, sc0, e0⟩ := h3 c0 hc0
    rw [e0] at hin
    obtain ⟨b, hb, hage⟩ := scene_spawned_bubble lib r0 sc0 dt c0.1 c.1 hin
    obtain ⟨r, sc, e⟩ := h3 c (List.mem_of_mem_drop hc)
    refine ⟨b, (b.update lib (sceneModelMatrix lib sc) dt).1, hb, hage, ?_, ?_, ?_⟩
    · rw [e, hb]; rfl
    · rw [bubble_update_age, hage, zero_add]
    · intro hk
      apply bubble_update_rise
      rw [e, hb] at hk
      exact hk

/-! ## Transform composer -/

theorem translate_add (p δ : Vec3) : translate (p + δ) = translate δ * translate p := by
  rw [Vec3.add_def]
  ext i j
  fin_cases i <;> fin_cases j <;>
    simp [translate, Matrix.mul_apply, Fin.sum_univ_four, Matrix.vecHead, Matrix.vecTail,
      add_comm]

theorem isAffine_mul (a b : Mat4) (ha : IsAffine a) (hb : IsAffine b) : IsAffine (a * b) := by
  obtain ⟨a0, a1, a2, a3⟩ := ha
  obtain ⟨b0, b1, b2, b3⟩ := hb
  refine ⟨?_, ?_, ?_, ?_⟩ <;>
    simp [Matrix.mul_apply, Fin.sum_univ_four, a0, a1, a2, a3, b0, b1, b2, b3]

theorem isAffine_localMatrix (lib : CLib) (o : UnderwaterObject) :
    IsAffine (localMatrix lib o) := by
  have ht : IsAffine (translate o.position) := by
    simp [IsAffine, translate, Matrix.vecHead, Matrix.vecTail]
  have hz : IsAffine (rotateZ lib o.rotation.z) := by
    simp [IsAffine, rotateZ, Matrix.vecHead, Matrix.vecTail]
  have hy : IsAffine (rotateY lib o.rotation.y) := by
    simp [IsAffine, rotateY, Matrix.vecHead, Matrix.vecTail]
  have hx : IsAffine (rotateX lib o.rotation.x) := by
    simp [IsAffine, rotateX, Matrix.vecHead, Matrix.vecTail]
  have hs : IsAffine (scaleMatrix o.scale) := by
    simp [IsAffine, scaleMatrix, Matrix.vecHead, Matrix.vecTail]
  exact isAffine_mul _ _ (isAffine_mul _ _ (isAffine_mul _ _ (isAffine_mul _ _ ht hz) hy) hx) hs

theorem worldPosition_translate_mul (δ : Vec3) (m : Mat4) (h : m 3 3 = 1) :
    worldPosition (translate δ * m) = worldPosition m + δ := by
  rw [Vec3.add_def]
  simp only [worldPosition]
  ext <;> simp [translate, Matrix.mul_apply, Fin.sum_univ_four, Matrix.vecHead, Matrix.vecTail, h]

theorem localMatrix_shift (lib : CLib) (o : UnderwaterObject) (δ : Vec3) :
    localMatrix lib { o with position := o.position + δ } = translate δ * localMatrix lib o := by
  simp only [localMatrix, translate_add, Matrix.mul_assoc]

theorem fish_chooseTarget_base (lib : CLib) (rng : Rng) (f : Fish) :
    (f.chooseTarget lib rng).1.parent = f.parent ∧ (f.chooseTarget lib rng).1.addr = f.addr ∧
    (f.chooseTarget lib rng).1.lifetime = f.lifetime := by
  unfold Fish.chooseTarget
  dsimp only
  split_ifs <;> exact ⟨rfl, rfl, rfl⟩

/-- The matrix `Fish::update` stores for a fish that does not expire: the
composer applied to the fish as updated, with the parent matrix its `parent`
pointer gives. -/
theorem fish_update_matrix (lib : CLib) (pw : Option ℕ → Option Mat4) (rng : Rng) (f : Fish)
    (dt : ℚ) (hlive : ¬ (f.lifetime > 0 ∧ f.age + dt > f.lifetime)) :
    (f.update lib (fun o => generateModelMatrix lib (pw o.parent) o) rng dt).1.modelMatrix =
      generateModelMatrix lib (pw f.parent)
        (f.update lib (fun o => generateModelMatrix lib (pw o.parent) o) rng
          dt).1.toUnderwaterObject ∧
    (f.update lib (fun o => generateModelMatrix lib (pw o.parent) o) rng dt).1.addr = f.addr ∧
    (f.update lib (fun o => generateModelMatrix lib (pw o.parent) o) rng dt).2.1 = true := by
  simp only [Fish.update]
  rw [if_neg hlive]
  simp only [fish_chooseTarget_base]
  refine ⟨?_, trivial, trivial⟩
  cases pw f.parent <;> rfl

theorem fishFin_update_matrix (lib : CLib) (pw : Option ℕ → Option Mat4) (c : FishFin) (dt : ℚ) :
    (c.update lib (fun o => generateModelMatrix lib (pw o.parent) o) dt).modelMatrix =
      generateModelMatrix lib (pw c.parent)
        (c.update lib (fun o => generateModelMatrix lib (pw o.parent) o) dt).toUnderwaterObject := by
  simp only [FishFin.update]
  cases pw c.parent <;> rfl

/-- The parent pointer that holds the address of the first object of the scene
reads that object's matrix. -/
theorem resolveParent_head (o : SceneObject) (rest : List SceneObject) (a : ℕ)
    (h : o.base.addr = a) : resolveParent (o :: rest) (some a) = some o.base.modelMatrix := by
  simp [resolveParent, List.find?, h]

/-- The pass over two objects that are both kept and append nothing. -/
theorem updateObjects_pair {α : Type} (cls : ObjectClass α) (dt : ℚ) (env : UnderwaterScene α)
    (rng : Rng) (a b : α)
    (hk1 : (cls.update rng { env with objects := [a, b] } dt a).keep = true)
    (hs1 : (cls.update rng { env with objects := [a, b] } dt a).spawned = [])
    (hk2 : (cls.update (cls.update rng { env with objects := [a, b] } dt a).rng
      { env with objects := [(cls.update rng { env with objects := [a, b] } dt a).self, b] }
      dt b).keep = true)
    (hs2 : (cls.update (cls.update rng { env with objects := [a, b] } dt a).rng
      { env with objects := [(cls.update rng { env with objects := [a, b] } dt a).self, b] }
      dt b).spawned = []) :
    updateObjects cls dt env 2 rng [] [a, b] =
      some ([(cls.update rng { env with objects := [a, b] } dt a).self,
          (cls.update (cls.update rng { env with objects := [a, b] } dt a).rng
            { env with objects := [(cls.update rng { env with objects := [a, b] } dt a).self, b] }
            dt b).self],
        (cls.update (cls.update rng { env with objects := [a, b] } dt a).rng
          { env with objects := [(cls.update rng { env with objects := [a, b] } dt a).self, b] }
          dt b).rng,
        [(a, cls.update rng { env with objects := [a, b] } dt a),
          (b, cls.update (cls.update rng { env with objects := [a, b] } dt a).rng
            { env with objects := [(cls.update rng { env with objects := [a, b] } dt a).self, b] }
            dt b)]) := by
  simp [updateObjects, hk1, hs1, hk2, hs2]

/-- C13 (on the composer as the spec gives it): without a parent the world
matrix is the local composition `T · Rz · Ry · Rx · S`; with a parent it is
`ParentWorld · Local`; moving a parent by `δ` shifts the world position of the
child by `δ`; and in the update pass of a fish followed by a fin whose parent it
is, the fin's matrix is the matrix the fish got in this same pass times the
fin's local matrix. -/
theorem model_matrix_composition (lib : CLib) (rng : Rng) (s : UnderwaterScene SceneObject)
    (f : Fish) (c : FishFin) (dt : ℚ) (δ : Vec3)
    (hobjs : s.objects = [.fish f, .fishFin c]) (hroot : f.parent = none)
    (hpar : c.parent = some f.addr)
    (hlive : ¬ (f.lifetime > 0 ∧ f.age + dt > f.lifetime)) :
    (∀ o : UnderwaterObject, generateModelMatrix lib none o =
      translate o.position * rotateZ lib o.rotation.z * rotateY lib o.rotation.y *
        rotateX lib o.rotation.x * scaleMatrix o.scale) ∧
    (∀ (o : UnderwaterObject) (world : Mat4),
      generateModelMatrix lib (some world) o = world * generateModelMatrix lib none o) ∧
    (∀ o par : UnderwaterObject,
      worldPosition (generateModelMatrix lib
          (some (generateModelMatrix lib none { par with position := par.position + δ })) o) =
        worldPosition (generateModelMatrix lib (some (generateModelMatrix lib none par)) o) + δ) ∧
    ∃ out rng2 log f2 c2,
      s.update (sceneClass lib) lib 2 rng dt = some (out, rng2, log) ∧
      out.objects = [.fish f2, .fishFin c2] ∧
      f2.modelMatrix = generateModelMatrix lib none f2.toUnderwaterObject ∧
      c2.modelMatrix = f2.modelMatrix * generateModelMatrix lib none c2.toUnderwaterObject := by
  refine ⟨fun o => rfl, fun o world => rfl, fun o par => ?_, ?_⟩
  · show worldPosition (localMatrix lib { par with position := par.position + δ } *
        localMatrix lib o) = worldPosition (localMatrix lib par * localMatrix lib o) + δ
    rw [localMatrix_shift, Matrix.mul_assoc]
    exact worldPosition_translate_mul δ _
      (isAffine_mul _ _ (isAffine_localMatrix lib par) (isAffine_localMatrix lib o)).2.2.2
  · have hF := fish_update_matrix lib
      (resolveParent ({ s.updateEnvironment lib dt with
        objects := [SceneObject.fish f, SceneObject.fishFin c] } :
          UnderwaterScene SceneObject).objects) rng f dt hlive
    obtain ⟨hFm, hFa, hFk⟩ := hF
    have hrun := updateObjects_pair (sceneClass lib) dt (s.updateEnvironment lib dt) rng
      (SceneObject.fish f) (SceneObject.fishFin c) hFk rfl rfl rfl
    simp only [UnderwaterScene.update, updateEnvironment_objects, hobjs, hrun]
    refine ⟨_, _, _, _, _, rfl, rfl, ?_, ?_⟩
    · rw [hroot] at hFm
      exact hFm
    · have hC := fishFin_update_matrix lib
        (resolveParent [SceneObject.fish
          (f.update lib (fun o => generateModelMatrix lib
            (resolveParent ({ s.updateEnvironment lib dt with
              objects := [SceneObject.fish f, SceneObject.fishFin c] } :
                UnderwaterScene SceneObject).objects o.parent) o) rng dt).1,
          SceneObject.fishFin c]) c dt
      rw [hpar, resolveParent_head (SceneObject.fish _) _ _
        (show (SceneObject.base (SceneObject.fish _)).addr = f.addr from hFa)] at hC
      exact hC

/-- Witness of `model_matrix_composition`: the fish at address 1 followed by its
fin, one frame of a tenth of a second. -/
theorem model_matrix_composition_witness :
    finScene.objects = [.fish finFish, .fishFin finFin] ∧ finFish.parent = none ∧
    finFin.parent = some finFish.addr ∧
    ¬ (finFish.lifetime > 0 ∧ finFish.age + 1 / 10 > finFish.lifetime) ∧
    ∃ out rng2 log f2 c2,
      finScene.update (sceneClass sampleLib) sampleLib 2 sampleRng (1 / 10) =
        some (out, rng2, log) ∧
      out.objects = [.fish f2, .fishFin c2] ∧
      f2.modelMatrix = generateModelMatrix sampleLib none f2.toUnderwaterObject ∧
      c2.modelMatrix = f2.modelMatrix * generateModelMatrix sampleLib none c2.toUnderwaterObject :=
  have hlive : ¬ (finFish.lifetime > 0 ∧ finFish.age + 1 / 10 > finFish.lifetime) := by
    norm_num [finFish, Fish.create]
  ⟨rfl, rfl, rfl, hlive,
    (model_matrix_composition sampleLib sampleRng finScene finFish finFin (1 / 10) ⟨1, 2, 3⟩
      rfl rfl rfl hlive).2.2.2⟩

/-! ## Parents before children -/

theorem parentsSeen_index (l : List SceneObject) :
    ∀ (seen : List ℕ), ParentsSeen seen l →
    ∀ (j : ℕ) (o : SceneObject) (a : ℕ), l[j]? = some o → o.base.parent = some a →
      a ∈ seen ∨ ∃ (i : ℕ) (p : SceneObject), i < j ∧ l[i]? = some p ∧ p.base.addr = a ∧ a ≠ 0 := by
  induction l with
  | nil => intro seen _ j o a hj; simp at hj
  | cons o0 rest ih =>
    intro seen h j o a hj hp
    obtain ⟨hhead, htail⟩ := h
    cases j with
    | zero =>
      simp only [List.getElem?_cons_zero, Option.some.injEq] at hj
      subst hj
      exact Or.inl (hhead a hp)
    | succ j =>
      simp only [List.getElem?_cons_succ] at hj
      rcases ih _ htail j o a hj hp with hmem | ⟨i, p, hi, hpi, hpa, ha⟩
      · by_cases hc : o0.permanent = true ∧ o0.base.addr ≠ 0
        · rw [if_pos hc] at hmem
          rcases List.mem_cons.mp hmem with rfl | hmem
          · exact Or.inr ⟨0, o0, Nat.succ_pos j, by simp, rfl, hc.2⟩
          · exact Or.inl hmem
        · rw [if_neg hc] at hmem
          exact Or.inl hmem
      · exact Or.inr ⟨i + 1, p, Nat.succ_lt_succ hi, by simpa using hpi, hpa, ha⟩

theorem parentBefore_of_parentsSeen (l : List SceneObject) (h : ParentsSeen [] l) :
    ParentBefore l := by
  intro j o a hj hp
  rcases parentsSeen_index l [] h j o a hj hp with hmem | h
  · simp at hmem
  · exact h

theorem parentsSeen_of_orphans (l : List SceneObject) (h : ∀ o ∈ l, o.base.parent = none) :
    ∀ seen, ParentsSeen seen l := by
  induction l with
  | nil => intro seen; trivial
  | cons o rest ih =>
    intro seen
    refine ⟨fun a ha => ?_, ih (fun o ho => h o (List.mem_cons_of_mem _ ho)) _⟩
    rw [h o (List.mem_cons_self _ _)] at ha
    exact Option.noConfusion ha

theorem parentsSeen_append (l1 l2 : List SceneObject) (h2 : ∀ seen, ParentsSeen seen l2) :
    ∀ seen, ParentsSeen seen l1 → ParentsSeen seen (l1 ++ l2) := by
  induction l1 with
  | nil => intro seen _; exact h2 seen
  | cons o rest ih =>
    intro seen h
    exact ⟨h.1, ih _ h.2⟩

theorem pushLoop_parentsSeen (body : ℕ → Rng → List SceneObject × Rng)
    (hbody : ∀ i rng seen, ParentsSeen seen (body i rng).1) :
    ∀ n i rng seen, ParentsSeen seen (pushLoop body n i rng).1 := by
  intro n
  induction n with
  | zero => intro i rng seen; trivial
  | succ n ih =>
    intro i rng seen
    exact parentsSeen_append _ _ (fun seen => ih _ _ seen) seen (hbody i rng seen)

theorem triple_parentsSeen (f : Fish) (l r : FishFin) (hroot : f.parent = none)
    (hlife : f.lifetime ≤ 0) (haddr : f.addr ≠ 0) (hl : l.parent = some f.addr)
    (hr : r.parent = some f.addr) (seen : List ℕ) :
    ParentsSeen seen [.fish f, .fishFin l, .fishFin r] := by
  have hperm : (SceneObject.fish f).permanent = true ∧ (SceneObject.fish f).base.addr ≠ 0 :=
    ⟨by simpa [SceneObject.permanent] using hlife, haddr⟩
  refine ⟨fun a ha => ?_, ?_⟩
  · have ha' : f.parent = some a := ha
    rw [hroot] at ha'
    exact Option.noConfusion ha'
  · rw [if_pos hperm]
    refine ⟨fun a ha => ?_, ?_, trivial⟩
    · have ha' : l.parent = some a := ha
      rw [hl] at ha'
      rw [← Option.some.inj ha']
      exact List.mem_cons_self _ _
    · refine fun a ha => ?_
      have ha' : r.parent = some a := ha
      rw [hr] at ha'
      rw [← Option.some.inj ha']
      split_ifs
      · exact List.mem_cons_of_mem _ (List.mem_cons_self _ _)
      · exact List.mem_cons_self _ _

theorem school1Body_parentsSeen (lib : CLib) (i : ℕ) (rng : Rng) (seen : List ℕ) :
    ParentsSeen seen (school1Body lib i rng).1 := by
  refine triple_parentsSeen _ _ _ rfl ?_ ?_ rfl rfl seen
  · show (-1 : ℚ) ≤ 0
    norm_num
  · show i + 1 ≠ 0
    omega

theorem orphanBody_parentsSeen (body : ℕ → Rng → List SceneObject × Rng)
    (h : ∀ i rng, ∀ o ∈ (body i rng).1, o.base.parent = none) :
    ∀ n i rng seen, ParentsSeen seen (pushLoop body n i rng).1 :=
  pushLoop_parentsSeen body (fun i rng seen => parentsSeen_of_orphans _ (h i rng) seen)

theorem initObjects_parentsSeen (lib : CLib) (rng : Rng) (seen : List ℕ) :
    ParentsSeen seen (initObjects lib rng).1 := by
  have hfish : ∀ id center a b c s0 ds v0 dv n i rng seen,
      ParentsSeen seen (pushLoop (fishBody lib id center a b c s0 ds v0 dv) n i rng).1 :=
    fun id center a b c s0 ds v0 dv => orphanBody_parentsSeen _ (by
      intro i rng o ho
      simp only [fishBody, List.mem_singleton] at ho
      rw [ho]; rfl)
  have hfish1 : ∀ id center a b c s0 ds v0 dv n i rng seen,
      ParentsSeen seen (pushLoop (fish1Body lib id center a b c s0 ds v0 dv) n i rng).1 :=
    fun id center a b c s0 ds v0 dv => orphanBody_parentsSeen _ (by
      intro i rng o ho
      simp only [fish1Body, List.mem_singleton] at ho
      rw [ho]; rfl)
  have hweed : ∀ n i rng seen, ParentsSeen seen (pushLoop (seaweedBody lib) n i rng).1 :=
    orphanBody_parentsSeen _ (by
      intro i rng o ho
      simp only [seaweedBody, List.mem_singleton] at ho
      rw [ho]; rfl)
  have hrock : ∀ x0 dx z0 dz s0 ds k n i rng seen,
      ParentsSeen seen (pushLoop (scaledRockBody lib x0 dx z0 dz s0 ds k) n i rng).1 :=
    fun x0 dx z0 dz s0 ds k => orphanBody_parentsSeen _ (by
      intro i rng o ho
      simp only [scaledRockBody, List.mem_singleton] at ho
      rw [ho]; rfl)
  have hcluster : ∀ x0 z0 d n i rng seen,
      ParentsSeen seen (pushLoop (clusterRockBody lib x0 z0 d) n i rng).1 :=
    fun x0 z0 d => orphanBody_parentsSeen _ (by
      intro i rng o ho
      simp only [clusterRockBody, List.mem_singleton] at ho
      rw [ho]; rfl)
  have hjelly : ∀ center a b c s0 ds alpha n i rng seen,
      ParentsSeen seen (pushLoop (jellyfishBody lib center a b c s0 ds alpha) n i rng).1 :=
    fun center a b c s0 ds alpha => orphanBody_parentsSeen _ (by
      intro i rng o ho
      simp only [jellyfishBody, List.mem_singleton] at ho
      rw [ho]; rfl)
  have hone : ∀ o : SceneObject, o.base.parent = none → ∀ seen, ParentsSeen seen [o] :=
    fun o ho => parentsSeen_of_orphans [o] (by
      intro p hp
      rw [List.mem_singleton.mp hp]; exact ho)
  have hs1 := pushLoop_parentsSeen (school1Body lib) (school1Body_parentsSeen lib)
  unfold initObjects
  dsimp only
  refine parentsSeen_append _ _ (fun seen => ?_) seen
    (parentsSeen_of_orphans _ (by
      intro o ho
      simp only [List.mem_cons, List.mem_singleton, List.not_mem_nil, or_false] at ho
      rcases ho with rfl | rfl | rfl <;> rfl) seen)
  refine parentsSeen_append _ _ (fun seen => ?_) seen (hs1 _ _ _ seen)
  refine parentsSeen_append _ _ (fun seen => ?_) seen (hfish _ _ _ _ _ _ _ _ _ _ _ _ seen)
  refine parentsSeen_append _ _ (fun seen => ?_) seen (hfish _ _ _ _ _ _ _ _ _ _ _ _ seen)
  refine parentsSeen_append _ _ (fun seen => ?_) seen (hfish1 _ _ _ _ _ _ _ _ _ _ _ _ seen)
  refine parentsSeen_append _ _ (fun seen => ?_) seen (hfish1 _ _ _ _ _ _ _ _ _ _ _ _ seen)
  refine parentsSeen_append _ _ (fun seen => ?_) seen (hone _ (by rfl) seen)
  refine parentsSeen_append _ _ (fun seen => ?_) seen (hweed _ _ _ seen)
  refine parentsSeen_append _ _ (fun seen => ?_) seen (hrock _ _ _ _ _ _ _ _ _ _ seen)
  refine parentsSeen_append _ _ (fun seen => ?_) seen (hcluster _ _ _ _ _ _ seen)
  refine parentsSeen_append _ _ (fun seen => ?_) seen (hcluster _ _ _ _ _ _ seen)
  refine parentsSeen_append _ _ (fun seen => ?_) seen (hrock _ _ _ _ _ _ _ _ _ _ seen)
  refine parentsSeen_append _ _ (fun seen => ?_) seen (hjelly _ _ _ _ _ _ _ _ _ _ seen)
  refine parentsSeen_append _ _ (fun seen => ?_) seen (hjelly _ _ _ _ _ _ _ _ _ _ seen)
  refine parentsSeen_append _ _ (fun seen => ?_) seen (hjelly _ _ _ _ _ _ _ _ _ _ seen)
  exact hone _ (by rfl) seen

theorem fish1_chooseTarget_base (lib : CLib) (rng : Rng) (f : Fish1) :
    (f.chooseTarget lib rng).1.parent = f.parent ∧ (f.chooseTarget lib rng).1.addr = f.addr := by
  unfold Fish1.chooseTarget
  dsimp only
  split_ifs <;> exact ⟨rfl, rfl⟩

theorem fish_update_base (lib : CLib) (gmm : UnderwaterObject → Mat4) (rng : Rng) (f : Fish)
    (dt : ℚ) :
    (f.update lib gmm rng dt).1.addr = f.addr ∧ (f.update lib gmm rng dt).1.parent = f.parent ∧
    (f.update lib gmm rng dt).1.lifetime = f.lifetime ∧
    (f.lifetime ≤ 0 → (f.update lib gmm rng dt).2.1 = true) := by
  by_cases h : f.lifetime > 0 ∧ f.age + dt > f.lifetime
  · have hu : f.update lib gmm rng dt = ({ f with age := f.age + dt }, false, rng) := by
      simp only [Fish.update]
      rw [if_pos h]
    rw [hu]
    exact ⟨rfl, rfl, rfl, fun hl => absurd h.1 (not_lt.mpr hl)⟩
  · refine ⟨?_, ?_, ?_, fun _ => ?_⟩ <;>
      simp only [Fish.update, if_neg h, fish_chooseTarget_base]

theorem fish1_update_base (lib : CLib) (gmm : UnderwaterObject → Mat4) (rng : Rng) (f : Fish1)
    (dt : ℚ) :
    (f.update lib gmm rng dt).1.addr = f.addr ∧ (f.update lib gmm rng dt).1.parent = f.parent := by
  constructor <;> simp only [Fish1.update, fish1_chooseTarget_base]

theorem bubble_update_base (lib : CLib) (gmm : UnderwaterObject → Mat4) (b : Bubble) (dt : ℚ) :
    (b.update lib gmm dt).1.addr = b.addr ∧ (b.update lib gmm dt).1.parent = b.parent := by
  simp only [Bubble.update]
  split_ifs <;> exact ⟨rfl, rfl⟩

/-- No `update` changes the address, the parent pointer or the permanence of its
object, and the `update` of a permanent object returns true. -/
theorem scene_update_base (lib : CLib) (rng : Rng) (sc : UnderwaterScene SceneObject) (dt : ℚ)
    (o : SceneObject) :
    ((sceneClass lib).update rng sc dt o).self.base.addr = o.base.addr ∧
    ((sceneClass lib).update rng sc dt o).self.base.parent = o.base.parent ∧
    ((sceneClass lib).update rng sc dt o).self.permanent = o.permanent ∧
    (o.permanent = true → ((sceneClass lib).update rng sc dt o).keep = true) := by
  cases o with
  | fish f =>
    obtain ⟨h1, h2, h3, h4⟩ := fish_update_base lib (sceneModelMatrix lib sc) rng f dt
    refine ⟨h1, h2, ?_, fun hp => h4 (of_decide_eq_true hp)⟩
    show decide ((f.update lib (sceneModelMatrix lib sc) rng dt).1.lifetime ≤ 0) =
      decide (f.lifetime ≤ 0)
    rw [h3]
  | fish1 f =>
    obtain ⟨h1, h2⟩ := fish1_update_base lib (sceneModelMatrix lib sc) rng f dt
    exact ⟨h1, h2, rfl, fun _ => rfl⟩
  | bubble b =>
    obtain ⟨h1, h2⟩ := bubble_update_base lib (sceneModelMatrix lib sc) b dt
    exact ⟨h1, h2, rfl, fun hp => Bool.noConfusion hp⟩
  | skybox k => exact ⟨rfl, rfl, rfl, fun _ => rfl⟩
  | ground k => exact ⟨rfl, rfl, rfl, fun _ => rfl⟩
  | waterSurface k => exact ⟨rfl, rfl, rfl, fun _ => rfl⟩
  | fishFin k => exact ⟨rfl, rfl, rfl, fun _ => rfl⟩
  | seaweed k => exact ⟨rfl, rfl, rfl, fun _ => rfl⟩
  | seaweedInstanced k => exact ⟨rfl, rfl, rfl, fun _ => rfl⟩
  | rock k => exact ⟨rfl, rfl, rfl, fun _ => rfl⟩
  | jellyfish k => exact ⟨rfl, rfl, rfl, fun _ => rfl⟩
  | bubbleGenerator k =>
    refine ⟨?_, ?_, rfl, fun _ => rfl⟩
    · simp only [sceneClass, SceneObject.update, SceneObject.base, BubbleGenerator.update]
      split_ifs <;> rfl
    · simp only [sceneClass, SceneObject.update, SceneObject.base, BubbleGenerator.update]
      split_ifs <;> rfl

theorem spawnLoop_orphan (lib : CLib) (g : BubbleGenerator) (n : ℕ) (rng : Rng) :
    ∀ b ∈ (g.spawnLoop lib n rng).1, b.parent = none := by
  induction n generalizing rng with
  | zero => intro b hb; simp [BubbleGenerator.spawnLoop] at hb
  | succ n ih =>
    intro b hb
    simp only [BubbleGenerator.spawnLoop, List.mem_cons] at hb
    rcases hb with rfl | hb
    · rfl
    · exact ih _ b hb

/-- What an `update` appends to the scene has no parent pointer. -/
theorem scene_spawned_orphan (lib : CLib) (rng : Rng) (sc : UnderwaterScene SceneObject)
    (dt : ℚ) (o c : SceneObject) (hc : c ∈ ((sceneClass lib).update rng sc dt o).spawned) :
    c.base.parent = none := by
  cases o with
  | bubbleGenerator g =>
    simp only [sceneClass, SceneObject.update, List.mem_map] at hc
    obtain ⟨b, hb, rfl⟩ := hc
    simp only [BubbleGenerator.update] at hb
    split_ifs at hb
    · exact spawnLoop_orphan lib _ _ _ b hb
    · simp at hb
  | _ => simp [sceneClass, SceneObject.update] at hc

theorem kept_parentsSeen (log : List (UpdateCall SceneObject))
    (hlog : ∀ c ∈ log, c.2.self.base.addr = c.1.base.addr ∧
      c.2.self.base.parent = c.1.base.parent ∧ c.2.self.permanent = c.1.permanent ∧
      (c.1.permanent = true → c.2.keep = true)) :
    ∀ seen, ParentsSeen seen (log.map Prod.fst) → ParentsSeen seen (keptObjects log) := by
  induction log with
  | nil => intro seen _; trivial
  | cons c rest ih =>
    intro seen h
    obtain ⟨hhead, htail⟩ := h
    obtain ⟨ha, hp, hperm, hkeep⟩ := hlog c (List.mem_cons_self _ _)
    have ih' := ih (fun c hc => hlog c (List.mem_cons_of_mem _ hc))
    by_cases hk : c.2.keep = true
    · have e : keptObjects (c :: rest) = c.2.self :: keptObjects rest := by
        simp [keptObjects, hk]
      rw [e]
      refine ⟨fun a h => hhead a (hp ▸ h), ?_⟩
      rw [ha, hperm]
      exact ih' _ htail
    · have e : keptObjects (c :: rest) = keptObjects rest := by
        simp [keptObjects, hk]
      rw [e]
      have hnp : ¬ (c.1.permanent = true ∧ c.1.base.addr ≠ 0) := fun hc => hk (hkeep hc.1)
      rw [if_neg hnp] at htail
      exact ih' _ htail

/-- What a finished update pass returns, in terms of its log. -/
theorem scene_update_log {α : Type} (cls : ObjectClass α) (lib : CLib) (rng : Rng)
    (s : UnderwaterScene α) (dt : ℚ) (f : ℕ) (out : UnderwaterScene α) (rng2 : Rng)
    (log : List (UpdateCall α)) (h : s.update cls lib f rng dt = some (out, rng2, log)) :
    out.objects = keptObjects log ∧
    log.map Prod.fst = s.objects ++ spawnedObjects log ∧
    ∀ c ∈ log, ∃ r sc, c.2 = cls.update r sc dt c.1 := by
  simp only [UnderwaterScene.update, updateEnvironment_objects] at h
  rcases hrec : updateObjects cls dt (s.updateEnvironment lib dt) f rng [] s.objects
    with _ | ⟨objs, rng', log'⟩
  · rw [hrec] at h; simp at h
  · rw [hrec] at h
    simp only [Option.some.injEq, Prod.mk.injEq] at h
    obtain ⟨rfl, rfl, rfl⟩ := h
    obtain ⟨h1, h2, h3⟩ := updateObjects_log cls dt _ f rng [] s.objects _ _ _ hrec
    exact ⟨by simpa using h1, h2, h3⟩

theorem update_parentsSeen (lib : CLib) (s out : UnderwaterScene SceneObject) (fuel : ℕ)
    (rng rng2 : Rng) (dt : ℚ) (log : List (UpdateCall SceneObject))
    (hs : ParentsSeen [] s.objects)
    (h : s.update (sceneClass lib) lib fuel rng dt = some (out, rng2, log)) :
    ParentsSeen [] (log.map Prod.fst) ∧ ParentsSeen [] out.objects := by
  obtain ⟨h1, h2, h3⟩ := scene_update_log (sceneClass lib) lib rng s dt fuel out rng2 log h
  have horph : ∀ o ∈ spawnedObjects log, o.base.parent = none := by
    intro o ho
    simp only [spawnedObjects, List.mem_flatMap] at ho
    obtain ⟨c0, hc0, hin⟩ := ho
    obtain ⟨r0, sc0, e0⟩ := h3 c0 hc0
    rw [e0] at hin
    exact scene_spawned_orphan lib r0 sc0 dt c0.1 o hin
  have hall : ParentsSeen [] (log.map Prod.fst) := by
    rw [h2]
    exact parentsSeen_append _ _ (parentsSeen_of_orphans _ horph) [] hs
  refine ⟨hall, ?_⟩
  rw [h1]
  refine kept_parentsSeen log (fun c hc => ?_) [] hall
  obtain ⟨r, sc, e⟩ := h3 c hc
  rw [e]
  exact scene_update_base lib r sc dt c.1

theorem reachable_parentsSeen (lib : CLib) (s : UnderwaterScene SceneObject)
    (h : Reachable lib s) : ParentsSeen [] s.objects := by
  induction h with
  | init rng scene => exact initObjects_parentsSeen lib rng []
  | update s out fuel rng rng2 dt log _ hu ih =>
    exact (update_parentsSeen lib s out fuel rng rng2 dt log ih hu).2

/-- C19: in the population built by `initScene` and in every scene state reached
from it by finished calls of `UnderwaterScene::update`, every object with a
parent pointer comes later in the collection than an object at the address the
pointer holds, which is therefore still in the collection; and in every update
pass from such a state the `update` call on the parent comes before the call on
the child. -/
theorem parents_precede_children (lib : CLib) (s : UnderwaterScene SceneObject)
    (h : Reachable lib s) :
    ParentBefore s.objects ∧
    ∀ (fuel : ℕ) (rng : Rng) (dt : ℚ) (out : UnderwaterScene SceneObject) (rng2 : Rng)
      (log : List (UpdateCall SceneObject)),
      s.update (sceneClass lib) lib fuel rng dt = some (out, rng2, log) →
      ∀ (j : ℕ) (c : UpdateCall SceneObject) (a : ℕ), log[j]? = some c →
        c.1.base.parent = some a →
        ∃ (i : ℕ) (p : UpdateCall SceneObject),
          i < j ∧ log[i]? = some p ∧ p.1.base.addr = a ∧ a ≠ 0 := by
  have hs := reachable_parentsSeen lib s h
  refine ⟨parentBefore_of_parentsSeen _ hs, ?_⟩
  intro fuel rng dt out rng2 log hu j c a hj hp
  have hall := (update_parentsSeen lib s out fuel rng rng2 dt log hs hu).1
  have hj' : (log.map Prod.fst)[j]? = some c.1 := by
    rw [List.getElem?_map, hj]; rfl
  obtain ⟨i, p, hi, hpi, hpa, ha⟩ := parentBefore_of_parentsSeen _ hall j c.1 a hj' hp
  rw [List.getElem?_map] at hpi
  rcases hli : log[i]? with _ | q
  · rw [hli] at hpi; simp at hpi
  · rw [hli] at hpi
    simp only [Option.map_some', Option.some.injEq] at hpi
    exact ⟨i, q, hi, hli, by rw [hpi]; exact hpa, ha⟩

/-- The collection `initScene` builds holds an object with the parent pointer 1:
the left fin of the first fish of school 1. -/
theorem initObjects_has_child (lib : CLib) (rng : Rng) :
    ∃ o ∈ (initObjects lib rng).1, o.base.parent = some 1 := by
  have h1 : ∀ n, ∃ o ∈ (pushLoop (school1Body lib) (n + 1) 0 rng).1, o.base.parent = some 1 := by
    intro n
    rw [pushLoop]
    refine ⟨_, List.mem_append_left _ (List.mem_cons_of_mem _ (List.mem_cons_self _ _)), ?_⟩
    rfl
  obtain ⟨o, ho, hp⟩ := h1 7
  refine ⟨o, ?_, hp⟩
  unfold initObjects
  dsimp only
  exact List.mem_append_right _ (List.mem_append_left _ ho)

/-- Witness of `parents_precede_children`: the scene `initScene` builds, which
holds an object with the parent pointer 1. -/
theorem parents_precede_children_witness :
    Reachable sampleLib (initScene sampleLib sampleRng jellyScene).1 ∧
    ParentBefore (initScene sampleLib sampleRng jellyScene).1.objects ∧
    ∃ o ∈ (initScene sampleLib sampleRng jellyScene).1.objects, o.base.parent = some 1 :=
  ⟨Reachable.init sampleRng jellyScene,
    (parents_precede_children sampleLib _ (Reachable.init sampleRng jellyScene)).1,
    initObjects_has_child sampleLib sampleRng⟩

end Underwater
